import Mathlib

/-!
# The `Image` binding of node-mapnik (`src/mapnik_image.cpp`)

A shallow embedding of the C++ binding class `Image`: the host (V8) values the
binding inspects, the native wrapper objects, the libuv work queue, and the
binding functions themselves, written as state-passing functions.

Conventions.

* Host values are `Value`; an argument list (`v8::Arguments`) is a `List Value`
  and reading past its end yields `undefined`, as `Arguments::operator[]` does.
* The imaging library (mapnik) and the few host conversions the file relies on
  are parameters, collected in `Mapnik`; the general theorems hold for all of
  them, and concrete evaluations use the instance `sampleMapnik`.
* C `unsigned` values are natural numbers reduced modulo `2 ^ 32` wherever the
  C++ expression can exceed 32 bits.
* C `double` arithmetic is IEEE-754 binary64 with round-to-nearest-even on every
  single operation (no extended-precision intermediates, no fused
  multiply-add); the values occurring in the file are represented exactly as
  natural multiples of `2 ^ (-56)`.
-/

namespace MapnikImage

/-! ## Library types -/

/-- The type `mapnik::color`: four channels stored in 8 bits each. -/
structure color where
  red_ : Nat
  green_ : Nat
  blue_ : Nat
  alpha_ : Nat
  deriving DecidableEq, Repr, Inhabited

/-- Getter `color::red()`: the stored byte, as `unsigned`. -/
def color.red (c : color) : Nat := c.red_ % 256
/-- Getter `color::green()`. -/
def color.green (c : color) : Nat := c.green_ % 256
/-- Getter `color::blue()`. -/
def color.blue (c : color) : Nat := c.blue_ % 256

/-- The type `mapnik::image_data_32`: `width * height` pixel words, row after row. -/
structure image_data_32 where
  width : Nat
  height : Nat
  pixels : List Nat
  deriving DecidableEq, Repr, Inhabited

/-- The type `mapnik::image_32`: pixel data, optional background, painted flag. -/
structure image_32 where
  data : image_data_32
  background : Option color
  painted : Bool
  deriving DecidableEq, Repr, Inhabited

/-- The accessor `image_32::width()`. -/
def image_32.width (im : image_32) : Nat := im.data.width
/-- The accessor `image_32::height()`. -/
def image_32.height (im : image_32) : Nat := im.data.height

/-- A palette (`mapnik::rgba_palette`), identified by a number. -/
abbrev rgba_palette := Nat
/-- The type `palette_ptr`: a shared pointer, possibly null. -/
abbrev palette_ptr := Option rgba_palette
/-- An image filter (`mapnik::filter::filter_type`), identified by a number. -/
abbrev filter_type := Nat

/-! ## Floating-point arithmetic -/

/-- How many low bits have to go for `n` to fit a significand of `prec` bits.
The second argument bounds the recursion; `excessBits prec n n` is always enough. -/
def excessBits (prec : Nat) : Nat → Nat → Nat
  | 0, _ => 0
  | fuel + 1, n => if n < 2 ^ prec then 0 else excessBits prec fuel (n / 2) + 1

/-- Rounding of `n` to a significand of `prec` bits, nearest with ties to even:
the pair `(q, e)` stands for the rounded value `q * 2 ^ e`. -/
def roundSignificand (prec n : Nat) : Nat × Nat :=
  let e := excessBits prec n n
  let q := n / 2 ^ e
  let rem := n % 2 ^ e
  if 2 * rem < 2 ^ e then (q, e)
  else if 2 * rem = 2 ^ e ∧ q % 2 = 0 then (q, e)
  else (q + 1, e)

/-- Rounding of an exact result to binary64, nearest with ties to even, on
values counted in units of `2 ^ (-56)` (normal range, no overflow). -/
def roundToDouble (n : Nat) : Nat :=
  (roundSignificand 53 n).1 * 2 ^ (roundSignificand 53 n).2

/-- The literal `.3` as a double: `0x1.3333333333333p-2`, in units of `2 ^ (-56)`. -/
def lit_3 : Nat := 21617278211378380
/-- The literal `.59` as a double: `0x1.2e147ae147ae1p-1`, in units of `2 ^ (-56)`. -/
def lit_59 : Nat := 42513980482377480
/-- The literal `.11` as a double: `0x1.c28f5c28f5c29p-4`, in units of `2 ^ (-56)`. -/
def lit_11 : Nat := 7926335344172073

/-- The expression `(int)((r * .3) + (g * .59) + (b * .11))` for `unsigned`
`r`, `g`, `b` below 256: three rounded products, two rounded sums (left to
right), then truncation. -/
def luminance (r g b : Nat) : Nat :=
  roundToDouble
    (roundToDouble (roundToDouble (r * lit_3) + roundToDouble (g * lit_59))
      + roundToDouble (b * lit_11)) / 2 ^ 56

/-! ## Host values -/

/-- What a host object is, as far as the binding can tell: a plain object, a
function, an error object, or an instance of one of the wrapped classes with
the native value it wraps (the wrapper classes `Color`, `Palette` and
`ImageView` are declared in other files; only `HasInstance` and `Unwrap` are
used on them). -/
inductive ObjKind where
  | plain
  | function (id : Nat)
  | Image (ptr : Nat)
  | ImageView (im : Nat) (x y w h : Nat)
  | Color (c : color)
  | Palette (p : palette_ptr)
  | Buffer (bytes : List Nat)
  | Error (message : String)
  | TypeError (message : String)
  deriving DecidableEq, Repr, Inhabited

/-- A host value. A number is the finite double `mant * 2 ^ exp`; every object
(functions included) carries its own properties. -/
inductive Value where
  | undefined
  | null
  | boolean (b : Bool)
  | number (mant : Int) (exp : Int)
  | string (s : String)
  | external (ptr : Nat)
  | object (kind : ObjKind) (props : List (String × Value))
  deriving Repr, Inhabited

/-- An integer as a host number. -/
def Value.int (n : Int) : Value := .number n 0

/-- Host predicate `Value::IsString`. -/
def Value.IsString : Value → Bool
  | .string _ => true
  | _ => false

/-- Host predicate `Value::IsNumber`. -/
def Value.IsNumber : Value → Bool
  | .number _ _ => true
  | _ => false

/-- Host predicate `Value::IsObject`: true of every object, functions included. -/
def Value.IsObject : Value → Bool
  | .object _ _ => true
  | _ => false

/-- Host predicate `Value::IsFunction`. -/
def Value.IsFunction : Value → Bool
  | .object (.function _) _ => true
  | _ => false

/-- Host predicate `Value::IsExternal`. -/
def Value.IsExternal : Value → Bool
  | .external _ => true
  | _ => false

/-- Host query `Object::Has(key)` on the result of `ToObject()`. -/
def Value.Has : Value → String → Bool
  | .object _ props, key => props.any (fun kv => kv.1 == key)
  | _, _ => false

/-- Host query `Object::Get(key)`: the first binding of the key, else `undefined`. -/
def Value.Get : Value → String → Value
  | .object _ props, key =>
    match props.find? (fun kv => kv.1 == key) with
    | some kv => kv.2
    | none => .undefined
  | _, _ => .undefined

/-- The indexing `args[i]` of `v8::Arguments` with an `int` index: `undefined`
when the index is negative or not below `Length()`. -/
def argAt (args : List Value) (i : Int) : Value :=
  if i < 0 then .undefined else args.getD i.toNat .undefined

/-- The expression `args[args.Length()-1]`. -/
def lastArg (args : List Value) : Value := argAt args ((args.length : Int) - 1)

/-- The characters a `char*` stands for: those before the first NUL. -/
def c_str (s : String) : String := ⟨s.data.takeWhile fun ch => ch != Char.ofNat 0⟩

/-- Modelled from the spec: the macro `TOSTR` of utils.hpp, which is not among
the sources; the coercion of a host string to a `char*`, from which the
`std::string` is built: the characters up to the first NUL. It is only applied
to values already known to be strings. -/
def TOSTR : Value → String
  | .string s => c_str s
  | _ => ""

/-- The object built by `Exception::Error(String::New(msg))`. -/
def Exception.Error (msg : String) : Value := .object (.Error msg) []
/-- The object built by `Exception::TypeError(String::New(msg))`. -/
def Exception.TypeError (msg : String) : Value := .object (.TypeError msg) []
/-- The buffer object built by `node::Buffer::New(data, size)`. -/
def Buffer.New (bytes : List Nat) : Value := .object (.Buffer bytes) []

/-- Conversion of a 64-bit integer to `unsigned int`. -/
def toUnsigned (i : Int) : Nat := (i % 2 ^ 32).toNat
/-- Conversion of an integer to a 32-bit `int` (two's complement). -/
def toInt32 (i : Int) : Int := if i % 2 ^ 32 < 2 ^ 31 then i % 2 ^ 32 else i % 2 ^ 32 - 2 ^ 32

/-- How a call into the binding ends: a value is returned, a host exception is
thrown with `ThrowException`, or a C++ exception leaves the function uncaught. -/
inductive Completion where
  | value (v : Value)
  | throw (e : Value)
  | uncaught (what : String)
  deriving Repr, Inhabited

/-! ## The imaging library -/

/-- The type `mapnik::image_reader`, as used here: the size it announces and
its `read(0, 0, data)`. -/
structure image_reader where
  width : Nat
  height : Nat
  read : image_data_32 → Except String image_data_32

/-- The imaging library and the host conversions the binding calls. Functions
that can throw a `std::exception` return its `what()` as the error. The field
`dead_chars` gives what is read later at the place of the characters of a
`std::string` that has been destroyed, which the language does not define;
`float_special` gives the `float` a number outside the range of `float_range`
converts to. -/
structure Mapnik where
  MAPNIK_VERSION : Nat
  src_over : Int
  new_image_32 : Nat → Nat → Except String image_32
  clear : image_32 → Except String image_32
  premultiply : image_32 → Except String image_32
  demultiply : image_32 → Except String image_32
  set_grayscale_to_alpha : image_32 → Except String image_32
  save_to_string : image_32 → String → Except String (List Nat)
  save_to_string_palette : image_32 → String → rgba_palette → Except String (List Nat)
  save_to_file : image_data_32 → String → String → Except String Unit
  guess_type : String → String
  type_from_filename : String → Option String
  get_image_reader : String → String → Except String (Option image_reader)
  get_image_reader_bytes : List Nat → Except String (Option image_reader)
  parse_image_filters : String → Except String (Option (List filter_type))
  apply_filter : image_32 → filter_type → Except String image_32
  composite : image_data_32 → image_data_32 → Int → Int × Int → Int → Int →
    Except String image_data_32
  ToInteger : Value → Int
  dead_chars : String → String
  float_special : Value → Int × Int

/-- The integer part of the finite double `mant * 2 ^ exp`, toward zero. -/
def truncate (mant exp : Int) : Int :=
  if 0 ≤ exp then mant * 2 ^ exp.toNat else Int.tdiv mant (2 ^ (-exp).toNat)

/-- Host conversion `int64_t Value::IntegerValue()`: a number is truncated toward
zero when the result is in the range of `int64_t`, and is whatever the host
yields otherwise; `undefined`, `null` and booleans convert as ECMAScript
prescribes; the conversion of strings and objects is the host's. -/
def IntegerValue (m : Mapnik) : Value → Int
  | .number mant exp =>
    if -2 ^ 63 ≤ truncate mant exp ∧ truncate mant exp < 2 ^ 63 then truncate mant exp
    else m.ToInteger (.number mant exp)
  | .undefined => 0
  | .null => 0
  | .boolean b => if b then 1 else 0
  | v => m.ToInteger v

/-- The double `mant * 2 ^ exp` rounded to a significand of 24 bits, nearest
with ties to even, the exponent being unbounded: the pair `(q, e)` stands for
`q * 2 ^ e`. -/
def round_to_float (mant exp : Int) : Int × Int :=
  (Int.sign mant * (roundSignificand 24 mant.natAbs).1,
    exp + (roundSignificand 24 mant.natAbs).2)

/-- Whether `q * 2 ^ e`, with `q` of at most 24 bits, is zero, or has its last
place at `2 ^ (-149)` or above and a magnitude below `2 ^ 128`: it is then a
finite `float`, and the rounding to 24 bits is the conversion from `double`. -/
def float_range (q e : Int) : Bool :=
  q == 0 || (decide (-149 ≤ e) && decide (q.natAbs * 2 ^ e.toNat < 2 ^ 128))

/-- Host conversion `Value::NumberValue()` of a number, assigned to a `float`:
the double `mant * 2 ^ exp` rounded to a 24-bit significand when the result is
in the range of `float_range`; otherwise (overflow to infinity, results below
the normal range) the value is the platform's, which is not computed here. -/
def NumberValue_float (m : Mapnik) : Value → Int × Int
  | .number mant exp =>
    if float_range (round_to_float mant exp).1 (round_to_float mant exp).2 then
      round_to_float mant exp
    else m.float_special (.number mant exp)
  | _ => (0, 0)

/-! ## Native wrappers, job records and the state of the process -/

/-- The native class `Image : node::ObjectWrap`: the pixel buffer `this_`, the
announced size, and the reference count `refs_` kept by `Ref()` / `Unref()`. -/
structure Image where
  this_ : image_32
  estimated_size_ : Int
  refs_ : Nat
  deriving DecidableEq, Repr, Inhabited

/-- Character data behind a `const char *` of a job record. -/
inductive RawData where
  | chars (s : String)
  | bytes (b : List Nat)
  deriving DecidableEq, Repr, Inhabited

/-- The record `clear_image_baton_t`. -/
structure clear_image_baton_t where
  im : Nat
  format : String
  error : Bool
  error_name : String
  cb : Value

/-- The record `image_op_baton_t`. -/
structure image_op_baton_t where
  im : Nat
  error : Bool
  error_name : String
  cb : Value

/-- The record `image_ptr_baton_t`. -/
structure image_ptr_baton_t where
  im : Option image_32
  data : RawData
  error : Bool
  error_name : String
  cb : Value

/-- The record `encode_image_baton_t`. -/
structure encode_image_baton_t where
  im : Nat
  format : String
  palette : palette_ptr
  error : Bool
  error_name : String
  cb : Value
  result : List Nat

/-- The record `composite_image_baton_t`. -/
structure composite_image_baton_t where
  im1 : Nat
  im2 : Nat
  mode : Int
  dx : Int
  dy : Int
  opacity : Int × Int
  filters : List filter_type
  error : Bool
  error_name : String
  cb : Value

/-- A request handed to `uv_queue_work`: the record together with its pair of
work and after-work functions. -/
inductive Job where
  | Clear (closure : clear_image_baton_t)
  | Premultiply (closure : image_op_baton_t)
  | Demultiply (closure : image_op_baton_t)
  | Open (closure : image_ptr_baton_t)
  | FromBytes (closure : image_ptr_baton_t)
  | Encode (closure : encode_image_baton_t)
  | Composite (closure : composite_image_baton_t)

/-- The state of the process the binding acts on: the native wrappers by
address, the work queue (oldest first), the callback calls made so far, the
files written, and the total announced to
`V8::AdjustAmountOfExternalAllocatedMemory`. -/
structure State where
  heap : List Image
  queue : List Job
  calls : List (Value × List Value)
  files : List (String × String × image_data_32)
  external_memory : Int

/-- The wrapper at an address (`node::ObjectWrap::Unwrap<Image>`). -/
def State.image (st : State) (ptr : Nat) : Image := st.heap.getD ptr default

/-- Overwrite the wrapper at an address. -/
def State.setImage (st : State) (ptr : Nat) (im : Image) : State :=
  { st with heap := st.heap.set ptr im }

/-- Overwrite the pixel buffer of the wrapper at an address. -/
def State.setBuffer (st : State) (ptr : Nat) (buf : image_32) : State :=
  st.setImage ptr { st.image ptr with this_ := buf }

/-- The call `im->Ref()`. -/
def State.Ref (st : State) (ptr : Nat) : State :=
  st.setImage ptr { st.image ptr with refs_ := (st.image ptr).refs_ + 1 }

/-- The call `im->Unref()`. -/
def State.Unref (st : State) (ptr : Nat) : State :=
  st.setImage ptr { st.image ptr with refs_ := (st.image ptr).refs_ - 1 }

/-- The call `uv_queue_work(uv_default_loop(), &closure->request, work, after)`. -/
def State.uv_queue_work (st : State) (job : Job) : State :=
  { st with queue := st.queue ++ [job] }

/-- The call `closure->cb->Call(Context::GetCurrent()->Global(), argc, argv)`. -/
def State.Call (st : State) (cb : Value) (argv : List Value) : State :=
  { st with calls := st.calls ++ [(cb, argv)] }

/-- The host object wrapping the native image at an address (`im->handle_`). -/
def handle_ (ptr : Nat) : Value := .object (.Image ptr) []

/-! ## Construction -/

/-- The initialiser expression `width * height * 4` of both constructors,
evaluated in `unsigned int`. -/
def estimated_size_expr (width height : Nat) : Nat := (width * height * 4) % 2 ^ 32

/-- Modelled from the spec: the member `estimated_size_` is declared in
mapnik_image.hpp, which is not among the sources; the spec calls it an integer
and the destructor negates it, so it is taken to be a 32-bit `int`. This is the
conversion of the `unsigned int` product to the member. -/
def estimated_size_member (n : Nat) : Int := toInt32 n

/-- The constructor `Image::Image(unsigned int width, unsigned int height)`:
allocates the pixel buffer (which may throw), stores the size estimate in the
member and announces it. Returns the address of the new wrapper. -/
def Image.ctor (m : Mapnik) (width height : Nat) (st : State) : Except String (Nat × State) :=
  match m.new_image_32 width height with
  | .error what => .error what
  | .ok buf =>
    let im : Image :=
      { this_ := buf, estimated_size_ := estimated_size_member (estimated_size_expr width height),
        refs_ := 0 }
    .ok (st.heap.length,
      { st with heap := st.heap ++ [im],
                external_memory := st.external_memory + im.estimated_size_ })

/-- The constructor `Image::Image(image_ptr _this)` adopting a pixel buffer. -/
def Image.adopt (_this : image_32) (st : State) : Nat × State :=
  let im : Image :=
    { this_ := _this,
      estimated_size_ := estimated_size_member (estimated_size_expr _this.width _this.height),
      refs_ := 0 }
  (st.heap.length,
    { st with heap := st.heap ++ [im],
              external_memory := st.external_memory + im.estimated_size_ })

/-- The host constructor `Image::New`. -/
def Image.New (m : Mapnik) (st : State) (isConstructCall : Bool) (args : List Value) :
    Completion × State :=
  if !isConstructCall then
    (.throw (.string "Cannot call constructor as function, you need to use 'new' keyword"), st)
  else
    match argAt args 0 with
    | .external ptr => (.value (handle_ ptr), st)
    | _ =>
      if args.length = 2 then
        if !(argAt args 0).IsNumber || !(argAt args 1).IsNumber then
          (.throw (Exception.Error "Image 'width' and 'height' must be a integers"), st)
        else
          match Image.ctor m (toUnsigned (IntegerValue m (argAt args 0)))
              (toUnsigned (IntegerValue m (argAt args 1))) st with
          | .ok (ptr, st') => (.value (handle_ ptr), st')
          | .error what => (.throw (Exception.Error what), st)
      else
        (.throw (Exception.Error "please provide Image width and height"), st)

/-- The expression `constructor->GetFunction()->NewInstance(1, &ext)` for a
freshly adopted buffer: `new Image(image_ptr)` followed by `Image::New` on the
external. -/
def NewInstance (m : Mapnik) (st : State) (image_ptr : image_32) : Completion × State :=
  let (ptr, st') := Image.adopt image_ptr st
  Image.New m st' true [.external ptr]

/-! ## Accessors -/

/-- The method `Image::painted`. -/
def Image.painted (st : State) (self : Nat) (_args : List Value) : Completion × State :=
  (.value (.boolean (st.image self).this_.painted), st)

/-- The method `Image::width`: the `unsigned` width goes through
`Integer::New(int32_t)`. -/
def Image.width (st : State) (self : Nat) (_args : List Value) : Completion × State :=
  (.value (.int (toInt32 (st.image self).this_.width)), st)

/-- The method `Image::height`: the `unsigned` height goes through
`Integer::New(int32_t)`. -/
def Image.height (st : State) (self : Nat) (_args : List Value) : Completion × State :=
  (.value (.int (toInt32 (st.image self).this_.height)), st)

/-- Modelled from the spec: the function `ImageView::New(im, x, y, w, h)` of
mapnik_image_view.cpp, which is not among the sources; it returns an external
view object that borrows the pixel buffer of the image, for the given window. -/
def ImageView.New (im x y w h : Nat) : Value := .object (.ImageView im x y w h) []

/-- The method `Image::view`. -/
def Image.view (m : Mapnik) (st : State) (self : Nat) (args : List Value) : Completion × State :=
  if args.length != 4 ||
      (!(argAt args 0).IsNumber && !(argAt args 1).IsNumber &&
        !(argAt args 2).IsNumber && !(argAt args 3).IsNumber) then
    (.throw (Exception.TypeError "requires 4 integer arguments: x, y, width, height"), st)
  else
    let x := toUnsigned (IntegerValue m (argAt args 0))
    let y := toUnsigned (IntegerValue m (argAt args 1))
    let w := toUnsigned (IntegerValue m (argAt args 2))
    let h := toUnsigned (IntegerValue m (argAt args 3))
    (.value (ImageView.New self x y w h), st)

/-! ## clear, premultiply, demultiply -/

/-- The method `Image::clearSync`. -/
def Image.clearSync (m : Mapnik) (st : State) (self : Nat) (_args : List Value) :
    Completion × State :=
  if m.MAPNIK_VERSION ≥ 200200 then
    match m.clear (st.image self).this_ with
    | .ok buf => (.value .undefined, st.setBuffer self buf)
    | .error what => (.uncaught what, st)
  else (.value .undefined, st)

/-- The method `Image::clear`. -/
def Image.clear (m : Mapnik) (st : State) (self : Nat) (args : List Value) : Completion × State :=
  if args.length = 0 then Image.clearSync m st self args
  else
    let callback := lastArg args
    if !(lastArg args).IsFunction then
      (.throw (Exception.TypeError "last argument must be a callback function"), st)
    else
      let closure : clear_image_baton_t :=
        { im := self, format := "", error := false, error_name := "", cb := callback }
      (.value .undefined, (st.uv_queue_work (.Clear closure)).Ref self)

/-- The method `Image::premultiplySync`. -/
def Image.premultiplySync (m : Mapnik) (st : State) (self : Nat) (_args : List Value) :
    Completion × State :=
  if m.MAPNIK_VERSION ≥ 200100 then
    match m.premultiply (st.image self).this_ with
    | .ok buf => (.value .undefined, st.setBuffer self buf)
    | .error what => (.uncaught what, st)
  else (.value .undefined, st)

/-- The method `Image::premultiply`. -/
def Image.premultiply (m : Mapnik) (st : State) (self : Nat) (args : List Value) :
    Completion × State :=
  if args.length = 0 then Image.premultiplySync m st self args
  else
    let callback := lastArg args
    if !(lastArg args).IsFunction then
      (.throw (Exception.TypeError "last argument must be a callback function"), st)
    else
      let closure : image_op_baton_t :=
        { im := self, error := false, error_name := "", cb := callback }
      (.value .undefined, (st.uv_queue_work (.Premultiply closure)).Ref self)

/-- The method `Image::demultiplySync`. -/
def Image.demultiplySync (m : Mapnik) (st : State) (self : Nat) (_args : List Value) :
    Completion × State :=
  if m.MAPNIK_VERSION ≥ 200100 then
    match m.demultiply (st.image self).this_ with
    | .ok buf => (.value .undefined, st.setBuffer self buf)
    | .error what => (.uncaught what, st)
  else (.value .undefined, st)

/-- The method `Image::demultiply`. -/
def Image.demultiply (m : Mapnik) (st : State) (self : Nat) (args : List Value) :
    Completion × State :=
  if args.length = 0 then Image.demultiplySync m st self args
  else
    let callback := lastArg args
    if !(lastArg args).IsFunction then
      (.throw (Exception.TypeError "last argument must be a callback function"), st)
    else
      let closure : image_op_baton_t :=
        { im := self, error := false, error_name := "", cb := callback }
      (.value .undefined, (st.uv_queue_work (.Demultiply closure)).Ref self)

/-! ## The grayscale loop -/

/-- The pixel word written by the inner loop body of `setGrayScaleToAlpha` for
the word `rgba` read. -/
def grayWord (c : color) (rgba : Nat) : Nat :=
  let r := rgba &&& 0xff
  let g := (rgba >>> 8) &&& 0xff
  let b := (rgba >>> 16) &&& 0xff
  let a := luminance r g b
  ((a <<< 24) % 2 ^ 32) ||| (c.blue <<< 16) ||| (c.green <<< 8) ||| c.red

/-- One row of the loop: `for (x = 0; x < data.width(); ++x)` over
`row_from = data.getRow(y)`, reading and overwriting `row_from[x]`. -/
def grayRow (c : color) (width y : Nat) (pixels : List Nat) : List Nat :=
  (List.range width).foldl
    (fun px x => px.set (y * width + x) (grayWord c (px.getD (y * width + x) 0))) pixels

/-- The two nested loops of `setGrayScaleToAlpha` over `im->this_->data()`. -/
def grayLoop (c : color) (data : image_data_32) : image_data_32 :=
  { data with
    pixels := (List.range data.height).foldl (fun px y => grayRow c data.width y px) data.pixels }

/-- The method `Image::setGrayScaleToAlpha`. -/
def Image.setGrayScaleToAlpha (m : Mapnik) (st : State) (self : Nat) (args : List Value) :
    Completion × State :=
  if args.length = 0 then
    match m.set_grayscale_to_alpha (st.image self).this_ with
    | .ok buf => (.value .undefined, st.setBuffer self buf)
    | .error what => (.uncaught what, st)
  else if !(argAt args 0).IsObject then
    (.throw (Exception.TypeError "optional second arg must be a mapnik.Color"), st)
  else
    match argAt args 0 with
    | .object (.Color color) _ =>
      let this_ := (st.image self).this_
      (.value .undefined, st.setBuffer self { this_ with data := grayLoop color this_.data })
    | _ => (.throw (Exception.TypeError "mapnik.Color expected as second arg"), st)


/-! ## open, fromBytes -/

/-- The static method `Image::openSync`. -/
def Image.openSync (m : Mapnik) (st : State) (args : List Value) : Completion × State :=
  if args.length < 1 then
    (.throw (Exception.TypeError "must provide a string argument"), st)
  else if !(argAt args 0).IsString then
    (.throw (Exception.TypeError "Argument must be a string"), st)
  else
    let filename := TOSTR (argAt args 0)
    match m.type_from_filename filename with
    | some type =>
      match m.get_image_reader filename type with
      | .error what => (.throw (Exception.Error what), st)
      | .ok (some reader) =>
        match m.new_image_32 reader.width reader.height with
        | .error what => (.throw (Exception.Error what), st)
        | .ok image_ptr =>
          match reader.read image_ptr.data with
          | .error what => (.throw (Exception.Error what), st)
          | .ok data => NewInstance m st { image_ptr with data := data }
      | .ok none => (.throw (Exception.TypeError ("Failed to load: " ++ filename)), st)
    | none => (.throw (Exception.TypeError ("Unsupported image format:" ++ filename)), st)

/-- The static method `Image::open`. The record keeps `filename.data()`, a
pointer into the local `filename`, which is destroyed when the function
returns: the worker later reads `dataLength` characters at that place. -/
def Image.open (m : Mapnik) (st : State) (args : List Value) : Completion × State :=
  if args.length = 1 then Image.openSync m st args
  else if args.length < 2 then
    (.throw (Exception.TypeError "must provide a string argument"), st)
  else if !(argAt args 0).IsString then
    (.throw (Exception.TypeError "Argument must be a string"), st)
  else
    let callback := lastArg args
    if !(lastArg args).IsFunction then
      (.throw (Exception.TypeError "last argument must be a callback function"), st)
    else
      let filename := TOSTR (argAt args 0)
      let closure : image_ptr_baton_t :=
        { im := none, data := .chars (m.dead_chars filename), error := false, error_name := "",
          cb := callback }
      (.value .undefined, st.uv_queue_work (.Open closure))

/-- The static method `Image::fromBytesSync`. -/
def Image.fromBytesSync (m : Mapnik) (st : State) (args : List Value) : Completion × State :=
  if args.length < 1 || !(argAt args 0).IsObject then
    (.throw (Exception.TypeError "must provide a buffer argument"), st)
  else
    match argAt args 0 with
    | .object (.Buffer bytes) _ =>
      match m.get_image_reader_bytes bytes with
      | .error what => (.throw (Exception.Error what), st)
      | .ok (some reader) =>
        match m.new_image_32 reader.width reader.height with
        | .error what => (.throw (Exception.Error what), st)
        | .ok image_ptr =>
          match reader.read image_ptr.data with
          | .error what => (.throw (Exception.Error what), st)
          | .ok data => NewInstance m st { image_ptr with data := data }
      | .ok none => (.throw (Exception.TypeError "Failed to load from buffer"), st)
    | _ => (.throw (Exception.TypeError "first argument must be a buffer"), st)

/-- The static method `Image::fromBytes`. -/
def Image.fromBytes (m : Mapnik) (st : State) (args : List Value) : Completion × State :=
  if args.length = 1 then Image.fromBytesSync m st args
  else if args.length < 2 then
    (.throw (Exception.TypeError "must provide a buffer argument"), st)
  else if !(argAt args 0).IsObject then
    (.throw (Exception.TypeError "must provide a buffer argument"), st)
  else
    match argAt args 0 with
    | .object (.Buffer bytes) _ =>
      let callback := lastArg args
      if !(lastArg args).IsFunction then
        (.throw (Exception.TypeError "last argument must be a callback function"), st)
      else
        let closure : image_ptr_baton_t :=
          { im := none, data := .bytes bytes, error := false, error_name := "", cb := callback }
        (.value .undefined, st.uv_queue_work (.FromBytes closure))
    | _ => (.throw (Exception.TypeError "first argument must be a buffer"), st)

/-! ## encode -/

/-- The two alternatives `save_to_string(image, format, *palette)` and
`save_to_string(image, format)`, chosen by `palette.get()`. -/
def save_to_string (m : Mapnik) (image : image_32) (format : String) (palette : palette_ptr) :
    Except String (List Nat) :=
  match palette with
  | some p => m.save_to_string_palette image format p
  | none => m.save_to_string image format

/-- The method `Image::encodeSync`. -/
def Image.encodeSync (m : Mapnik) (st : State) (self : Nat) (args : List Value) :
    Completion × State :=
  let im := st.image self
  if args.length ≥ 1 && !(argAt args 0).IsString then
    (.throw (Exception.TypeError "first arg, 'format' must be a string"), st)
  else
    let format := if args.length ≥ 1 then TOSTR (argAt args 0) else "png"
    let body := fun (palette : palette_ptr) =>
      match save_to_string m im.this_ format palette with
      | .ok s => (Completion.value (Buffer.New s), st)
      | .error what => (Completion.throw (Exception.Error what), st)
    if args.length ≥ 2 then
      if !(argAt args 1).IsObject then
        (.throw (Exception.TypeError "optional second arg must be an options object"), st)
      else if (argAt args 1).Has "palette" then
        if !((argAt args 1).Get "palette").IsObject then
          (.throw (Exception.TypeError "'palette' must be an object"), st)
        else
          match (argAt args 1).Get "palette" with
          | .object (.Palette p) _ => body p
          | _ => (.throw (Exception.TypeError "mapnik.Palette expected as second arg"), st)
      else body none
    else body none

/-- The method `Image::encode`. -/
def Image.encode (_m : Mapnik) (st : State) (self : Nat) (args : List Value) :
    Completion × State :=
  if args.length ≥ 1 && !(argAt args 0).IsString then
    (.throw (Exception.TypeError "first arg, 'format' must be a string"), st)
  else
    let format := if args.length ≥ 1 then TOSTR (argAt args 0) else "png"
    let body := fun (palette : palette_ptr) =>
      let callback := lastArg args
      if !(lastArg args).IsFunction then
        (Completion.throw (Exception.TypeError "last argument must be a callback function"), st)
      else
        let closure : encode_image_baton_t :=
          { im := self, format := format, palette := palette, error := false,
            error_name := "", cb := callback, result := [] }
        (Completion.value .undefined, (st.uv_queue_work (.Encode closure)).Ref self)
    if args.length ≥ 2 then
      if !(argAt args 1).IsObject then
        (.throw (Exception.TypeError "optional second arg must be an options object"), st)
      else if (argAt args 1).Has "palette" then
        if !((argAt args 1).Get "palette").IsObject then
          (.throw (Exception.TypeError "'palette' must be an object"), st)
        else
          match (argAt args 1).Get "palette" with
          | .object (.Palette p) _ => body p
          | _ => (.throw (Exception.TypeError "mapnik.Palette expected as second arg"), st)
      else body none
    else body none

/-- The worker function `Image::EIO_Encode`. -/
def Image.EIO_Encode (m : Mapnik) (st : State) (closure : encode_image_baton_t) :
    encode_image_baton_t :=
  match save_to_string m (st.image closure.im).this_ closure.format closure.palette with
  | .ok s => { closure with result := s }
  | .error what => { closure with error := true, error_name := what }

/-- The completion function `Image::EIO_AfterEncode`. -/
def Image.EIO_AfterEncode (st : State) (closure : encode_image_baton_t) : State :=
  let st1 :=
    if closure.error then st.Call closure.cb [Exception.Error closure.error_name]
    else st.Call closure.cb [.null, Buffer.New closure.result]
  st1.Unref closure.im

/-! ## save -/

/-- The method `Image::save`. -/
def Image.save (m : Mapnik) (st : State) (self : Nat) (args : List Value) : Completion × State :=
  if args.length = 0 || !(argAt args 0).IsString then
    (.throw (Exception.TypeError "filename required"), st)
  else
    let filename := TOSTR (argAt args 0)
    let body := fun (format : String) =>
      match m.save_to_file (st.image self).this_.data filename format with
      | .ok _ =>
        (Completion.value .undefined,
          { st with files := st.files ++ [(filename, format, (st.image self).this_.data)] })
      | .error what => (Completion.throw (Exception.Error what), st)
    if args.length ≥ 2 then
      if !(argAt args 1).IsString then
        (.throw (Exception.TypeError "both 'filename' and 'format' arguments must be strings"), st)
      else body (TOSTR (argAt args 1))
    else
      if m.guess_type filename = "<unknown>" then
        (.throw (Exception.Error ("unknown output extension for: " ++ filename ++ "\n")), st)
      else body (m.guess_type filename)

/-! ## composite -/

/-- The local variables `mode`, `opacity`, `filters`, `dx`, `dy` of
`Image::composite`. -/
structure composite_locals where
  mode : Int
  opacity : Int × Int
  filters : List filter_type
  dx : Int
  dy : Int

/-- The block `if (options->Has("comp_op"))` of `Image::composite`. -/
def composite_comp_op (m : Mapnik) (options : Value) (v : composite_locals) :
    Except Value composite_locals :=
  if options.Has "comp_op" then
    if !(options.Get "comp_op").IsNumber then
      .error (Exception.TypeError "comp_op must be a mapnik.compositeOp value")
    else .ok { v with mode := toInt32 (IntegerValue m (options.Get "comp_op")) }
  else .ok v

/-- The block `if (options->Has("opacity"))` of `Image::composite`. -/
def composite_opacity (m : Mapnik) (options : Value) (v : composite_locals) :
    Except Value composite_locals :=
  if options.Has "opacity" then
    if !(options.Get "opacity").IsNumber then
      .error (Exception.TypeError "opacity must be a floating point number")
    else .ok { v with opacity := NumberValue_float m (options.Get "opacity") }
  else .ok v

/-- The block `if (options->Has("dx"))` of `Image::composite`. -/
def composite_dx (m : Mapnik) (options : Value) (v : composite_locals) :
    Except Value composite_locals :=
  if options.Has "dx" then
    if !(options.Get "dx").IsNumber then
      .error (Exception.TypeError "dx must be an integer")
    else .ok { v with dx := toInt32 (IntegerValue m (options.Get "dx")) }
  else .ok v

/-- The block `if (options->Has("dy"))` of `Image::composite`. -/
def composite_dy (m : Mapnik) (options : Value) (v : composite_locals) :
    Except Value composite_locals :=
  if options.Has "dy" then
    if !(options.Get "dy").IsNumber then
      .error (Exception.TypeError "dy must be an integer")
    else .ok { v with dy := toInt32 (IntegerValue m (options.Get "dy")) }
  else .ok v

/-- The block `if (options->Has("image_filters"))` of `Image::composite`; a
`std::exception` out of the filter parser reaches the `catch` of the function. -/
def composite_image_filters (m : Mapnik) (options : Value) (v : composite_locals) :
    Except Value composite_locals :=
  if options.Has "image_filters" then
    if !(options.Get "image_filters").IsString then
      .error (Exception.TypeError "image_filters argument must string of filter names")
    else
      match m.parse_image_filters (TOSTR (options.Get "image_filters")) with
      | .error what => .error (Exception.Error what)
      | .ok none => .error (Exception.TypeError "could not parse image_filters")
      | .ok (some filters) => .ok { v with filters := v.filters ++ filters }
  else .ok v

/-- The `try` block of `Image::composite` up to the creation of the job record:
the defaults, then the five option blocks in order when there is a second
argument. -/
def composite_options (m : Mapnik) (args : List Value) : Except Value composite_locals :=
  let v : composite_locals :=
    { mode := m.src_over, opacity := (1, 0), filters := [], dx := 0, dy := 0 }
  if args.length ≥ 2 then
    if !(argAt args 1).IsObject then
      .error (Exception.TypeError "optional second arg must be an options object")
    else
      (composite_comp_op m (argAt args 1) v).bind fun v =>
      (composite_opacity m (argAt args 1) v).bind fun v =>
      (composite_dx m (argAt args 1) v).bind fun v =>
      (composite_dy m (argAt args 1) v).bind fun v =>
      composite_image_filters m (argAt args 1) v
  else .ok v

/-- The method `Image::composite`. -/
def Image.composite (m : Mapnik) (st : State) (self : Nat) (args : List Value) :
    Completion × State :=
  if m.MAPNIK_VERSION ≥ 200100 then
    if args.length < 1 then
      (.throw (Exception.TypeError "requires at least one argument: an image mask"), st)
    else if !(argAt args 0).IsObject then
      (.throw (Exception.TypeError "first argument must be an image mask"), st)
    else
      match argAt args 0 with
      | .object (.Image im2) _ =>
        let callback := lastArg args
        if !(lastArg args).IsFunction then
          (.throw (Exception.TypeError "last argument must be a callback function"), st)
        else
          match composite_options m args with
          | .error e => (.throw e, st)
          | .ok v =>
            let closure : composite_image_baton_t :=
              { im1 := self, im2 := im2, mode := v.mode, dx := v.dx, dy := v.dy,
                opacity := v.opacity, filters := v.filters, error := false,
                error_name := "", cb := callback }
            (.value .undefined, ((st.uv_queue_work (.Composite closure)).Ref self).Ref im2)
      | _ => (.throw (Exception.TypeError "mapnik.Image expected as first arg"), st)
  else
    (.throw (Exception.TypeError
      "compositing is only supported if node-mapnik is built against >= Mapnik 2.1.x"), st)

/-! ## Work and completion functions of the other jobs -/

/-- The worker function `Image::EIO_Clear`; it returns the record and the
pixel buffer of the image as the worker leaves them. -/
def Image.EIO_Clear (m : Mapnik) (st : State) (closure : clear_image_baton_t) :
    clear_image_baton_t × State :=
  if m.MAPNIK_VERSION ≥ 200200 then
    match m.clear (st.image closure.im).this_ with
    | .ok buf => (closure, st.setBuffer closure.im buf)
    | .error what => ({ closure with error := true, error_name := what }, st)
  else (closure, st)

/-- The completion function `Image::EIO_AfterClear`. -/
def Image.EIO_AfterClear (st : State) (closure : clear_image_baton_t) : State :=
  let st1 :=
    if closure.error then st.Call closure.cb [Exception.Error closure.error_name]
    else st.Call closure.cb [.null]
  st1.Unref closure.im

/-- The worker function `Image::EIO_Premultiply`. -/
def Image.EIO_Premultiply (m : Mapnik) (st : State) (closure : image_op_baton_t) :
    image_op_baton_t × State :=
  match m.premultiply (st.image closure.im).this_ with
  | .ok buf => (closure, st.setBuffer closure.im buf)
  | .error what => ({ closure with error := true, error_name := what }, st)

/-- The worker function `Image::EIO_Demultiply`. -/
def Image.EIO_Demultiply (m : Mapnik) (st : State) (closure : image_op_baton_t) :
    image_op_baton_t × State :=
  match m.demultiply (st.image closure.im).this_ with
  | .ok buf => (closure, st.setBuffer closure.im buf)
  | .error what => ({ closure with error := true, error_name := what }, st)

/-- The completion function `Image::EIO_AfterMultiply`. -/
def Image.EIO_AfterMultiply (st : State) (closure : image_op_baton_t) : State :=
  let st1 :=
    if closure.error then st.Call closure.cb [Exception.Error closure.error_name]
    else st.Call closure.cb [.null, handle_ closure.im]
  st1.Unref closure.im

/-- The part of the open and fromBytes workers after the reader was requested. -/
def read_into_closure (m : Mapnik) (closure : image_ptr_baton_t)
    (reader : Except String (Option image_reader)) (failed : String) : image_ptr_baton_t :=
  match reader with
  | .error what => { closure with error := true, error_name := what }
  | .ok none => { closure with error := true, error_name := failed }
  | .ok (some reader) =>
    match m.new_image_32 reader.width reader.height with
    | .error what => { closure with error := true, error_name := what }
    | .ok im =>
      match reader.read im.data with
      | .error what => { closure with im := some im, error := true, error_name := what }
      | .ok data => { closure with im := some { im with data := data } }

/-- The characters a job record points to, as a `std::string`. -/
def RawData.toFilename : RawData → String
  | .chars s => s
  | .bytes _ => ""

/-- The bytes a job record points to. -/
def RawData.toBytes : RawData → List Nat
  | .bytes b => b
  | .chars s => s.toUTF8.toList.map UInt8.toNat

/-- The worker function `Image::EIO_Open`. -/
def Image.EIO_Open (m : Mapnik) (closure : image_ptr_baton_t) : image_ptr_baton_t :=
  let filename := closure.data.toFilename
  match m.type_from_filename filename with
  | none =>
    { closure with error := true, error_name := "Unsupported image format: " ++ filename }
  | some type =>
    read_into_closure m closure (m.get_image_reader filename type) ("Failed to load: " ++ filename)

/-- The worker function `Image::EIO_FromBytes`. -/
def Image.EIO_FromBytes (m : Mapnik) (closure : image_ptr_baton_t) : image_ptr_baton_t :=
  read_into_closure m closure (m.get_image_reader_bytes closure.data.toBytes)
    "Failed to load from buffer"

/-- The completion function `Image::EIO_AfterOpen`. -/
def Image.EIO_AfterOpen (st : State) (closure : image_ptr_baton_t) : State :=
  match closure.error, closure.im with
  | false, some im =>
    let (ptr, st1) := Image.adopt im st
    st1.Call closure.cb [.null, handle_ ptr]
  | _, _ => st.Call closure.cb [Exception.Error closure.error_name]

/-- The loop of `Image::EIO_Composite` applying the filters to `im2` in place:
the buffer as the loop leaves it, and the `what()` of the exception that ended
it early, if any. -/
def apply_filters (m : Mapnik) : List filter_type → image_32 → Option String × image_32
  | [], im => (none, im)
  | f :: fs, im =>
    match m.apply_filter im f with
    | .error what => (some what, im)
    | .ok im1 => apply_filters m fs im1

/-- The worker function `Image::EIO_Composite`. -/
def Image.EIO_Composite (m : Mapnik) (st : State) (closure : composite_image_baton_t) :
    composite_image_baton_t × State :=
  let filtered := apply_filters m closure.filters (st.image closure.im2).this_
  let st1 := st.setBuffer closure.im2 filtered.2
  match filtered.1 with
  | some what => ({ closure with error := true, error_name := what }, st1)
  | none =>
    match m.composite (st1.image closure.im1).this_.data (st1.image closure.im2).this_.data
        closure.mode closure.opacity closure.dx closure.dy with
    | .error what => ({ closure with error := true, error_name := what }, st1)
    | .ok data =>
      (closure, st1.setBuffer closure.im1 { (st1.image closure.im1).this_ with data := data })

/-- The completion function `Image::EIO_AfterComposite`. -/
def Image.EIO_AfterComposite (st : State) (closure : composite_image_baton_t) : State :=
  let st1 :=
    if closure.error then st.Call closure.cb [Exception.Error closure.error_name]
    else st.Call closure.cb [.null, handle_ closure.im1]
  (st1.Unref closure.im1).Unref closure.im2

/-- One job run to its end: the work function on the worker, then the
completion function on the main thread. -/
def runJob (m : Mapnik) (st : State) : Job → State
  | .Clear closure =>
    Image.EIO_AfterClear (Image.EIO_Clear m st closure).2 (Image.EIO_Clear m st closure).1
  | .Premultiply closure =>
    Image.EIO_AfterMultiply (Image.EIO_Premultiply m st closure).2
      (Image.EIO_Premultiply m st closure).1
  | .Demultiply closure =>
    Image.EIO_AfterMultiply (Image.EIO_Demultiply m st closure).2
      (Image.EIO_Demultiply m st closure).1
  | .Open closure => Image.EIO_AfterOpen st (Image.EIO_Open m closure)
  | .FromBytes closure => Image.EIO_AfterOpen st (Image.EIO_FromBytes m closure)
  | .Encode closure => Image.EIO_AfterEncode st (Image.EIO_Encode m st closure)
  | .Composite closure =>
    Image.EIO_AfterComposite (Image.EIO_Composite m st closure).2
      (Image.EIO_Composite m st closure).1

/-! ## Registration -/

/-- The C++ functions registered by `Image::Initialize`. -/
inductive Method where
  | encodeSync | encode | view | save | setGrayScaleToAlpha | width | height | painted
  | composite | premultiplySync | premultiply | demultiplySync | demultiply | clear | clearSync
  deriving DecidableEq, Repr

/-- The prototype methods set by `Image::Initialize`, in source order: the
host-visible name and the C++ function bound to it. -/
def Image.Initialize : List (String × Method) :=
  [ ("encodeSync", .encodeSync),
    ("encode", .encode),
    ("view", .view),
    ("save", .save),
    ("setGrayScaleToAlpha", .setGrayScaleToAlpha),
    ("width", .width),
    ("height", .height),
    ("painted", .painted),
    ("composite", .composite),
    ("premultiplySync", .premultiplySync),
    ("premultiply", .premultiply),
    ("demultiplySync", .demultiplySync),
    ("demultiply", .demultiply),
    ("clear", .clear),
    ("clearSync", .clear) ]

/-- A C++ function of the class, run on a receiver and an argument list. -/
def Method.run (m : Mapnik) (st : State) (self : Nat) (args : List Value) :
    Method → Completion × State
  | .encodeSync => Image.encodeSync m st self args
  | .encode => Image.encode m st self args
  | .view => Image.view m st self args
  | .save => Image.save m st self args
  | .setGrayScaleToAlpha => Image.setGrayScaleToAlpha m st self args
  | .width => Image.width st self args
  | .height => Image.height st self args
  | .painted => Image.painted st self args
  | .composite => Image.composite m st self args
  | .premultiplySync => Image.premultiplySync m st self args
  | .premultiply => Image.premultiply m st self args
  | .demultiplySync => Image.demultiplySync m st self args
  | .demultiply => Image.demultiply m st self args
  | .clear => Image.clear m st self args
  | .clearSync => Image.clearSync m st self args

/-- A host call `image.name(args...)`: the function registered under the name
is run; a name that is not registered is not callable. -/
def callMethod (m : Mapnik) (st : State) (self : Nat) (name : String) (args : List Value) :
    Completion × State :=
  match Image.Initialize.lookup name with
  | some method => method.run m st self args
  | none => (.throw (Exception.TypeError (name ++ " is not a function")), st)

/-! ## Auxiliary definitions for the statements -/

/-- The outcome of the argument checks that `Image::encodeSync` and
`Image::encode` both start with: the error thrown, or the format and palette. -/
def encode_arguments (args : List Value) : Except Value (String × palette_ptr) :=
  if args.length ≥ 1 && !(argAt args 0).IsString then
    .error (Exception.TypeError "first arg, 'format' must be a string")
  else
    let format := if args.length ≥ 1 then TOSTR (argAt args 0) else "png"
    if args.length ≥ 2 then
      if !(argAt args 1).IsObject then
        .error (Exception.TypeError "optional second arg must be an options object")
      else if (argAt args 1).Has "palette" then
        match (argAt args 1).Get "palette" with
        | .object (.Palette p) _ => .ok (format, p)
        | .object _ _ => .error (Exception.TypeError "mapnik.Palette expected as second arg")
        | _ => .error (Exception.TypeError "'palette' must be an object")
      else .ok (format, none)
    else .ok (format, none)

/-- The job record `Image::encode` fills in. -/
def encode_closure (self : Nat) (format : String) (palette : palette_ptr) (cb : Value) :
    encode_image_baton_t :=
  { im := self, format := format, palette := palette, error := false, error_name := "",
    cb := cb, result := [] }

/-- The entry points that can enqueue a job. -/
inductive AsyncEntry where
  | clear | premultiply | demultiply | encode | open | fromBytes | composite
  deriving DecidableEq, Repr

/-- A call of an entry point; the static ones take no receiver. -/
def AsyncEntry.call (m : Mapnik) (st : State) (self : Nat) (args : List Value) :
    AsyncEntry → Completion × State
  | .clear => Image.clear m st self args
  | .premultiply => Image.premultiply m st self args
  | .demultiply => Image.demultiply m st self args
  | .encode => Image.encode m st self args
  | .open => Image.open m st args
  | .fromBytes => Image.fromBytes m st args
  | .composite => Image.composite m st self args

/-- The argument lists that fail validation, by entry point: a last argument
that is not callable where a callback is due, a missing or wrong-typed
positional argument, a recognised option with a value of the wrong type, and an
`image_filters` string that the filter parser does not accept. -/
inductive InvalidArguments (m : Mapnik) : AsyncEntry → List Value → Prop where
  | clear_callback (args : List Value) (h0 : args ≠ [])
      (h : (lastArg args).IsFunction = false) : InvalidArguments m .clear args
  | premultiply_callback (args : List Value) (h0 : args ≠ [])
      (h : (lastArg args).IsFunction = false) : InvalidArguments m .premultiply args
  | demultiply_callback (args : List Value) (h0 : args ≠ [])
      (h : (lastArg args).IsFunction = false) : InvalidArguments m .demultiply args
  | encode_callback (args : List Value)
      (h : (lastArg args).IsFunction = false) : InvalidArguments m .encode args
  | open_callback (args : List Value) (h0 : 2 ≤ args.length)
      (h : (lastArg args).IsFunction = false) : InvalidArguments m .open args
  | fromBytes_callback (args : List Value) (h0 : 2 ≤ args.length)
      (h : (lastArg args).IsFunction = false) : InvalidArguments m .fromBytes args
  | composite_callback (args : List Value)
      (h : (lastArg args).IsFunction = false) : InvalidArguments m .composite args
  | open_missing : InvalidArguments m .open []
  | fromBytes_missing : InvalidArguments m .fromBytes []
  | encode_format (args : List Value) (h0 : 1 ≤ args.length)
      (h : (argAt args 0).IsString = false) : InvalidArguments m .encode args
  | encode_options (args : List Value) (h0 : 2 ≤ args.length)
      (h : (argAt args 1).IsObject = false) : InvalidArguments m .encode args
  | encode_palette (args : List Value) (h0 : 2 ≤ args.length)
      (h1 : (argAt args 1).Has "palette" = true)
      (h2 : ∀ p props, (argAt args 1).Get "palette" ≠ .object (.Palette p) props) :
      InvalidArguments m .encode args
  | open_filename (args : List Value) (h0 : 1 ≤ args.length)
      (h : (argAt args 0).IsString = false) : InvalidArguments m .open args
  | fromBytes_buffer (args : List Value) (h0 : 1 ≤ args.length)
      (h : ∀ bytes props, argAt args 0 ≠ .object (.Buffer bytes) props) :
      InvalidArguments m .fromBytes args
  | composite_image (args : List Value)
      (h : ∀ ptr props, argAt args 0 ≠ .object (.Image ptr) props) :
      InvalidArguments m .composite args
  | composite_options (args : List Value) (h0 : 2 ≤ args.length)
      (h : (argAt args 1).IsObject = false) : InvalidArguments m .composite args
  | composite_comp_op (args : List Value) (h0 : 2 ≤ args.length)
      (h1 : (argAt args 1).Has "comp_op" = true)
      (h2 : ((argAt args 1).Get "comp_op").IsNumber = false) : InvalidArguments m .composite args
  | composite_opacity (args : List Value) (h0 : 2 ≤ args.length)
      (h1 : (argAt args 1).Has "opacity" = true)
      (h2 : ((argAt args 1).Get "opacity").IsNumber = false) : InvalidArguments m .composite args
  | composite_dx (args : List Value) (h0 : 2 ≤ args.length)
      (h1 : (argAt args 1).Has "dx" = true)
      (h2 : ((argAt args 1).Get "dx").IsNumber = false) : InvalidArguments m .composite args
  | composite_dy (args : List Value) (h0 : 2 ≤ args.length)
      (h1 : (argAt args 1).Has "dy" = true)
      (h2 : ((argAt args 1).Get "dy").IsNumber = false) : InvalidArguments m .composite args
  | composite_image_filters (args : List Value) (h0 : 2 ≤ args.length)
      (h1 : (argAt args 1).Has "image_filters" = true)
      (h2 : ((argAt args 1).Get "image_filters").IsString = false) :
      InvalidArguments m .composite args
  | composite_filters_parse (args : List Value) (h0 : 2 ≤ args.length)
      (h1 : (argAt args 1).Has "image_filters" = true)
      (h2 : ∀ filters,
        m.parse_image_filters (TOSTR ((argAt args 1).Get "image_filters")) ≠ .ok (some filters)) :
      InvalidArguments m .composite args

/-- The spec's luminance `0.3 R + 0.59 G + 0.11 B`, truncated, in exact arithmetic. -/
def specLuminance (r g b : Nat) : Nat := (30 * r + 59 * g + 11 * b) / 100

/-- The pixel word of the spec, with the exact luminance. -/
def specGrayWord (c : color) (rgba : Nat) : Nat :=
  (specLuminance (rgba &&& 0xff) ((rgba >>> 8) &&& 0xff) ((rgba >>> 16) &&& 0xff) <<< 24) |||
    (c.blue <<< 16) ||| (c.green <<< 8) ||| c.red

/-! ## A concrete library and state, for evaluating the binding -/

/-- A small imaging library: images start black, `png` is the one format, no
file can be read. -/
def sampleMapnik : Mapnik where
  MAPNIK_VERSION := 200200
  src_over := 3
  new_image_32 := fun w h => .ok ⟨⟨w, h, List.replicate (w * h) 0⟩, none, false⟩
  clear := fun im =>
    .ok { im with data := { im.data with pixels := im.data.pixels.map fun _ => 0 } }
  premultiply := fun im => .ok im
  demultiply := fun im => .ok im
  set_grayscale_to_alpha := fun im => .ok im
  save_to_string := fun im format =>
    if format = "png" then .ok ([137, 80, 78, 71, 13, 10, 26, 10] ++ im.data.pixels)
    else .error "unknown file type"
  save_to_string_palette := fun im format _ =>
    if format = "png" then .ok ([137, 80, 78, 71, 13, 10, 26, 10] ++ im.data.pixels)
    else .error "unknown file type"
  save_to_file := fun _ _ _ => .ok ()
  guess_type := fun filename => if filename = "out.png" then "png" else "<unknown>"
  type_from_filename := fun filename => if filename = "in.png" then some "png" else none
  get_image_reader := fun _ _ => .ok none
  get_image_reader_bytes := fun _ => .ok none
  parse_image_filters := fun s => if s = "blur" then .ok (some [0]) else .ok none
  apply_filter := fun im _ => .ok im
  composite := fun dst _ _ _ _ _ => .ok dst
  ToInteger := fun _ => 0
  dead_chars := fun s => s
  float_special := fun _ => (0, 0)

/-- A state with one wrapper: a white image, two pixels wide and one high. -/
def sampleState : State where
  heap := [⟨⟨⟨2, 1, [0xFFFFFFFF, 0xFFFFFFFF]⟩, none, false⟩, 8, 0⟩]
  queue := []
  calls := []
  files := []
  external_memory := 8

/-- A state with one wrapper: a single pixel with R = 0, G = 23, B = 13. -/
def darkState : State where
  heap := [⟨⟨⟨1, 1, [0x000D1700]⟩, none, false⟩, 4, 0⟩]
  queue := []
  calls := []
  files := []
  external_memory := 4

/-- A callback: a function object without properties. -/
def sampleCallback : Value := .object (.function 1) []


/-! ## Destruction and the life of wrappers -/

/-- The destructor `Image::~Image`: the stored estimate is negated in `int`
(two's complement: the negation of `-2 ^ 31` is `-2 ^ 31`) and announced. -/
def Image.dtor (st : State) (ptr : Nat) : State :=
  { st with external_memory := st.external_memory + toInt32 (-(st.image ptr).estimated_size_) }

/-- What can happen to wrappers: a construction by dimensions, the adoption of
a pixel buffer, and the destruction of the wrapper at an address. -/
inductive Lifecycle where
  | construct (width height : Nat)
  | adopt (_this : image_32)
  | destroy (ptr : Nat)

/-- Whether the event is not the construction of a wrapper whose product
`width * height * 4` is `2 ^ 31` in `unsigned int`, which is stored as `-2 ^ 31`. -/
def Lifecycle.regular : Lifecycle → Bool
  | .construct width height => estimated_size_expr width height != 2 ^ 31
  | .adopt _this => estimated_size_expr _this.width _this.height != 2 ^ 31
  | .destroy _ => true

/-- The process state together with the addresses of the wrappers that were
constructed and not yet destroyed. -/
structure Wrappers where
  st : State
  alive : List Nat

/-- One step in the life of the wrappers. A constructor that throws leaves no
object behind; a destructor runs only on a wrapper that is alive. -/
def Wrappers.step (m : Mapnik) (w : Wrappers) : Lifecycle → Wrappers
  | .construct width height =>
    match Image.ctor m width height w.st with
    | .ok (ptr, st1) => { st := st1, alive := ptr :: w.alive }
    | .error _ => w
  | .adopt _this =>
    { st := (Image.adopt _this w.st).2, alive := (Image.adopt _this w.st).1 :: w.alive }
  | .destroy ptr =>
    if ptr ∈ w.alive then { st := Image.dtor w.st ptr, alive := w.alive.erase ptr } else w

/-- A sequence of steps from a state in which no wrapper is alive. -/
def Wrappers.run (m : Mapnik) (st : State) (events : List Lifecycle) : Wrappers :=
  events.foldl (Wrappers.step m) { st := st, alive := [] }

/-- The sum of the stored estimates of the wrappers that are alive. -/
def Wrappers.announced (w : Wrappers) : Int :=
  (w.alive.map fun ptr => (w.st.image ptr).estimated_size_).sum

/-! ## Pins -/

/-- The pin count of the wrapper at an address: its `refs_`. -/
def State.pins (st : State) (ptr : Nat) : Nat := (st.image ptr).refs_

/-- The wrappers a job record points to, in the order in which they are pinned. -/
def Job.participants : Job → List Nat
  | .Clear closure => [closure.im]
  | .Premultiply closure => [closure.im]
  | .Demultiply closure => [closure.im]
  | .Encode closure => [closure.im]
  | .Composite closure => [closure.im1, closure.im2]
  | .Open _ => []
  | .FromBytes _ => []

/-- The entry point that creates a job of this kind. -/
def Job.entry : Job → AsyncEntry
  | .Clear _ => .clear
  | .Premultiply _ => .premultiply
  | .Demultiply _ => .demultiply
  | .Encode _ => .encode
  | .Composite _ => .composite
  | .Open _ => .open
  | .FromBytes _ => .fromBytes

/-- The callback a job record holds. -/
def Job.cb : Job → Value
  | .Clear closure => closure.cb
  | .Premultiply closure => closure.cb
  | .Demultiply closure => closure.cb
  | .Encode closure => closure.cb
  | .Composite closure => closure.cb
  | .Open closure => closure.cb
  | .FromBytes closure => closure.cb

/-! ## The background attribute -/

/-- The function `Color::New(c)` of mapnik_color.cpp, as far as this file uses
it: a host `Color` object wrapping the color.
Modelled from the spec: reading `background` returns the current background
color. -/
def Color.New (c : color) : Value := .object (.Color c) []

/-- The accessor `Image::get_prop`. -/
def Image.get_prop (st : State) (self : Nat) (property : String) : Value :=
  if property = "background" then
    match (st.image self).this_.background with
    | some c => Color.New c
    | none => .undefined
  else .undefined

/-- The expression `node::ObjectWrap::Unwrap<Color>(obj)->get()`: for an
instance of `Color`, the wrapped color. For any other value the sources do not
define the outcome (foreign memory is read as a color, or the process stops in
`Unwrap`); `foreign` stands for it, `none` meaning that the process stops. -/
def Unwrap_Color (foreign : Value → Option color) : Value → Option color
  | .object (.Color c) _ => some c
  | v => foreign v

/-- The accessor `Image::set_prop`. Its two `ThrowException` calls are not
followed by `return`: the exception is scheduled and the function goes on to
`Unwrap` and `set_background`. The completion is the exception scheduled last,
if any. -/
def Image.set_prop (foreign : Value → Option color) (st : State) (self : Nat)
    (property : String) (value : Value) : Completion × State :=
  if property = "background" then
    let scheduled1 : Option Value :=
      if !value.IsObject then some (Exception.TypeError "mapnik.Color expected") else none
    let scheduled2 : Option Value :=
      match value with
      | .object (.Color _) _ => scheduled1
      | _ => some (Exception.TypeError "mapnik.Color expected")
    match Unwrap_Color foreign value with
    | none => (.uncaught "", st)
    | some c =>
      let st1 := st.setBuffer self { (st.image self).this_ with background := some c }
      match scheduled2 with
      | some e => (.throw e, st1)
      | none => (.value .undefined, st1)
  else (.value .undefined, st)

/-! ## Messages -/

/-- Whether the message contains the name as a run of consecutive characters. -/
def mentions (message name : String) : Bool :=
  message.data.tails.any fun t => name.data.isPrefixOf t

/-- The defaults of the local variables of `Image::composite`. -/
def composite_defaults (m : Mapnik) : composite_locals :=
  { mode := m.src_over, opacity := (1, 0), filters := [], dx := 0, dy := 0 }

/-- The job record `Image::composite` fills in. -/
def composite_closure (self im2 : Nat) (v : composite_locals) (cb : Value) :
    composite_image_baton_t :=
  { im1 := self, im2 := im2, mode := v.mode, dx := v.dx, dy := v.dy, opacity := v.opacity,
    filters := v.filters, error := false, error_name := "", cb := cb }

/-- The job record `Image::open` and `Image::fromBytes` fill in. -/
def open_closure (data : RawData) (cb : Value) : image_ptr_baton_t :=
  { im := none, data := data, error := false, error_name := "", cb := cb }

/-- The three constants are the doubles nearest to 3/10, 59/100 and 11/100:
each is a 53-bit significand at the exponent of its binade (unit in the last
place 4, 8 and 1 in units of `2 ^ (-56)`) and lies within half a unit in the
last place of the decimal value. -/
theorem literals_are_nearest_doubles :
    (lit_3 % 4 = 0 ∧ 2 ^ 52 ≤ lit_3 / 4 ∧ lit_3 / 4 < 2 ^ 53 ∧
      10 * lit_3 < 3 * 2 ^ 56 + 10 * 2 ∧ 3 * 2 ^ 56 < 10 * lit_3 + 10 * 2) ∧
    (lit_59 % 8 = 0 ∧ 2 ^ 52 ≤ lit_59 / 8 ∧ lit_59 / 8 < 2 ^ 53 ∧
      100 * lit_59 < 59 * 2 ^ 56 + 100 * 4 ∧ 59 * 2 ^ 56 < 100 * lit_59 + 100 * 4) ∧
    (2 ^ 52 ≤ lit_11 ∧ lit_11 < 2 ^ 53 ∧
      2 * (100 * lit_11) < 2 * (11 * 2 ^ 56) + 100 ∧ 2 * (11 * 2 ^ 56) < 2 * (100 * lit_11) + 100) := by
  decide

/-- Sample values of the double arithmetic: `255 * .3` is exactly 76.5,
`255 * .59` is the double `2646744390382387 * 2 ^ (-44)` (printed 150.45), their
sum is the double `3992546622780211 * 2 ^ (-44)` (printed 226.95), and white has
luminance 255. -/
theorem luminance_examples :
    roundToDouble (255 * lit_3) = 153 * 2 ^ 55 ∧
    roundToDouble (255 * lit_59) = 2646744390382387 * 2 ^ 12 ∧
    roundToDouble (roundToDouble (255 * lit_3) + roundToDouble (255 * lit_59)) =
      3992546622780211 * 2 ^ 12 ∧
    luminance 255 255 255 = 255 ∧ luminance 0 0 0 = 0 ∧ luminance 255 0 0 = 76 ∧
    luminance 0 255 0 = 150 ∧ luminance 0 0 255 = 28 := by
  decide

/-! ## Lemmas on the grayscale loop -/

theorem getElem?_set_getD (f : Nat → Nat) (px : List Nat) (i j : Nat) :
    (px.set i (f (px.getD i 0)))[j]? = if i = j then px[j]?.map f else px[j]? := by
  rw [List.getElem?_set]
  by_cases hij : i = j
  · subst hij
    by_cases hi : i < px.length
    · simp [hi, List.getD_eq_getElem?_getD, List.getElem?_eq_getElem hi]
    · have : px[i]? = none := List.getElem?_eq_none (Nat.le_of_not_lt hi)
      simp [hi, this]
  · simp [hij]

theorem foldl_set_getElem? (f : Nat → Nat) (off n : Nat) (l : List Nat) (j : Nat) :
    ((List.range n).foldl (fun px x => px.set (off + x) (f (px.getD (off + x) 0))) l)[j]? =
      if off ≤ j ∧ j < off + n then l[j]?.map f else l[j]? := by
  induction n with
  | zero =>
    have : ¬ (off ≤ j ∧ j < off) := by omega
    simp [this]
  | succ n ih =>
    rw [List.range_succ, List.foldl_append, List.foldl_cons, List.foldl_nil, getElem?_set_getD, ih]
    by_cases h1 : off + n = j
    · have h2 : ¬ (off ≤ j ∧ j < off + n) := by omega
      have h3 : off ≤ j ∧ j < off + (n + 1) := by omega
      simp [h1, h2, h3]
    · by_cases h2 : off ≤ j ∧ j < off + n
      · have h3 : off ≤ j ∧ j < off + (n + 1) := by omega
        simp [h1, h2, h3]
      · have h3 : ¬ (off ≤ j ∧ j < off + (n + 1)) := by omega
        simp [h1, h2, h3]

theorem grayRow_getElem? (c : color) (width y : Nat) (pixels : List Nat) (j : Nat) :
    (grayRow c width y pixels)[j]? =
      if y * width ≤ j ∧ j < y * width + width then pixels[j]?.map (grayWord c)
      else pixels[j]? :=
  foldl_set_getElem? (grayWord c) (y * width) width pixels j

theorem grayRows_getElem? (c : color) (width h : Nat) (pixels : List Nat) (j : Nat) :
    ((List.range h).foldl (fun px y => grayRow c width y px) pixels)[j]? =
      if j < h * width then pixels[j]?.map (grayWord c) else pixels[j]? := by
  induction h with
  | zero => simp
  | succ h ih =>
    rw [List.range_succ, List.foldl_append, List.foldl_cons, List.foldl_nil, grayRow_getElem?, ih]
    have e : (h + 1) * width = h * width + width := Nat.succ_mul h width
    by_cases h1 : j < h * width
    · have h2 : ¬ (h * width ≤ j ∧ j < h * width + width) := by omega
      have h3 : j < (h + 1) * width := by omega
      simp [h1, h2, h3]
    · by_cases h2 : j < h * width + width
      · have h3 : h * width ≤ j ∧ j < h * width + width := by omega
        have h4 : j < (h + 1) * width := by omega
        simp [h1, h3, h4]
      · have h3 : ¬ (h * width ≤ j ∧ j < h * width + width) := by omega
        have h4 : ¬ j < (h + 1) * width := by omega
        simp [h1, h3, h4]

theorem grayLoop_pixels (c : color) (data : image_data_32)
    (hsize : data.pixels.length = data.width * data.height) :
    (grayLoop c data).pixels = data.pixels.map (grayWord c) := by
  apply List.ext_getElem?
  intro j
  show ((List.range data.height).foldl (fun px y => grayRow c data.width y px) data.pixels)[j]? = _
  rw [grayRows_getElem?, List.getElem?_map]
  by_cases h1 : j < data.height * data.width
  · simp [h1]
  · have : data.pixels[j]? = none := by
      apply List.getElem?_eq_none
      rw [hsize, Nat.mul_comm]
      omega
    simp [h1, this]

/-! ## Lemmas on the state -/

theorem State.image_setImage (st : State) (ptr : Nat) (im : Image) (h : ptr < st.heap.length) :
    (st.setImage ptr im).image ptr = im := by
  simp [State.image, State.setImage, List.getD_eq_getElem?_getD, h]

/-! ## C1 -/

/-- C1 (amended): for every image whose pixel list has `width * height` words
and every color `C`, `setGrayScaleToAlpha(C)` returns `undefined`, keeps width
and height, and replaces every pixel word `p` by
`(L << 24) | (C.blue << 16) | (C.green << 8) | C.red` in `unsigned` arithmetic,
where `L` is the expression `(int)((R * .3) + (G * .59) + (B * .11))` evaluated
in double precision, each product and sum rounded to nearest; on an all-white
image with `C = Color(255, 0, 0)` every word becomes `0xFF0000FF`. -/
theorem setGrayScaleToAlpha_color_words (m : Mapnik) (st : State) (self : Nat) (c : color)
    (props : List (String × Value)) (hself : self < st.heap.length)
    (hsize : (st.image self).this_.data.pixels.length =
      (st.image self).this_.data.width * (st.image self).this_.data.height) :
    (Image.setGrayScaleToAlpha m st self [.object (.Color c) props]).1 = .value .undefined ∧
    ((Image.setGrayScaleToAlpha m st self [.object (.Color c) props]).2.image self).this_.data.width
      = (st.image self).this_.data.width ∧
    ((Image.setGrayScaleToAlpha m st self [.object (.Color c) props]).2.image self).this_.data.height
      = (st.image self).this_.data.height ∧
    ((Image.setGrayScaleToAlpha m st self [.object (.Color c) props]).2.image self).this_.data.pixels
      = (st.image self).this_.data.pixels.map (fun p =>
          ((luminance (p &&& 0xff) ((p >>> 8) &&& 0xff) ((p >>> 16) &&& 0xff) <<< 24) % 2 ^ 32)
            ||| (c.blue <<< 16) ||| (c.green <<< 8) ||| c.red) ∧
    (c.red = 255 → c.green = 0 → c.blue = 0 →
      (∀ p ∈ (st.image self).this_.data.pixels, p = 0xFFFFFFFF) →
      ∀ p ∈ ((Image.setGrayScaleToAlpha m st self
          [.object (.Color c) props]).2.image self).this_.data.pixels, p = 0xFF0000FF) := by
  have hrun : Image.setGrayScaleToAlpha m st self [.object (.Color c) props] =
      (.value .undefined, st.setBuffer self
        { (st.image self).this_ with data := grayLoop c (st.image self).this_.data }) := by
    simp [Image.setGrayScaleToAlpha, argAt, Value.IsObject]
  rw [hrun]
  have himg : ((st.setBuffer self
        { (st.image self).this_ with data := grayLoop c (st.image self).this_.data }).image
          self).this_.data = grayLoop c (st.image self).this_.data := by
    simp only [State.setBuffer, State.image_setImage _ _ _ hself]
  refine ⟨rfl, ?_, ?_, ?_, ?_⟩
  · show (State.image _ self).this_.data.width = _
    rw [himg]; rfl
  · show (State.image _ self).this_.data.height = _
    rw [himg]; rfl
  · show (State.image _ self).this_.data.pixels = _
    rw [himg, grayLoop_pixels c _ hsize]; rfl
  · intro hr hg hb hall p hp
    change p ∈ (State.image _ self).this_.data.pixels at hp
    rw [himg, grayLoop_pixels c _ hsize, List.mem_map] at hp
    obtain ⟨q, hq, rfl⟩ := hp
    rw [hall q hq]
    simp only [grayWord, hr, hg, hb]
    decide

/-- C1 witness: the sample image, two white pixels, with `Color(255, 0, 0)`. -/
theorem setGrayScaleToAlpha_color_words_witness :
    ((Image.setGrayScaleToAlpha sampleMapnik sampleState 0
        [.object (.Color ⟨255, 0, 0, 255⟩) []]).2.image 0).this_.data.pixels
      = [0xFF0000FF, 0xFF0000FF] := by
  have h := (setGrayScaleToAlpha_color_words sampleMapnik sampleState 0 ⟨255, 0, 0, 255⟩ []
    (by decide) (by decide)).2.2.2.1
  rw [h]
  decide

/-- C1 (as stated, refuted): for the pixel `R = 0, G = 23, B = 13` the exact
value `0.3 R + 0.59 G + 0.11 B` is 15, but the double-precision sum is just
below 15 and the code stores 14 in the alpha byte: the word written is
`0x0E0000FF`, not `0x0F0000FF`. -/
theorem setGrayScaleToAlpha_exact_luminance_fails :
    ((Image.setGrayScaleToAlpha sampleMapnik darkState 0
        [.object (.Color ⟨255, 0, 0, 255⟩) []]).2.image 0).this_.data.pixels = [0x0E0000FF] ∧
    (darkState.image 0).this_.data.pixels.map (specGrayWord ⟨255, 0, 0, 255⟩) = [0x0F0000FF] ∧
    specLuminance 0 23 13 = 15 ∧ luminance 0 23 13 = 14 := by
  refine ⟨?_, ?_, ?_, ?_⟩ <;> decide


/-! ## Lemmas on encode -/

theorem encodeSync_eq (m : Mapnik) (st : State) (self : Nat) (args : List Value) :
    Image.encodeSync m st self args =
      match encode_arguments args with
      | .error e => (.throw e, st)
      | .ok (format, palette) =>
        match save_to_string m (st.image self).this_ format palette with
        | .ok s => (.value (Buffer.New s), st)
        | .error what => (.throw (Exception.Error what), st) := by
  unfold Image.encodeSync encode_arguments
  by_cases h1 : (decide (args.length ≥ 1) && !(argAt args 0).IsString) = true
  · simp only [h1, if_true]
  · simp only [h1, if_false, Bool.false_eq_true]
    by_cases h2 : args.length ≥ 2
    · simp only [h2, if_true]
      by_cases h3 : (argAt args 1).IsObject = true
      · simp only [h3, Bool.not_true, Bool.false_eq_true, if_false]
        by_cases h4 : (argAt args 1).Has "palette" = true
        · simp only [h4, if_true]
          cases h5 : (argAt args 1).Get "palette" with
          | object kind props => cases kind <;> simp [Value.IsObject]
          | _ => simp [Value.IsObject]
        · simp only [h4, if_false, Bool.false_eq_true]
      · simp only [h3, Bool.not_false, if_true, Bool.not_eq_true]
    · simp only [h2, if_false]

theorem encode_eq (m : Mapnik) (st : State) (self : Nat) (args : List Value) :
    Image.encode m st self args =
      match encode_arguments args with
      | .error e => (.throw e, st)
      | .ok (format, palette) =>
        if (lastArg args).IsFunction then
          (.value .undefined,
            (st.uv_queue_work (.Encode (encode_closure self format palette (lastArg args)))).Ref
              self)
        else (.throw (Exception.TypeError "last argument must be a callback function"), st) := by
  unfold Image.encode encode_arguments
  by_cases h1 : (decide (args.length ≥ 1) && !(argAt args 0).IsString) = true
  · simp only [h1, if_true]
  · simp only [h1, if_false, Bool.false_eq_true]
    by_cases h2 : args.length ≥ 2
    · simp only [h2, if_true]
      by_cases h3 : (argAt args 1).IsObject = true
      · simp only [h3, Bool.not_true, Bool.false_eq_true, if_false]
        by_cases h4 : (argAt args 1).Has "palette" = true
        · simp only [h4, if_true]
          cases h5 : (argAt args 1).Get "palette" with
          | object kind props =>
            cases kind with
            | Palette p =>
              simp only [Value.IsObject, Bool.not_true, Bool.false_eq_true, if_false]
              by_cases h6 : (lastArg args).IsFunction = true <;> simp [h6, encode_closure]
            | _ => simp [Value.IsObject]
          | _ => simp [Value.IsObject]
        · simp only [h4, if_false, Bool.false_eq_true]
          by_cases h6 : (lastArg args).IsFunction = true <;> simp [h6, encode_closure]
      · simp only [h3, Bool.not_false, if_true, Bool.not_eq_true]
    · simp only [h2, if_false]
      by_cases h6 : (lastArg args).IsFunction = true <;> simp [h6, encode_closure]


theorem list_set_getElem_same {α : Type} (l : List α) (i : Nat) (h : i < l.length) :
    l.set i l[i] = l := by
  apply List.ext_getElem?
  intro j
  rw [List.getElem?_set]
  by_cases hij : i = j
  · subst hij; simp [h]
  · simp [hij]

theorem State.Unref_Ref_heap (st : State) (job : Job) (calls : List (Value × List Value))
    (self : Nat) :
    (State.Unref { (st.uv_queue_work job).Ref self with calls := calls } self).heap = st.heap := by
  simp only [State.Unref, State.Ref, State.setImage, State.image, State.uv_queue_work]
  by_cases h : self < st.heap.length
  · simp [List.getD_eq_getElem?_getD, h]
    exact list_set_getElem_same st.heap self h
  · have h' : st.heap.length ≤ self := Nat.le_of_not_lt h
    simp [List.set_eq_of_length_le h']

theorem State.Ref_this_ (st : State) (job : Job) (self : Nat) :
    (((st.uv_queue_work job).Ref self).image self).this_ = (st.image self).this_ := by
  simp only [State.Ref, State.setImage, State.image, State.uv_queue_work]
  by_cases h : self < st.heap.length
  · simp [List.getD_eq_getElem?_getD, h]
  · have h' : st.heap.length ≤ self := Nat.le_of_not_lt h
    simp [List.set_eq_of_length_le h']

theorem run_encode_job (m : Mapnik) (st : State) (self : Nat) (format : String)
    (palette : palette_ptr) (cb : Value) :
    (runJob m ((st.uv_queue_work (.Encode (encode_closure self format palette cb))).Ref self)
        (.Encode (encode_closure self format palette cb))).heap = st.heap ∧
    (runJob m ((st.uv_queue_work (.Encode (encode_closure self format palette cb))).Ref self)
        (.Encode (encode_closure self format palette cb))).calls =
      st.calls ++ [(cb,
        match save_to_string m (st.image self).this_ format palette with
        | .ok s => [.null, Buffer.New s]
        | .error what => [Exception.Error what])] := by
  simp only [runJob, Image.EIO_Encode, Image.EIO_AfterEncode, encode_closure, State.Ref_this_]
  cases save_to_string m (st.image self).this_ format palette with
  | ok s =>
    refine ⟨?_, ?_⟩
    · exact State.Unref_Ref_heap st _ _ self
    · simp [State.Unref, State.Call, State.setImage, State.Ref, State.uv_queue_work]
  | error what =>
    refine ⟨?_, ?_⟩
    · exact State.Unref_Ref_heap st _ _ self
    · simp [State.Unref, State.Call, State.setImage, State.Ref, State.uv_queue_work]


theorem encode_arguments_error (args : List Value) (e : Value)
    (h : encode_arguments args = .error e) : ∃ msg, e = Exception.TypeError msg := by
  unfold encode_arguments at h
  by_cases h1 : (decide (args.length ≥ 1) && !(argAt args 0).IsString) = true
  · simp only [h1, if_true] at h
    exact ⟨_, (Except.error.inj h).symm⟩
  · simp only [h1, if_false, Bool.false_eq_true] at h
    by_cases h2 : args.length ≥ 2
    · simp only [h2, if_true] at h
      by_cases h3 : (argAt args 1).IsObject = true
      · simp only [h3, Bool.not_true, Bool.false_eq_true, if_false] at h
        by_cases h4 : (argAt args 1).Has "palette" = true
        · simp only [h4, if_true] at h
          split at h
          · cases h
          · exact ⟨_, (Except.error.inj h).symm⟩
          · exact ⟨_, (Except.error.inj h).symm⟩
        · simp only [h4, if_false, Bool.false_eq_true] at h
          cases h
      · simp only [h3, Bool.not_false, if_true] at h
        exact ⟨_, (Except.error.inj h).symm⟩
    · simp only [h2, if_false] at h
      cases h

theorem encode_arguments_callback (f o cb : Value) :
    encode_arguments [f, o, cb] = encode_arguments [f, o] := by
  simp [encode_arguments, argAt]

/-! ## C2 -/

/-- C2 (as stated, refuted): with the sample library `encodeSync("png")` and
`encodeSync()` return the encoded bytes, while `encode("png")` and `encode()`
throw a type error instead of returning them. -/
theorem encode_without_callback_counterexample :
    (Image.encodeSync sampleMapnik sampleState 0 [.string "png"]).1 =
        .value (Buffer.New [137, 80, 78, 71, 13, 10, 26, 10, 0xFFFFFFFF, 0xFFFFFFFF]) ∧
    (Image.encode sampleMapnik sampleState 0 [.string "png"]).1 =
        .throw (Exception.TypeError "last argument must be a callback function") ∧
    (Image.encodeSync sampleMapnik sampleState 0 []).1 =
        .value (Buffer.New [137, 80, 78, 71, 13, 10, 26, 10, 0xFFFFFFFF, 0xFFFFFFFF]) ∧
    (Image.encode sampleMapnik sampleState 0 []).1 =
        .throw (Exception.TypeError "last argument must be a callback function") := by
  refine ⟨?_, ?_, ?_, ?_⟩ <;> rfl

/-- C2 (amended): for every argument list that `encodeSync` accepts and whose
last element is not callable (the empty list included), `encode` does not fall
through: it throws the type error "last argument must be a callback function",
returns no buffer, and leaves the state (work queue, pin counts, callbacks)
untouched. -/
theorem encode_without_callback_is_rejected (m : Mapnik) (st : State) (self : Nat)
    (args : List Value) (b : Value)
    (hsync : (Image.encodeSync m st self args).1 = .value b)
    (hlast : (lastArg args).IsFunction = false) :
    Image.encode m st self args =
      (.throw (Exception.TypeError "last argument must be a callback function"), st) := by
  rw [encodeSync_eq] at hsync
  rw [encode_eq]
  cases hargs : encode_arguments args with
  | error e => rw [hargs] at hsync; cases hsync
  | ok fp => simp [hlast]

/-- C2 witness: `encode("png")` on the sample image. -/
theorem encode_without_callback_is_rejected_witness :
    Image.encode sampleMapnik sampleState 0 [.string "png"] =
      (.throw (Exception.TypeError "last argument must be a callback function"), sampleState) :=
  encode_without_callback_is_rejected sampleMapnik sampleState 0 [.string "png"]
    (Buffer.New [137, 80, 78, 71, 13, 10, 26, 10, 0xFFFFFFFF, 0xFFFFFFFF]) rfl rfl

/-! ## C3 -/

/-- C3 (as stated, refuted): `encode(cb)` is not accepted: it throws, enqueues
nothing and never calls `cb`, while `encode("png", cb)` enqueues one job. -/
theorem encode_callback_only_counterexample :
    (Image.encode sampleMapnik sampleState 0 [sampleCallback]).1 =
        .throw (Exception.TypeError "first arg, 'format' must be a string") ∧
    (Image.encode sampleMapnik sampleState 0 [sampleCallback]).2.queue.length = 0 ∧
    (Image.encode sampleMapnik sampleState 0 [sampleCallback]).2.calls.length = 0 ∧
    (Image.encode sampleMapnik sampleState 0 [.string "png", sampleCallback]).1 =
        .value .undefined ∧
    (Image.encode sampleMapnik sampleState 0 [.string "png", sampleCallback]).2.queue.length = 1 := by
  refine ⟨?_, ?_, ?_, ?_, ?_⟩ <;> rfl

/-- C3 (amended): `encode(cb)` with a callback as its only argument is rejected
with the type error "first arg, 'format' must be a string" and changes nothing;
`encode("png", cb)`, for a callback without a `palette` property, is accepted,
records format "png" and no palette, and the job delivers to `cb` the bytes
that `encodeSync("png")` returns. -/
theorem encode_callback_only_is_rejected (m : Mapnik) (st : State) (self : Nat) (id : Nat)
    (props : List (String × Value)) (b : List Nat) :
    Image.encode m st self [.object (.function id) props] =
      (.throw (Exception.TypeError "first arg, 'format' must be a string"), st) ∧
    ((Value.object (.function id) props).Has "palette" = false →
      Image.encode m st self [.string "png", .object (.function id) props] =
        (.value .undefined,
          (st.uv_queue_work (.Encode
            (encode_closure self "png" none (.object (.function id) props)))).Ref self) ∧
      ((Image.encodeSync m st self [.string "png"]).1 = .value (Buffer.New b) →
        (runJob m (Image.encode m st self [.string "png", .object (.function id) props]).2
          (.Encode (encode_closure self "png" none (.object (.function id) props)))).calls =
            st.calls ++ [(.object (.function id) props, [.null, Buffer.New b])])) := by
  refine ⟨?_, ?_⟩
  · simp [Image.encode, argAt, Value.IsString]
  · intro hpal
    have hargs : encode_arguments [.string "png", .object (.function id) props] =
        .ok ("png", none) := by
      have hpng : TOSTR (.string "png") = "png" := by decide
      simp [encode_arguments, argAt, Value.IsString, Value.IsObject, hpal, hpng]
    have hrun : Image.encode m st self [.string "png", .object (.function id) props] =
        (.value .undefined,
          (st.uv_queue_work (.Encode
            (encode_closure self "png" none (.object (.function id) props)))).Ref self) := by
      rw [encode_eq, hargs]
      simp [lastArg, argAt, Value.IsFunction]
    refine ⟨hrun, ?_⟩
    intro hsync
    rw [hrun, (run_encode_job m st self "png" none _).2]
    have hargs1 : encode_arguments [.string "png"] = .ok ("png", none) := by
      have hpng : TOSTR (.string "png") = "png" := by decide
      simp [encode_arguments, argAt, Value.IsString, hpng]
    rw [encodeSync_eq, hargs1] at hsync
    cases hs : save_to_string m (st.image self).this_ "png" none with
    | ok s =>
      simp only [hs, Completion.value.injEq, Buffer.New, Value.object.injEq,
        ObjKind.Buffer.injEq, and_true] at hsync
      simp [hsync, Buffer.New]
    | error what => simp only [hs] at hsync; cases hsync

/-- C3 witness: on the sample image the job of `encode("png", cb)` calls `cb`
once with `null` and the bytes of `encodeSync("png")`. -/
theorem encode_callback_only_is_rejected_witness :
    (runJob sampleMapnik (Image.encode sampleMapnik sampleState 0
        [.string "png", sampleCallback]).2
      (.Encode (encode_closure 0 "png" none sampleCallback))).calls =
        [(sampleCallback,
          [.null, Buffer.New [137, 80, 78, 71, 13, 10, 26, 10, 0xFFFFFFFF, 0xFFFFFFFF]])] :=
  ((encode_callback_only_is_rejected sampleMapnik sampleState 0 1 []
    [137, 80, 78, 71, 13, 10, 26, 10, 0xFFFFFFFF, 0xFFFFFFFF]).2 rfl).2 rfl


/-! ## C4 -/

/-- C4: for all values `f`, `o` and every callback `cb`, `encode(f, o, cb)`
agrees with `encodeSync(f, o)`. `encodeSync` leaves the state as it is. If it
returns a buffer, `encode` enqueues one job whose run calls `cb` once with
`(null, that buffer)`; if it throws a library error with message `msg`, the job
calls `cb` once with an `Error` of that message; in both cases the wrappers
(pixel data and pin counts) are afterwards as before the call. If it throws a
type error, `encode` throws the same type error and changes nothing, and
`encode` rejects no `(f, o)` that `encodeSync` does not reject the same way. -/
theorem encode_async_agrees_with_sync (m : Mapnik) (st : State) (self : Nat) (f o : Value)
    (id : Nat) (props : List (String × Value)) :
    (Image.encodeSync m st self [f, o]).2 = st ∧
    (∀ b, (Image.encodeSync m st self [f, o]).1 = .value b →
      ∃ closure,
        Image.encode m st self [f, o, .object (.function id) props] =
          (.value .undefined, (st.uv_queue_work (.Encode closure)).Ref self) ∧
        (runJob m ((st.uv_queue_work (.Encode closure)).Ref self) (.Encode closure)).calls =
          st.calls ++ [(.object (.function id) props, [.null, b])] ∧
        (runJob m ((st.uv_queue_work (.Encode closure)).Ref self) (.Encode closure)).heap =
          st.heap) ∧
    (∀ msg, (Image.encodeSync m st self [f, o]).1 = .throw (Exception.Error msg) →
      ∃ closure,
        Image.encode m st self [f, o, .object (.function id) props] =
          (.value .undefined, (st.uv_queue_work (.Encode closure)).Ref self) ∧
        (runJob m ((st.uv_queue_work (.Encode closure)).Ref self) (.Encode closure)).calls =
          st.calls ++ [(.object (.function id) props, [Exception.Error msg])] ∧
        (runJob m ((st.uv_queue_work (.Encode closure)).Ref self) (.Encode closure)).heap =
          st.heap) ∧
    (∀ msg, (Image.encodeSync m st self [f, o]).1 = .throw (Exception.TypeError msg) →
      Image.encode m st self [f, o, .object (.function id) props] =
        (.throw (Exception.TypeError msg), st)) ∧
    (∀ e, (Image.encode m st self [f, o, .object (.function id) props]).1 = .throw e →
      Image.encodeSync m st self [f, o] = (.throw e, st)) := by
  have hlast : (lastArg [f, o, .object (.function id) props]).IsFunction = true := by
    simp [lastArg, argAt, Value.IsFunction]
  have hlast' : lastArg [f, o, .object (.function id) props] = .object (.function id) props := by
    simp [lastArg, argAt]
  rw [encodeSync_eq, encode_eq, encode_arguments_callback, hlast']
  cases hargs : encode_arguments [f, o] with
  | error e =>
    obtain ⟨msg0, rfl⟩ := encode_arguments_error _ _ hargs
    refine ⟨rfl, ?_, ?_, ?_, ?_⟩
    · intro b hb; cases hb
    · intro msg hmsg
      simp [Exception.Error, Exception.TypeError] at hmsg
    · intro msg hmsg
      simp only [Completion.throw.injEq] at hmsg
      simp [hmsg]
    · intro e he
      simp only [Completion.throw.injEq] at he
      simp [he]
  | ok fp =>
    obtain ⟨format, palette⟩ := fp
    have hjob := run_encode_job m st self format palette (.object (.function id) props)
    simp only [Value.IsFunction, if_true]
    cases hs : save_to_string m (st.image self).this_ format palette with
    | ok s =>
      rw [hs] at hjob
      refine ⟨rfl, ?_, ?_, ?_, ?_⟩
      · intro b hb
        simp only [Completion.value.injEq] at hb
        subst hb
        exact ⟨_, rfl, hjob.2, hjob.1⟩
      · intro msg hmsg; cases hmsg
      · intro msg hmsg; cases hmsg
      · intro e he; cases he
    | error what =>
      rw [hs] at hjob
      refine ⟨rfl, ?_, ?_, ?_, ?_⟩
      · intro b hb; cases hb
      · intro msg hmsg
        simp only [Completion.throw.injEq, Exception.Error, Value.object.injEq,
          ObjKind.Error.injEq, and_true] at hmsg
        subst hmsg
        exact ⟨_, rfl, hjob.2, hjob.1⟩
      · intro msg hmsg
        simp [Exception.Error, Exception.TypeError] at hmsg
      · intro e he; cases he

/-- C4 witness: on the sample image, `encode("png", {}, cb)` ends with one
call of `cb`, carrying `null` and the bytes `encodeSync("png", {})` returns;
`encode("gif", {}, cb)` ends with one call carrying the error that
`encodeSync("gif", {})` throws. -/
theorem encode_async_agrees_with_sync_witness :
    (∃ closure,
      Image.encode sampleMapnik sampleState 0
          [.string "png", .object .plain [], sampleCallback] =
        (.value .undefined, (sampleState.uv_queue_work (.Encode closure)).Ref 0) ∧
      (runJob sampleMapnik ((sampleState.uv_queue_work (.Encode closure)).Ref 0)
          (.Encode closure)).calls =
        sampleState.calls ++ [(sampleCallback,
          [.null, Buffer.New [137, 80, 78, 71, 13, 10, 26, 10, 0xFFFFFFFF, 0xFFFFFFFF]])] ∧
      (runJob sampleMapnik ((sampleState.uv_queue_work (.Encode closure)).Ref 0)
          (.Encode closure)).heap = sampleState.heap) ∧
    (∃ closure,
      Image.encode sampleMapnik sampleState 0
          [.string "gif", .object .plain [], sampleCallback] =
        (.value .undefined, (sampleState.uv_queue_work (.Encode closure)).Ref 0) ∧
      (runJob sampleMapnik ((sampleState.uv_queue_work (.Encode closure)).Ref 0)
          (.Encode closure)).calls =
        sampleState.calls ++ [(sampleCallback, [Exception.Error "unknown file type"])] ∧
      (runJob sampleMapnik ((sampleState.uv_queue_work (.Encode closure)).Ref 0)
          (.Encode closure)).heap = sampleState.heap) ∧
    Image.encode sampleMapnik sampleState 0 [.int 5, .object .plain [], sampleCallback] =
      (.throw (Exception.TypeError "first arg, 'format' must be a string"), sampleState) :=
  ⟨(encode_async_agrees_with_sync sampleMapnik sampleState 0 (.string "png")
      (.object .plain []) 1 []).2.1 _ rfl,
   (encode_async_agrees_with_sync sampleMapnik sampleState 0 (.string "gif")
      (.object .plain []) 1 []).2.2.1 _ rfl,
   (encode_async_agrees_with_sync sampleMapnik sampleState 0 (.int 5)
      (.object .plain []) 1 []).2.2.2.1 _ rfl⟩


/-! ## C5 -/

theorem openSync_queue (m : Mapnik) (st : State) (args : List Value) :
    (Image.openSync m st args).2.queue = st.queue := by
  simp only [Image.openSync]
  repeat' split
  all_goals rfl

theorem fromBytesSync_queue (m : Mapnik) (st : State) (args : List Value) :
    (Image.fromBytesSync m st args).2.queue = st.queue := by
  simp only [Image.fromBytesSync]
  repeat' split
  all_goals rfl

/-- C5: `premultiply()`, `demultiply()` and `clear()` with no argument are the
calls `premultiplySync()`, `demultiplySync()` and `clearSync()`, and `open(x)`
and `fromBytes(x)` with exactly one argument are `openSync(x)` and
`fromBytesSync(x)`, for every `x`: same completion (value or error) and same
resulting state; none of them adds a job to the work queue. -/
theorem async_without_callback_is_sync (m : Mapnik) (st : State) (self : Nat) (x : Value) :
    (callMethod m st self "premultiply" [] = Image.premultiplySync m st self [] ∧
      callMethod m st self "premultiply" [] = callMethod m st self "premultiplySync" []) ∧
    (callMethod m st self "demultiply" [] = Image.demultiplySync m st self [] ∧
      callMethod m st self "demultiply" [] = callMethod m st self "demultiplySync" []) ∧
    (callMethod m st self "clear" [] = Image.clearSync m st self [] ∧
      callMethod m st self "clear" [] = callMethod m st self "clearSync" []) ∧
    Image.open m st [x] = Image.openSync m st [x] ∧
    Image.fromBytes m st [x] = Image.fromBytesSync m st [x] ∧
    (callMethod m st self "premultiply" []).2.queue = st.queue ∧
    (callMethod m st self "demultiply" []).2.queue = st.queue ∧
    (callMethod m st self "clear" []).2.queue = st.queue ∧
    (Image.open m st [x]).2.queue = st.queue ∧
    (Image.fromBytes m st [x]).2.queue = st.queue := by
  have hp : callMethod m st self "premultiply" [] = Image.premultiplySync m st self [] := rfl
  have hd : callMethod m st self "demultiply" [] = Image.demultiplySync m st self [] := rfl
  have hc : callMethod m st self "clear" [] = Image.clearSync m st self [] := rfl
  have ho : Image.open m st [x] = Image.openSync m st [x] := rfl
  have hf : Image.fromBytes m st [x] = Image.fromBytesSync m st [x] := rfl
  refine ⟨⟨hp, rfl⟩, ⟨hd, rfl⟩, ⟨hc, rfl⟩, ho, hf, ?_, ?_, ?_, ?_, ?_⟩
  · rw [hp]; unfold Image.premultiplySync; repeat' split
    all_goals rfl
  · rw [hd]; unfold Image.demultiplySync; repeat' split
    all_goals rfl
  · rw [hc]; unfold Image.clearSync; repeat' split
    all_goals rfl
  · rw [ho]; exact openSync_queue m st [x]
  · rw [hf]; exact fromBytesSync_queue m st [x]

/-! ## C7 -/

/-- C7 (code defect): the host-visible name `clearSync` is registered with the
function `Image::clear`, so `clearSync(cb)` with a function argument does not
clear on the calling thread: it enqueues a clear job carrying `cb` and pins the
wrapper (its pixel buffer is as before), and `clearSync(5)` throws the type
error of the asynchronous form. -/
theorem clearSync_with_callback_is_async (m : Mapnik) (st : State) (self : Nat) (id : Nat)
    (props : List (String × Value)) :
    callMethod m st self "clearSync" [.object (.function id) props] =
      (.value .undefined,
        (st.uv_queue_work (.Clear
          { im := self, format := "", error := false, error_name := "",
            cb := .object (.function id) props })).Ref self) ∧
    (callMethod sampleMapnik sampleState 0 "clearSync" [sampleCallback]).2.queue.length = 1 ∧
    ((callMethod sampleMapnik sampleState 0 "clearSync" [sampleCallback]).2.image 0).refs_ = 1 ∧
    ((callMethod sampleMapnik sampleState 0 "clearSync" [sampleCallback]).2.image 0).this_ =
      (sampleState.image 0).this_ ∧
    ((Image.clearSync sampleMapnik sampleState 0 [sampleCallback]).2.image 0).this_.data.pixels =
      [0, 0] ∧
    callMethod m st self "clearSync" [.int 5] =
      (.throw (Exception.TypeError "last argument must be a callback function"), st) := by
  refine ⟨rfl, rfl, rfl, rfl, rfl, rfl⟩

/-! ## C8 -/

/-- C8 (code defect): `view` rejects a four-element argument list only when
none of the four is a number; `view(0, 0, 256, undefined)` is accepted and a
view with height 0 is created, and so is `view(7, null, null, null)`. -/
theorem view_accepts_non_numbers (m : Mapnik) (st : State) (self : Nat) :
    Image.view m st self [.int 0, .int 0, .int 256, .undefined] =
      (.value (ImageView.New self 0 0 256 0), st) ∧
    Image.view m st self [.int 7, .null, .null, .null] =
      (.value (ImageView.New self 7 0 0 0), st) ∧
    Image.view m st self [.null, .null, .null, .null] =
      (.throw (Exception.TypeError "requires 4 integer arguments: x, y, width, height"), st) := by
  refine ⟨rfl, rfl, rfl⟩


/-! ## C9 -/

/-- C9 (as stated, refuted): `new Image(1.5, 2)` does not fail: with the sample
library it returns a wrapper of a 1 x 2 image. -/
theorem new_image_fraction_counterexample :
    (Image.New sampleMapnik sampleState true [.number 3 (-1), .int 2]).1 = .value (handle_ 1) ∧
    (Image.New sampleMapnik sampleState true [.number 3 (-1), .int 2]).2.heap.length = 2 ∧
    ((Image.New sampleMapnik sampleState true [.number 3 (-1), .int 2]).2.image 1).this_.data =
      ⟨1, 2, [0, 0]⟩ := by
  refine ⟨rfl, rfl, rfl⟩

/-- C9 (amended): `new Image(args)` on host arguments (the first one not an
external) throws an error and creates no wrapper whenever the argument list is
not exactly two numbers: with the message "please provide Image width and
height" when the list has not two elements, and with "Image 'width' and
'height' must be a integers" when it has two and one of them is not a number. A
number with a fractional part is a number: two numbers are accepted, each
converted by `IntegerValue()` (its truncation toward zero when that is in the
range of `int64_t`) and reduced to an `unsigned int`, and a wrapper is created
when the library allocates the buffer. -/
theorem new_image_requires_two_numbers (m : Mapnik) (st : State) (args : List Value) :
    ((∀ ptr, argAt args 0 ≠ .external ptr) → args.length ≠ 2 →
      Image.New m st true args =
        (.throw (Exception.Error "please provide Image width and height"), st)) ∧
    ((∀ ptr, argAt args 0 ≠ .external ptr) → args.length = 2 →
      ¬ ((argAt args 0).IsNumber = true ∧ (argAt args 1).IsNumber = true) →
      Image.New m st true args =
        (.throw (Exception.Error "Image 'width' and 'height' must be a integers"), st)) ∧
    (∀ mant0 exp0 mant1 exp1 buf,
      args = [.number mant0 exp0, .number mant1 exp1] →
      m.new_image_32 (toUnsigned (IntegerValue m (.number mant0 exp0)))
        (toUnsigned (IntegerValue m (.number mant1 exp1))) = .ok buf →
      (Image.New m st true args).1 = .value (handle_ st.heap.length) ∧
      (Image.New m st true args).2.heap = st.heap ++
        [⟨buf, estimated_size_member (estimated_size_expr (toUnsigned (IntegerValue m (.number mant0 exp0)))
          (toUnsigned (IntegerValue m (.number mant1 exp1)))), 0⟩]) ∧
    (∀ mant exp : Int, -9223372036854775808 ≤ truncate mant exp →
      truncate mant exp < 9223372036854775808 →
      IntegerValue m (.number mant exp) = truncate mant exp) := by
  refine ⟨?_, ?_, ?_, ?_⟩
  · intro hext hlen
    cases h0 : argAt args 0 with
    | external ptr => exact absurd h0 (hext ptr)
    | _ =>
      simp only [Image.New, h0, hlen, Bool.not_true, Bool.false_eq_true, if_false]
  · intro hext hlen hnot
    have hnum : (!(argAt args 0).IsNumber || !(argAt args 1).IsNumber) = true := by
      cases h0 : (argAt args 0).IsNumber
      · rfl
      · cases h1 : (argAt args 1).IsNumber
        · rfl
        · exact absurd ⟨h0, h1⟩ hnot
    cases h0 : argAt args 0 with
    | external ptr => exact absurd h0 (hext ptr)
    | _ =>
      rw [h0] at hnum
      simp only [Image.New, h0, hlen, hnum, Bool.not_true, Bool.false_eq_true, if_false,
        if_true]
  · intro mant0 exp0 mant1 exp1 buf hargs hbuf
    subst hargs
    have h1 : Image.New m st true [.number mant0 exp0, .number mant1 exp1] =
        (match Image.ctor m (toUnsigned (IntegerValue m (.number mant0 exp0)))
            (toUnsigned (IntegerValue m (.number mant1 exp1))) st with
          | .ok (ptr, st1) => (.value (handle_ ptr), st1)
          | .error what => (.throw (Exception.Error what), st)) := rfl
    have h2 : Image.ctor m (toUnsigned (IntegerValue m (.number mant0 exp0)))
        (toUnsigned (IntegerValue m (.number mant1 exp1))) st =
        .ok (st.heap.length,
          { st with
            heap := st.heap ++ [⟨buf, estimated_size_member (estimated_size_expr
              (toUnsigned (IntegerValue m (.number mant0 exp0)))
              (toUnsigned (IntegerValue m (.number mant1 exp1)))), 0⟩],
            external_memory := st.external_memory + estimated_size_member (estimated_size_expr
              (toUnsigned (IntegerValue m (.number mant0 exp0)))
              (toUnsigned (IntegerValue m (.number mant1 exp1)))) }) := by
      simp only [Image.ctor, hbuf]
    rw [h1, h2]
    exact ⟨rfl, rfl⟩
  · intro mant exp hlo hhi
    simp only [IntegerValue]
    rw [if_pos ⟨by norm_num; exact hlo, by norm_num; exact hhi⟩]

/-- C9 witness: `new Image("4", 4)`, `new Image(4)` and `new Image(4, 4, 4)` throw
and leave the sample state alone; `new Image(1.5, 2)` creates a 1 x 2 image. -/
theorem new_image_requires_two_numbers_witness :
    Image.New sampleMapnik sampleState true [.string "4", .int 4] =
      (.throw (Exception.Error "Image 'width' and 'height' must be a integers"),
        sampleState) ∧
    Image.New sampleMapnik sampleState true [.int 4] =
      (.throw (Exception.Error "please provide Image width and height"), sampleState) ∧
    Image.New sampleMapnik sampleState true [.int 4, .int 4, .int 4] =
      (.throw (Exception.Error "please provide Image width and height"), sampleState) ∧
    (Image.New sampleMapnik sampleState true [.number 3 (-1), .int 2]).2.heap =
      sampleState.heap ++ [⟨⟨⟨1, 2, [0, 0]⟩, none, false⟩, 8, 0⟩] :=
  ⟨(new_image_requires_two_numbers sampleMapnik sampleState [.string "4", .int 4]).2.1
      (by intro ptr h; cases h) rfl (by decide),
   (new_image_requires_two_numbers sampleMapnik sampleState [.int 4]).1
      (by intro ptr h; cases h) (by decide),
   (new_image_requires_two_numbers sampleMapnik sampleState [.int 4, .int 4, .int 4]).1
      (by intro ptr h; cases h) (by decide),
   ((new_image_requires_two_numbers sampleMapnik sampleState [.number 3 (-1), .int 2]).2.2.1
      3 (-1) 2 0 ⟨⟨1, 2, [0, 0]⟩, none, false⟩ rfl rfl).2⟩

/-! ## C10 -/

/-- C10 (code defect): both constructors compute `width * height * 4` in
`unsigned int`. For a 32768 x 32768 image the product 4294967296 wraps to 0, so
`estimated_size_` is 0 and 0 is announced to the host allocator. -/
theorem estimated_size_wraps (m : Mapnik) (st : State) (px : List Nat) (bg : Option color)
    (painted : Bool) :
    (32768 * 32768 * 4 : Int) = 4294967296 ∧
    (∀ ptr st1, Image.ctor m 32768 32768 st = .ok (ptr, st1) →
      (st1.image ptr).estimated_size_ = 0 ∧ st1.external_memory = st.external_memory) ∧
    ((Image.adopt ⟨⟨32768, 32768, px⟩, bg, painted⟩ st).2.image
      (Image.adopt ⟨⟨32768, 32768, px⟩, bg, painted⟩ st).1).estimated_size_ = 0 ∧
    (Image.adopt ⟨⟨32768, 32768, px⟩, bg, painted⟩ st).2.external_memory =
      st.external_memory := by
  have hz : estimated_size_member (estimated_size_expr 32768 32768) = 0 := by decide
  refine ⟨by norm_num, ?_, ?_, ?_⟩
  · intro ptr st1 h
    simp only [Image.ctor] at h
    split at h
    · cases h
    · next buf hbuf =>
      simp only [Except.ok.injEq, Prod.mk.injEq] at h
      obtain ⟨rfl, rfl⟩ := h
      simp [State.image, hz]
  · simp [Image.adopt, State.image, image_32.width, image_32.height, hz]
  · simp [Image.adopt, image_32.width, image_32.height, hz]


/-! ## C6 -/

theorem clear_throw (m : Mapnik) (st : State) (self : Nat) (args : List Value) (v : Value) :
    (Image.clear m st self args).1 = .throw v → (Image.clear m st self args).2 = st := by
  simp only [Image.clear, Image.clearSync]
  repeat' split
  all_goals intro h; first | rfl | (simp at h)

theorem premultiply_throw (m : Mapnik) (st : State) (self : Nat) (args : List Value) (v : Value) :
    (Image.premultiply m st self args).1 = .throw v →
      (Image.premultiply m st self args).2 = st := by
  simp only [Image.premultiply, Image.premultiplySync]
  repeat' split
  all_goals intro h; first | rfl | (simp at h)

theorem demultiply_throw (m : Mapnik) (st : State) (self : Nat) (args : List Value) (v : Value) :
    (Image.demultiply m st self args).1 = .throw v →
      (Image.demultiply m st self args).2 = st := by
  simp only [Image.demultiply, Image.demultiplySync]
  repeat' split
  all_goals intro h; first | rfl | (simp at h)

theorem encode_throw (m : Mapnik) (st : State) (self : Nat) (args : List Value) (v : Value) :
    (Image.encode m st self args).1 = .throw v → (Image.encode m st self args).2 = st := by
  rw [encode_eq]
  repeat' split
  all_goals intro h; first | rfl | (simp at h)

theorem NewInstance_value (m : Mapnik) (st : State) (image_ptr : image_32) :
    (NewInstance m st image_ptr).1 = .value (handle_ st.heap.length) := rfl

theorem openSync_throw (m : Mapnik) (st : State) (args : List Value) (v : Value) :
    (Image.openSync m st args).1 = .throw v → (Image.openSync m st args).2 = st := by
  simp only [Image.openSync]
  repeat' split
  all_goals intro h; first | rfl | (simp [NewInstance_value] at h)

theorem fromBytesSync_throw (m : Mapnik) (st : State) (args : List Value) (v : Value) :
    (Image.fromBytesSync m st args).1 = .throw v → (Image.fromBytesSync m st args).2 = st := by
  simp only [Image.fromBytesSync]
  repeat' split
  all_goals intro h; first | rfl | (simp [NewInstance_value] at h)

theorem open_throw (m : Mapnik) (st : State) (args : List Value) (v : Value) :
    (Image.open m st args).1 = .throw v → (Image.open m st args).2 = st := by
  simp only [Image.open]
  split
  · exact openSync_throw m st args v
  · repeat' split
    all_goals intro h; first | rfl | (simp at h)

theorem fromBytes_throw (m : Mapnik) (st : State) (args : List Value) (v : Value) :
    (Image.fromBytes m st args).1 = .throw v → (Image.fromBytes m st args).2 = st := by
  simp only [Image.fromBytes]
  split
  · exact fromBytesSync_throw m st args v
  · repeat' split
    all_goals intro h; first | rfl | (simp at h)

theorem composite_throw (m : Mapnik) (st : State) (self : Nat) (args : List Value) (v : Value) :
    (Image.composite m st self args).1 = .throw v →
      (Image.composite m st self args).2 = st := by
  simp only [Image.composite]
  repeat' split
  all_goals intro h; first | rfl | (simp at h)


theorem encode_arguments_ok (args : List Value) (fp : String × palette_ptr)
    (h : encode_arguments args = .ok fp) :
    (1 ≤ args.length → (argAt args 0).IsString = true) ∧
    (2 ≤ args.length → (argAt args 1).IsObject = true ∧
      ((argAt args 1).Has "palette" = true →
        ∃ p props, (argAt args 1).Get "palette" = .object (.Palette p) props)) := by
  unfold encode_arguments at h
  by_cases h1 : (decide (args.length ≥ 1) && !(argAt args 0).IsString) = true
  · simp only [h1, if_true] at h
    cases h
  · simp only [h1, if_false, Bool.false_eq_true] at h
    refine ⟨?_, ?_⟩
    · intro hlen
      simp only [ge_iff_le, Bool.and_eq_true, decide_eq_true_eq, Bool.not_eq_true', not_and,
        Bool.not_eq_false] at h1
      exact h1 hlen
    · intro hlen
      have h2 : args.length ≥ 2 := hlen
      simp only [h2, if_true] at h
      by_cases h3 : (argAt args 1).IsObject = true
      · refine ⟨h3, ?_⟩
        intro h4
        simp only [h3, Bool.not_true, Bool.false_eq_true, if_false, h4, if_true] at h
        split at h
        · next p props hget => exact ⟨p, props, hget⟩
        · cases h
        · cases h
      · simp only [h3, Bool.not_false, if_true] at h
        cases h

theorem composite_options_ok (m : Mapnik) (args : List Value) (v : composite_locals)
    (h : composite_options m args = .ok v) (hlen : 2 ≤ args.length) :
    (argAt args 1).IsObject = true ∧
    ((argAt args 1).Has "comp_op" = true → ((argAt args 1).Get "comp_op").IsNumber = true) ∧
    ((argAt args 1).Has "opacity" = true → ((argAt args 1).Get "opacity").IsNumber = true) ∧
    ((argAt args 1).Has "dx" = true → ((argAt args 1).Get "dx").IsNumber = true) ∧
    ((argAt args 1).Has "dy" = true → ((argAt args 1).Get "dy").IsNumber = true) ∧
    ((argAt args 1).Has "image_filters" = true →
      ((argAt args 1).Get "image_filters").IsString = true ∧
      ∃ filters, m.parse_image_filters (TOSTR ((argAt args 1).Get "image_filters")) =
        .ok (some filters)) := by
  have h2 : args.length ≥ 2 := hlen
  simp only [composite_options, h2, if_true] at h
  by_cases h3 : (argAt args 1).IsObject = true
  · simp only [h3, Bool.not_true, Bool.false_eq_true, if_false] at h
    cases ha : composite_comp_op m (argAt args 1)
        { mode := m.src_over, opacity := (1, 0), filters := [], dx := 0, dy := 0 } with
    | error e => rw [ha] at h; cases h
    | ok va =>
      rw [ha] at h
      simp only [Except.bind] at h
      cases hb : composite_opacity m (argAt args 1) va with
      | error e => rw [hb] at h; cases h
      | ok vb =>
        rw [hb] at h
        simp only at h
        cases hc : composite_dx m (argAt args 1) vb with
        | error e => rw [hc] at h; cases h
        | ok vc =>
          rw [hc] at h
          simp only at h
          cases hd : composite_dy m (argAt args 1) vc with
          | error e => rw [hd] at h; cases h
          | ok vd =>
            rw [hd] at h
            simp only at h
            refine ⟨h3, ?_, ?_, ?_, ?_, ?_⟩
            · intro hhas
              simp only [composite_comp_op, hhas, if_true] at ha
              cases hnum : ((argAt args 1).Get "comp_op").IsNumber
              · simp [hnum] at ha
              · rfl
            · intro hhas
              simp only [composite_opacity, hhas, if_true] at hb
              cases hnum : ((argAt args 1).Get "opacity").IsNumber
              · simp [hnum] at hb
              · rfl
            · intro hhas
              simp only [composite_dx, hhas, if_true] at hc
              cases hnum : ((argAt args 1).Get "dx").IsNumber
              · simp [hnum] at hc
              · rfl
            · intro hhas
              simp only [composite_dy, hhas, if_true] at hd
              cases hnum : ((argAt args 1).Get "dy").IsNumber
              · simp [hnum] at hd
              · rfl
            · intro hhas
              simp only [composite_image_filters, hhas, if_true] at h
              cases hstr : ((argAt args 1).Get "image_filters").IsString
              · simp [hstr] at h
              · refine ⟨rfl, ?_⟩
                simp only [hstr, Bool.not_true, Bool.false_eq_true, if_false] at h
                split at h
                · cases h
                · cases h
                · next filters hp => exact ⟨filters, hp⟩
  · simp only [h3, Bool.not_false, if_true] at h
    cases h

theorem composite_value (m : Mapnik) (st : State) (self : Nat) (args : List Value) :
    (∃ v, (Image.composite m st self args).1 = .throw v) ∨
    ((lastArg args).IsFunction = true ∧
      (∃ ptr props, argAt args 0 = .object (.Image ptr) props) ∧
      ∃ v, composite_options m args = .ok v) := by
  simp only [Image.composite]
  split
  · split
    · exact .inl ⟨_, rfl⟩
    · split
      · exact .inl ⟨_, rfl⟩
      · split
        · next ptr props h0 =>
          split
          · exact .inl ⟨_, rfl⟩
          · next hcb =>
            split
            · exact .inl ⟨_, rfl⟩
            · next v hv =>
              refine .inr ⟨?_, ⟨ptr, props, h0⟩, v, hv⟩
              simpa using hcb
        · exact .inl ⟨_, rfl⟩
  · exact .inl ⟨_, rfl⟩


theorem length_pos_of_ne_nil (args : List Value) (h0 : args ≠ []) : ¬ args.length = 0 := by
  intro h
  exact h0 (List.length_eq_zero.mp h)

theorem invalid_throws (m : Mapnik) (st : State) (self : Nat) (e : AsyncEntry)
    (args : List Value) (h : InvalidArguments m e args) :
    ∃ v, (e.call m st self args).1 = .throw v := by
  cases h with
  | clear_callback _ h0 h =>
    simp [AsyncEntry.call, Image.clear, length_pos_of_ne_nil args h0, h]
  | premultiply_callback _ h0 h =>
    simp [AsyncEntry.call, Image.premultiply, length_pos_of_ne_nil args h0, h]
  | demultiply_callback _ h0 h =>
    simp [AsyncEntry.call, Image.demultiply, length_pos_of_ne_nil args h0, h]
  | encode_callback _ h =>
    simp only [AsyncEntry.call, encode_eq]
    cases encode_arguments args with
    | error e => exact ⟨e, rfl⟩
    | ok fp => simp [h]
  | open_callback _ h0 h =>
    have h1 : ¬ args.length = 1 := by omega
    have h2 : ¬ args.length < 2 := by omega
    simp only [AsyncEntry.call, Image.open, h1, h2, if_false, h, Bool.not_false, if_true]
    split <;> exact ⟨_, rfl⟩
  | fromBytes_callback _ h0 h =>
    have h1 : ¬ args.length = 1 := by omega
    have h2 : ¬ args.length < 2 := by omega
    simp only [AsyncEntry.call, Image.fromBytes, h1, h2, if_false, h, Bool.not_false, if_true]
    repeat' split
    all_goals exact ⟨_, rfl⟩
  | composite_callback _ h =>
    rcases composite_value m st self args with hthrow | ⟨hcb, _⟩
    · exact hthrow
    · rw [h] at hcb; cases hcb
  | open_missing => exact ⟨_, rfl⟩
  | fromBytes_missing => exact ⟨_, rfl⟩
  | encode_format _ h0 h =>
    simp only [AsyncEntry.call, encode_eq]
    cases hargs : encode_arguments args with
    | error e => exact ⟨e, rfl⟩
    | ok fp =>
      have := (encode_arguments_ok args fp hargs).1 h0
      rw [h] at this; cases this
  | encode_options _ h0 h =>
    simp only [AsyncEntry.call, encode_eq]
    cases hargs : encode_arguments args with
    | error e => exact ⟨e, rfl⟩
    | ok fp =>
      have := ((encode_arguments_ok args fp hargs).2 h0).1
      rw [h] at this; cases this
  | encode_palette _ h0 h1 h2 =>
    simp only [AsyncEntry.call, encode_eq]
    cases hargs : encode_arguments args with
    | error e => exact ⟨e, rfl⟩
    | ok fp =>
      obtain ⟨p, props, hget⟩ := ((encode_arguments_ok args fp hargs).2 h0).2 h1
      exact absurd hget (h2 p props)
  | open_filename _ h0 h =>
    have h1 : ¬ args.length < 1 := by omega
    simp only [AsyncEntry.call, Image.open, Image.openSync, h1, if_false, h, Bool.not_false,
      if_true]
    repeat' split
    all_goals exact ⟨_, rfl⟩
  | fromBytes_buffer _ h0 h =>
    simp only [AsyncEntry.call, Image.fromBytes, Image.fromBytesSync]
    repeat' split
    all_goals exact ⟨_, rfl⟩
  | composite_image _ h =>
    rcases composite_value m st self args with hthrow | ⟨_, ⟨ptr, props, h0⟩, _⟩
    · exact hthrow
    · exact absurd h0 (h ptr props)
  | composite_options _ h0 h =>
    rcases composite_value m st self args with hthrow | ⟨_, _, v, hv⟩
    · exact hthrow
    · have := (composite_options_ok m args v hv h0).1
      rw [h] at this; cases this
  | composite_comp_op _ h0 h1 h2 =>
    rcases composite_value m st self args with hthrow | ⟨_, _, v, hv⟩
    · exact hthrow
    · have := (composite_options_ok m args v hv h0).2.1 h1
      rw [h2] at this; cases this
  | composite_opacity _ h0 h1 h2 =>
    rcases composite_value m st self args with hthrow | ⟨_, _, v, hv⟩
    · exact hthrow
    · have := (composite_options_ok m args v hv h0).2.2.1 h1
      rw [h2] at this; cases this
  | composite_dx _ h0 h1 h2 =>
    rcases composite_value m st self args with hthrow | ⟨_, _, v, hv⟩
    · exact hthrow
    · have := (composite_options_ok m args v hv h0).2.2.2.1 h1
      rw [h2] at this; cases this
  | composite_dy _ h0 h1 h2 =>
    rcases composite_value m st self args with hthrow | ⟨_, _, v, hv⟩
    · exact hthrow
    · have := (composite_options_ok m args v hv h0).2.2.2.2.1 h1
      rw [h2] at this; cases this
  | composite_image_filters _ h0 h1 h2 =>
    rcases composite_value m st self args with hthrow | ⟨_, _, v, hv⟩
    · exact hthrow
    · have := ((composite_options_ok m args v hv h0).2.2.2.2.2 h1).1
      rw [h2] at this; cases this
  | composite_filters_parse _ h0 h1 h2 =>
    rcases composite_value m st self args with hthrow | ⟨_, _, v, hv⟩
    · exact hthrow
    · obtain ⟨filters, hp⟩ := ((composite_options_ok m args v hv h0).2.2.2.2.2 h1).2
      exact absurd hp (h2 filters)

theorem call_throw (m : Mapnik) (st : State) (self : Nat) (e : AsyncEntry) (args : List Value)
    (v : Value) (h : (e.call m st self args).1 = .throw v) : (e.call m st self args).2 = st := by
  cases e
  · exact clear_throw m st self args v h
  · exact premultiply_throw m st self args v h
  · exact demultiply_throw m st self args v h
  · exact encode_throw m st self args v h
  · exact open_throw m st args v h
  · exact fromBytes_throw m st args v h
  · exact composite_throw m st self args v h

/-- C6: for each of the entry points clear, premultiply, demultiply, encode,
open, fromBytes and composite, an argument list that fails validation (last
argument not callable, positional argument missing or of the wrong type,
recognised option of the wrong type, `image_filters` not parsed) makes the call
throw on the calling thread with the state untouched; and whenever a call of
one of them throws, for any reason, the state after it is the state before it:
no job is enqueued, no reference count has changed and no callback was called. -/
theorem rejected_call_has_no_effect (m : Mapnik) (st : State) (self : Nat) (e : AsyncEntry)
    (args : List Value) :
    (InvalidArguments m e args → ∃ v, e.call m st self args = (.throw v, st)) ∧
    (∀ v, (e.call m st self args).1 = .throw v →
      (e.call m st self args).2 = st ∧
      (e.call m st self args).2.queue = st.queue ∧
      (e.call m st self args).2.heap = st.heap ∧
      (e.call m st self args).2.calls = st.calls) := by
  refine ⟨?_, ?_⟩
  · intro h
    obtain ⟨v, hv⟩ := invalid_throws m st self e args h
    exact ⟨v, Prod.ext hv (call_throw m st self e args v hv)⟩
  · intro v hv
    have := call_throw m st self e args v hv
    rw [this]
    exact ⟨rfl, rfl, rfl, rfl⟩

/-- C6 witness: `composite(image, {image_filters: "sharpen"}, cb)` with a filter
string the sample library does not parse, and `composite(image, {dx: "1"}, cb)`,
throw and leave the sample state as it was. -/
theorem rejected_call_has_no_effect_witness :
    (∃ v, Image.composite sampleMapnik sampleState 0
        [handle_ 0, .object .plain [("image_filters", .string "sharpen")], sampleCallback] =
      (.throw v, sampleState)) ∧
    (∃ v, Image.composite sampleMapnik sampleState 0
        [handle_ 0, .object .plain [("dx", .string "1")], sampleCallback] =
      (.throw v, sampleState)) ∧
    (∃ v, Image.clear sampleMapnik sampleState 0 [.int 1] = (.throw v, sampleState)) :=
  ⟨(rejected_call_has_no_effect sampleMapnik sampleState 0 .composite
      [handle_ 0, .object .plain [("image_filters", .string "sharpen")], sampleCallback]).1
      (.composite_filters_parse _ (by decide) (by rfl) (by intro filters h; cases h)),
   (rejected_call_has_no_effect sampleMapnik sampleState 0 .composite
      [handle_ 0, .object .plain [("dx", .string "1")], sampleCallback]).1
      (.composite_dx _ (by decide) (by rfl) (by rfl)),
   (rejected_call_has_no_effect sampleMapnik sampleState 0 .clear [.int 1]).1
      (.clear_callback _ (by simp) (by rfl))⟩


/-! ## C11 -/

theorem sum_map_erase_add (f : Nat → Int) (l : List Nat) (p : Nat) (h : p ∈ l) :
    ((l.erase p).map f).sum + f p = (l.map f).sum := by
  induction l with
  | nil => cases h
  | cons a t ih =>
    by_cases hap : a = p
    · subst hap
      simp [Int.add_comm]
    · have hpt : p ∈ t := by
        rcases List.mem_cons.mp h with h1 | h1
        · exact absurd h1.symm hap
        · exact h1
      have hbeq : (a == p) = false := by simpa using hap
      rw [List.erase_cons, hbeq]
      simp only [Bool.false_eq_true, if_false, List.map_cons, List.sum_cons]
      rw [Int.add_assoc, ih hpt]

theorem image_append_old (st : State) (im : Image) (ext : Int) (p : Nat)
    (h : p < st.heap.length) :
    State.image { st with heap := st.heap ++ [im], external_memory := ext } p = st.image p := by
  simp [State.image, List.getD_eq_getElem?_getD, List.getElem?_append_left h]

theorem image_append_new (st : State) (im : Image) (ext : Int) :
    State.image { st with heap := st.heap ++ [im], external_memory := ext } st.heap.length = im := by
  simp [State.image, List.getD_eq_getElem?_getD]

theorem toInt32_of_int_range (n : Int) (hlo : -2147483648 ≤ n) (hhi : n < 2147483648) :
    toInt32 n = n := by
  unfold toInt32
  norm_num
  omega

theorem toInt32_of_nat_range (n : Nat) (hn : n < 2 ^ 32) (hne : n ≠ 2 ^ 31) :
    -2147483648 < toInt32 n ∧ toInt32 n < 2147483648 := by
  unfold toInt32
  norm_num at hn hne ⊢
  split <;> omega

theorem estimated_size_regular (width height : Nat)
    (h : (estimated_size_expr width height != 2 ^ 31) = true) :
    -2147483648 < estimated_size_member (estimated_size_expr width height) ∧
    estimated_size_member (estimated_size_expr width height) < 2147483648 := by
  apply toInt32_of_nat_range
  · exact Nat.mod_lt _ (by decide)
  · simpa using h

theorem push_invariant (w : Wrappers) (im : Image) (base : Int)
    (him : -2147483648 < im.estimated_size_ ∧ im.estimated_size_ < 2147483648)
    (hvalid : ∀ p ∈ w.alive, p < w.st.heap.length)
    (hrange : ∀ p ∈ w.alive, -2147483648 < (w.st.image p).estimated_size_ ∧
      (w.st.image p).estimated_size_ < 2147483648)
    (hsum : w.st.external_memory = base + w.announced) :
    (∀ p ∈ w.st.heap.length :: w.alive,
      p < (w.st.heap ++ [im]).length) ∧
    (∀ p ∈ w.st.heap.length :: w.alive,
      -2147483648 < (State.image
        { w.st with
          heap := w.st.heap ++ [im],
          external_memory := w.st.external_memory + im.estimated_size_ } p).estimated_size_ ∧
      (State.image
        { w.st with
          heap := w.st.heap ++ [im],
          external_memory := w.st.external_memory + im.estimated_size_ } p).estimated_size_ <
        2147483648) ∧
    w.st.external_memory + im.estimated_size_ =
      base + Wrappers.announced
        { st := { w.st with heap := w.st.heap ++ [im],
                            external_memory := w.st.external_memory + im.estimated_size_ },
          alive := w.st.heap.length :: w.alive } := by
  refine ⟨?_, ?_, ?_⟩
  · intro p hp
    rcases List.mem_cons.mp hp with h1 | h1
    · simp [h1]
    · have := hvalid p h1
      simp only [List.length_append, List.length_singleton]
      omega
  · intro p hp
    rcases List.mem_cons.mp hp with h1 | h1
    · rw [h1, image_append_new]
      exact him
    · rw [image_append_old _ _ _ _ (hvalid p h1)]
      exact hrange p h1
  · simp only [Wrappers.announced, List.map_cons, List.sum_cons, image_append_new]
    have hold : (w.alive.map fun ptr => (State.image
        { w.st with
          heap := w.st.heap ++ [im],
          external_memory := w.st.external_memory + im.estimated_size_ } ptr).estimated_size_) =
        w.alive.map fun ptr => (w.st.image ptr).estimated_size_ := by
      apply List.map_congr_left
      intro p hp
      rw [image_append_old _ _ _ _ (hvalid p hp)]
    rw [hold, hsum]
    simp only [Wrappers.announced]
    omega

theorem pop_invariant (w : Wrappers) (ptr : Nat) (base : Int) (hp : ptr ∈ w.alive)
    (hrange : -2147483648 < (w.st.image ptr).estimated_size_ ∧
      (w.st.image ptr).estimated_size_ < 2147483648)
    (hsum : w.st.external_memory = base + w.announced) :
    (Image.dtor w.st ptr).external_memory =
      base + Wrappers.announced { st := Image.dtor w.st ptr, alive := w.alive.erase ptr } := by
  have hs := sum_map_erase_add (fun q => (w.st.image q).estimated_size_) w.alive ptr hp
  beta_reduce at hs
  have hneg : toInt32 (-(w.st.image ptr).estimated_size_) = -(w.st.image ptr).estimated_size_ :=
    toInt32_of_int_range _ (by omega) (by omega)
  simp only [Wrappers.announced, Image.dtor, hneg] at hsum ⊢
  have himg : ∀ q, State.image
      { w.st with external_memory :=
          w.st.external_memory + -(w.st.image ptr).estimated_size_ } q = w.st.image q :=
    fun q => rfl
  simp only [himg]
  omega

/-- The invariant of the life of wrappers whose estimates are not `-2 ^ 31`: the
live addresses are allocated, the live estimates are in the range that `int`
negates exactly, and the total announced is the base amount plus the live
estimates. -/
theorem Wrappers.step_invariant (m : Mapnik) (base : Int) (w : Wrappers) (ev : Lifecycle)
    (hev : ev.regular = true)
    (hvalid : ∀ p ∈ w.alive, p < w.st.heap.length)
    (hrange : ∀ p ∈ w.alive, -2147483648 < (w.st.image p).estimated_size_ ∧
      (w.st.image p).estimated_size_ < 2147483648)
    (hsum : w.st.external_memory = base + w.announced) :
    (∀ p ∈ (w.step m ev).alive, p < (w.step m ev).st.heap.length) ∧
    (∀ p ∈ (w.step m ev).alive, -2147483648 < ((w.step m ev).st.image p).estimated_size_ ∧
      ((w.step m ev).st.image p).estimated_size_ < 2147483648) ∧
    (w.step m ev).st.external_memory = base + (w.step m ev).announced := by
  cases ev with
  | construct width height =>
    have he := estimated_size_regular width height hev
    simp only [Wrappers.step, Image.ctor]
    cases hbuf : m.new_image_32 width height with
    | error what => exact ⟨hvalid, hrange, hsum⟩
    | ok buf =>
      simp only []
      generalize estimated_size_member (estimated_size_expr width height) = e at he
      exact push_invariant w ⟨buf, e, 0⟩ base he hvalid hrange hsum
  | adopt _this =>
    have he := estimated_size_regular _this.width _this.height hev
    simp only [Wrappers.step, Image.adopt]
    generalize estimated_size_member (estimated_size_expr _this.width _this.height) = e at he
    exact push_invariant w ⟨_this, e, 0⟩ base he hvalid hrange hsum
  | destroy ptr =>
    simp only [Wrappers.step]
    by_cases hp : ptr ∈ w.alive
    · simp only [hp, if_true]
      exact ⟨fun p hpe => hvalid p (List.mem_of_mem_erase hpe),
        fun p hpe => hrange p (List.mem_of_mem_erase hpe),
        pop_invariant w ptr base hp (hrange ptr hp) hsum⟩
    · simp only [hp, if_false]
      exact ⟨hvalid, hrange, hsum⟩

theorem Wrappers.foldl_invariant (m : Mapnik) (base : Int) (events : List Lifecycle)
    (hev : ∀ ev ∈ events, ev.regular = true)
    (w : Wrappers) (hvalid : ∀ p ∈ w.alive, p < w.st.heap.length)
    (hrange : ∀ p ∈ w.alive, -2147483648 < (w.st.image p).estimated_size_ ∧
      (w.st.image p).estimated_size_ < 2147483648)
    (hsum : w.st.external_memory = base + w.announced) :
    (events.foldl (Wrappers.step m) w).st.external_memory =
      base + (events.foldl (Wrappers.step m) w).announced := by
  induction events generalizing w with
  | nil => exact hsum
  | cons ev rest ih =>
    have h := Wrappers.step_invariant m base w ev (hev ev (List.mem_cons_self _ _)) hvalid
      hrange hsum
    exact ih (fun e he => hev e (List.mem_cons_of_mem _ he)) (w.step m ev) h.1 h.2.1 h.2.2

/-- C11 (code defect): the destructor negates the stored estimate in `int`. A
wrapper of 32768 x 16384 pixels stores `-2 ^ 31` (the product `2 ^ 31` of
`unsigned int` converted to `int`); its construction announces `-2 ^ 31` and
its destruction announces `-2 ^ 31` again, so with no wrapper alive the net is
`-2 ^ 32` and not zero. For sequences in which no construction has
`width * height * 4` equal to `2 ^ 31` in `unsigned int`, the net amount is the
sum of the stored estimates of the live wrappers, and zero when none is alive. -/
theorem destructor_negation_overflows (m : Mapnik) (st : State) (px : List Nat)
    (bg : Option color) (painted : Bool) (events : List Lifecycle) :
    ((Image.adopt ⟨⟨32768, 16384, px⟩, bg, painted⟩ st).2.image
      st.heap.length).estimated_size_ = -2147483648 ∧
    (Wrappers.run m st
      [.adopt ⟨⟨32768, 16384, px⟩, bg, painted⟩, .destroy st.heap.length]).alive = [] ∧
    (Wrappers.run m st
      [.adopt ⟨⟨32768, 16384, px⟩, bg, painted⟩, .destroy st.heap.length]).st.external_memory =
        st.external_memory - 4294967296 ∧
    (∀ ptr st1, Image.ctor m 32768 16384 st = .ok (ptr, st1) →
      (st1.image ptr).estimated_size_ = -2147483648 ∧
      st1.external_memory = st.external_memory - 2147483648 ∧
      (Image.dtor st1 ptr).external_memory = st.external_memory - 4294967296) ∧
    (∀ (s : State) ptr,
      (Image.dtor s ptr).external_memory =
        s.external_memory + toInt32 (-(s.image ptr).estimated_size_)) ∧
    ((∀ ev ∈ events, ev.regular = true) →
      (Wrappers.run m st events).st.external_memory =
        st.external_memory + (Wrappers.run m st events).announced ∧
      ((Wrappers.run m st events).alive = [] →
        (Wrappers.run m st events).st.external_memory = st.external_memory)) := by
  have hmin : estimated_size_member (estimated_size_expr 32768 16384) = -2147483648 := by decide
  have hneg : toInt32 (- -2147483648) = -2147483648 := by decide
  refine ⟨?_, ?_, ?_, ?_, fun s ptr => rfl, ?_⟩
  · simp only [Image.adopt, image_32.width, image_32.height, hmin]
    rw [image_append_new]
  · simp [Wrappers.run, Wrappers.step, Image.adopt]
  · simp only [Wrappers.run, List.foldl_cons, List.foldl_nil, Wrappers.step, Image.adopt,
      image_32.width, image_32.height, hmin, List.mem_singleton, if_true, Image.dtor]
    rw [image_append_new]
    simp only [hneg]
    omega
  · intro ptr st1 h
    simp only [Image.ctor] at h
    split at h
    · cases h
    · simp only [Except.ok.injEq, Prod.mk.injEq, hmin] at h
      obtain ⟨rfl, rfl⟩ := h
      simp only [Image.dtor]
      rw [image_append_new]
      simp only [hneg]
      refine ⟨trivial, ?_, ?_⟩ <;> omega
  · intro hev
    have hrun := Wrappers.foldl_invariant m st.external_memory events hev
      { st := st, alive := [] } (by intro p hp; cases hp) (by intro p hp; cases hp)
      (by simp [Wrappers.announced])
    refine ⟨hrun, ?_⟩
    intro hnone
    have h2 : (Wrappers.run m st events).announced = 0 := by
      simp [Wrappers.announced, hnone]
    have h3 : (Wrappers.run m st events).st.external_memory =
        st.external_memory + (Wrappers.run m st events).announced := hrun
    rw [h3, h2]
    simp

/-- C11 witness: with the sample library, two constructions, an adoption and
the three destructions of small images leave no wrapper alive and the announced
total back at its initial value. -/
theorem destructor_negation_overflows_witness :
    (Wrappers.run sampleMapnik sampleState
      [.construct 2 2, .construct 3 2, .adopt ⟨⟨1, 1, [0]⟩, none, false⟩,
        .destroy 2, .destroy 1, .destroy 3]).st.external_memory = sampleState.external_memory :=
  ((destructor_negation_overflows sampleMapnik sampleState [] none false
    [.construct 2 2, .construct 3 2, .adopt ⟨⟨1, 1, [0]⟩, none, false⟩,
      .destroy 2, .destroy 1, .destroy 3]).2.2.2.2.2 (by decide)).2 (by decide)


/-! ## C12 -/

theorem pins_setImage (st : State) (p q : Nat) (im : Image) :
    (st.setImage p im).pins q =
      if p = q ∧ p < st.heap.length then im.refs_ else st.pins q := by
  simp only [State.pins, State.image, State.setImage, List.getD_eq_getElem?_getD,
    List.getElem?_set]
  by_cases hpq : p = q
  · subst hpq
    by_cases hp : p < st.heap.length
    · simp [hp]
    · have hnone : st.heap[p]? = none := List.getElem?_eq_none (Nat.le_of_not_lt hp)
      simp [hp, hnone]
  · simp [hpq]

theorem pins_Ref (st : State) (p q : Nat) :
    (st.Ref p).pins q = if p = q ∧ p < st.heap.length then st.pins q + 1 else st.pins q := by
  rw [State.Ref, pins_setImage]
  by_cases h : p = q ∧ p < st.heap.length
  · simp only [h, and_self, if_true]
    rw [← h.1]; rfl
  · simp only [h, if_false]

theorem pins_Unref (st : State) (p q : Nat) :
    (st.Unref p).pins q = if p = q ∧ p < st.heap.length then st.pins q - 1 else st.pins q := by
  rw [State.Unref, pins_setImage]
  by_cases h : p = q ∧ p < st.heap.length
  · simp only [h, and_self, if_true]
    rw [← h.1]; rfl
  · simp only [h, if_false]

theorem pins_setBuffer (st : State) (p q : Nat) (buf : image_32) :
    (st.setBuffer p buf).pins q = st.pins q := by
  rw [State.setBuffer, pins_setImage]
  by_cases h : p = q ∧ p < st.heap.length
  · obtain ⟨rfl, hp⟩ := h
    simp only [hp, and_self, if_true, State.pins]
  · simp only [h, if_false]

theorem length_Ref (st : State) (p : Nat) : (st.Ref p).heap.length = st.heap.length := by
  simp [State.Ref, State.setImage]

theorem length_Unref (st : State) (p : Nat) : (st.Unref p).heap.length = st.heap.length := by
  simp [State.Unref, State.setImage]

theorem length_setBuffer (st : State) (p : Nat) (buf : image_32) :
    (st.setBuffer p buf).heap.length = st.heap.length := by
  simp [State.setBuffer, State.setImage]

theorem pins_foldl_Ref (ps : List Nat) (st : State) (q : Nat)
    (hvalid : ∀ p ∈ ps, p < st.heap.length) :
    (ps.foldl State.Ref st).pins q = st.pins q + ps.count q := by
  induction ps generalizing st with
  | nil => simp
  | cons a rest ih =>
    have ha : a < st.heap.length := hvalid a (List.mem_cons_self a rest)
    have hrest : ∀ p ∈ rest, p < (st.Ref a).heap.length := by
      intro p hp
      rw [length_Ref]
      exact hvalid p (List.mem_cons_of_mem a hp)
    rw [List.foldl_cons, ih (st.Ref a) hrest, pins_Ref, List.count_cons]
    by_cases haq : a = q
    · subst haq
      have hc : (a == a) = true := by simp
      simp only [true_and, ha, if_true, hc]
      omega
    · have hneq : (a == q) = false := by simpa using haq
      simp only [haq, false_and, if_false, hneq, Bool.false_eq_true]
      omega

theorem pins_foldl_Unref (ps : List Nat) (st : State) (q : Nat)
    (hvalid : ∀ p ∈ ps, p < st.heap.length) :
    (ps.foldl State.Unref st).pins q = st.pins q - ps.count q := by
  induction ps generalizing st with
  | nil => simp
  | cons a rest ih =>
    have ha : a < st.heap.length := hvalid a (List.mem_cons_self a rest)
    have hrest : ∀ p ∈ rest, p < (st.Unref a).heap.length := by
      intro p hp
      rw [length_Unref]
      exact hvalid p (List.mem_cons_of_mem a hp)
    rw [List.foldl_cons, ih (st.Unref a) hrest, pins_Unref, List.count_cons]
    by_cases haq : a = q
    · subst haq
      have hc : (a == a) = true := by simp
      simp only [true_and, ha, if_true, hc]
      omega
    · have hneq : (a == q) = false := by simpa using haq
      simp only [haq, false_and, if_false, hneq, Bool.false_eq_true]
      omega


theorem runJob_Clear (m : Mapnik) (s : State) (c : clear_image_baton_t) :
    ∃ (s1 : State) (argv : List Value),
      runJob m s (.Clear c) = (s1.Call c.cb argv).Unref c.im ∧
      (∀ q, s1.pins q = s.pins q) ∧ s1.heap.length = s.heap.length ∧ s1.calls = s.calls := by
  simp only [runJob, Image.EIO_Clear, Image.EIO_AfterClear]
  by_cases hv : m.MAPNIK_VERSION ≥ 200200
  · simp only [hv, if_true]
    cases m.clear (s.image c.im).this_ with
    | ok buf =>
      cases c.error
      · exact ⟨s.setBuffer c.im buf, _, rfl, fun q => pins_setBuffer s _ q _,
          length_setBuffer s _ _, rfl⟩
      · exact ⟨s.setBuffer c.im buf, _, rfl, fun q => pins_setBuffer s _ q _,
          length_setBuffer s _ _, rfl⟩
    | error what => exact ⟨s, _, rfl, fun _ => rfl, rfl, rfl⟩
  · simp only [hv, if_false]
    cases c.error
    · exact ⟨s, _, rfl, fun _ => rfl, rfl, rfl⟩
    · exact ⟨s, _, rfl, fun _ => rfl, rfl, rfl⟩

theorem runJob_Premultiply (m : Mapnik) (s : State) (c : image_op_baton_t) :
    ∃ (s1 : State) (argv : List Value),
      runJob m s (.Premultiply c) = (s1.Call c.cb argv).Unref c.im ∧
      (∀ q, s1.pins q = s.pins q) ∧ s1.heap.length = s.heap.length ∧ s1.calls = s.calls := by
  simp only [runJob, Image.EIO_Premultiply, Image.EIO_AfterMultiply]
  cases m.premultiply (s.image c.im).this_ with
  | ok buf =>
    cases c.error
    · exact ⟨s.setBuffer c.im buf, _, rfl, fun q => pins_setBuffer s _ q _,
        length_setBuffer s _ _, rfl⟩
    · exact ⟨s.setBuffer c.im buf, _, rfl, fun q => pins_setBuffer s _ q _,
        length_setBuffer s _ _, rfl⟩
  | error what => exact ⟨s, _, rfl, fun _ => rfl, rfl, rfl⟩

theorem runJob_Demultiply (m : Mapnik) (s : State) (c : image_op_baton_t) :
    ∃ (s1 : State) (argv : List Value),
      runJob m s (.Demultiply c) = (s1.Call c.cb argv).Unref c.im ∧
      (∀ q, s1.pins q = s.pins q) ∧ s1.heap.length = s.heap.length ∧ s1.calls = s.calls := by
  simp only [runJob, Image.EIO_Demultiply, Image.EIO_AfterMultiply]
  cases m.demultiply (s.image c.im).this_ with
  | ok buf =>
    cases c.error
    · exact ⟨s.setBuffer c.im buf, _, rfl, fun q => pins_setBuffer s _ q _,
        length_setBuffer s _ _, rfl⟩
    · exact ⟨s.setBuffer c.im buf, _, rfl, fun q => pins_setBuffer s _ q _,
        length_setBuffer s _ _, rfl⟩
  | error what => exact ⟨s, _, rfl, fun _ => rfl, rfl, rfl⟩

theorem runJob_Encode (m : Mapnik) (s : State) (c : encode_image_baton_t) :
    ∃ (s1 : State) (argv : List Value),
      runJob m s (.Encode c) = (s1.Call c.cb argv).Unref c.im ∧
      (∀ q, s1.pins q = s.pins q) ∧ s1.heap.length = s.heap.length ∧ s1.calls = s.calls := by
  simp only [runJob, Image.EIO_Encode, Image.EIO_AfterEncode]
  cases save_to_string m (s.image c.im).this_ c.format c.palette with
  | ok bytes =>
    cases c.error
    · exact ⟨s, _, rfl, fun _ => rfl, rfl, rfl⟩
    · exact ⟨s, _, rfl, fun _ => rfl, rfl, rfl⟩
  | error what => exact ⟨s, _, rfl, fun _ => rfl, rfl, rfl⟩

theorem runJob_Composite (m : Mapnik) (s : State) (c : composite_image_baton_t) :
    ∃ (s1 : State) (argv : List Value),
      runJob m s (.Composite c) = ((s1.Call c.cb argv).Unref c.im1).Unref c.im2 ∧
      (∀ q, s1.pins q = s.pins q) ∧ s1.heap.length = s.heap.length ∧ s1.calls = s.calls := by
  simp only [runJob, Image.EIO_Composite, Image.EIO_AfterComposite]
  cases (apply_filters m c.filters (s.image c.im2).this_).1 with
  | some what =>
    exact ⟨s.setBuffer c.im2 _, _, rfl, fun q => pins_setBuffer s _ q _,
      length_setBuffer s _ _, rfl⟩
  | none =>
    simp only []
    cases m.composite ((s.setBuffer c.im2
        (apply_filters m c.filters (s.image c.im2).this_).2).image c.im1).this_.data
      ((s.setBuffer c.im2
        (apply_filters m c.filters (s.image c.im2).this_).2).image c.im2).this_.data
      c.mode c.opacity c.dx c.dy with
    | error what =>
      exact ⟨s.setBuffer c.im2 _, _, rfl, fun q => pins_setBuffer s _ q _,
        length_setBuffer s _ _, rfl⟩
    | ok data =>
      cases c.error
      · refine ⟨(s.setBuffer c.im2 _).setBuffer c.im1 _, _, rfl, ?_, ?_, rfl⟩
        · intro q; rw [pins_setBuffer, pins_setBuffer]
        · rw [length_setBuffer, length_setBuffer]
      · refine ⟨(s.setBuffer c.im2 _).setBuffer c.im1 _, _, rfl, ?_, ?_, rfl⟩
        · intro q; rw [pins_setBuffer, pins_setBuffer]
        · rw [length_setBuffer, length_setBuffer]


theorem clear_enqueues (m : Mapnik) (st : State) (self : Nat) (args : List Value)
    (hargs : args ≠ []) (hcb : (lastArg args).IsFunction = true) :
    Image.clear m st self args =
      (.value .undefined,
        (st.uv_queue_work (.Clear { im := self, format := "", error := false, error_name := "",
                                    cb := lastArg args })).Ref self) := by
  have hlen : ¬ args.length = 0 := length_pos_of_ne_nil args hargs
  simp only [Image.clear, hlen, if_false, hcb, Bool.not_true, Bool.false_eq_true]

theorem premultiply_enqueues (m : Mapnik) (st : State) (self : Nat) (args : List Value)
    (hargs : args ≠ []) (hcb : (lastArg args).IsFunction = true) :
    Image.premultiply m st self args =
      (.value .undefined,
        (st.uv_queue_work (.Premultiply { im := self, error := false, error_name := "",
                                          cb := lastArg args })).Ref self) := by
  have hlen : ¬ args.length = 0 := length_pos_of_ne_nil args hargs
  simp only [Image.premultiply, hlen, if_false, hcb, Bool.not_true, Bool.false_eq_true]

theorem demultiply_enqueues (m : Mapnik) (st : State) (self : Nat) (args : List Value)
    (hargs : args ≠ []) (hcb : (lastArg args).IsFunction = true) :
    Image.demultiply m st self args =
      (.value .undefined,
        (st.uv_queue_work (.Demultiply { im := self, error := false, error_name := "",
                                         cb := lastArg args })).Ref self) := by
  have hlen : ¬ args.length = 0 := length_pos_of_ne_nil args hargs
  simp only [Image.demultiply, hlen, if_false, hcb, Bool.not_true, Bool.false_eq_true]

theorem enqueue_exists (m : Mapnik) (st : State) (self : Nat) (args : List Value)
    (e : AsyncEntry) (st1 : State)
    (he : e = .clear ∨ e = .premultiply ∨ e = .demultiply ∨ e = .encode ∨ e = .composite)
    (hargs : args ≠ [])
    (hcall : e.call m st self args = (.value .undefined, st1)) :
    ∃ job : Job, st1.queue = st.queue ++ [job] ∧ job.entry = e ∧ job.cb = lastArg args ∧
      (e = .composite → ∃ im2 props, argAt args 0 = .object (.Image im2) props ∧
        job.participants = [self, im2]) ∧
      (e ≠ .composite → job.participants = [self]) ∧
      st1 = job.participants.foldl State.Ref (st.uv_queue_work job) := by
  have hlen : ¬ args.length = 0 := length_pos_of_ne_nil args hargs
  rcases he with rfl | rfl | rfl | rfl | rfl
  · -- clear
    simp only [AsyncEntry.call] at hcall
    by_cases hcb : (lastArg args).IsFunction = true
    · rw [clear_enqueues m st self args hargs hcb] at hcall
      simp only [Prod.mk.injEq, true_and] at hcall
      subst hcall
      exact ⟨_, rfl, rfl, rfl, fun h => (by cases h), fun _ => rfl, rfl⟩
    · simp [Image.clear, hlen, hcb] at hcall
  · -- premultiply
    simp only [AsyncEntry.call] at hcall
    by_cases hcb : (lastArg args).IsFunction = true
    · rw [premultiply_enqueues m st self args hargs hcb] at hcall
      simp only [Prod.mk.injEq, true_and] at hcall
      subst hcall
      exact ⟨_, rfl, rfl, rfl, fun h => (by cases h), fun _ => rfl, rfl⟩
    · simp [Image.premultiply, hlen, hcb] at hcall
  · -- demultiply
    simp only [AsyncEntry.call] at hcall
    by_cases hcb : (lastArg args).IsFunction = true
    · rw [demultiply_enqueues m st self args hargs hcb] at hcall
      simp only [Prod.mk.injEq, true_and] at hcall
      subst hcall
      exact ⟨_, rfl, rfl, rfl, fun h => (by cases h), fun _ => rfl, rfl⟩
    · simp [Image.demultiply, hlen, hcb] at hcall
  · -- encode
    simp only [AsyncEntry.call, encode_eq] at hcall
    repeat' split at hcall
    all_goals simp only [Prod.mk.injEq, reduceCtorEq, false_and, true_and] at hcall
    all_goals subst hcall
    all_goals exact ⟨_, rfl, rfl, rfl, fun h => (by cases h), fun _ => rfl, rfl⟩
  · -- composite
    simp only [AsyncEntry.call, Image.composite] at hcall
    split at hcall
    · split at hcall
      · simp at hcall
      · split at hcall
        · simp at hcall
        · split at hcall
          · next im2 props h0 =>
            split at hcall
            · simp at hcall
            · split at hcall
              · simp at hcall
              · simp only [Prod.mk.injEq, true_and] at hcall
                subst hcall
                exact ⟨_, rfl, rfl, rfl, fun _ => ⟨im2, props, h0, rfl⟩,
                  fun h => absurd rfl h, rfl⟩
          · simp at hcall
    · simp at hcall

/-- C12: a call of clear, premultiply or demultiply whose last argument is a
function enqueues one job of its kind and pins the target once. Every call of
clear, premultiply, demultiply, encode or composite with at least one argument
that returns normally has enqueued exactly one job of its kind, holding the
last argument as callback, and has pinned each wrapper of the job once (`Ref`):
the target, and for composite the target and then `otherImage`, twice the same
wrapper when they coincide. When these wrappers exist, every pin count is its
old value plus the number of times the wrapper takes part; the run of the job
calls the callback once and only then unpins each participant once (`Unref`),
whatever the error flag, and afterwards every pin count is what it was before
the call. -/
theorem async_job_pins_balance (m : Mapnik) (st : State) (self : Nat) (args : List Value)
    (e : AsyncEntry)
    (he : e = .clear ∨ e = .premultiply ∨ e = .demultiply ∨ e = .encode ∨ e = .composite)
    (hargs : args ≠ []) :
    ((lastArg args).IsFunction = true →
      Image.clear m st self args =
        (.value .undefined,
          (st.uv_queue_work (.Clear { im := self, format := "", error := false,
                                      error_name := "", cb := lastArg args })).Ref self) ∧
      Image.premultiply m st self args =
        (.value .undefined,
          (st.uv_queue_work (.Premultiply { im := self, error := false, error_name := "",
                                            cb := lastArg args })).Ref self) ∧
      Image.demultiply m st self args =
        (.value .undefined,
          (st.uv_queue_work (.Demultiply { im := self, error := false, error_name := "",
                                           cb := lastArg args })).Ref self)) ∧
    (∀ st1 : State, e.call m st self args = (.value .undefined, st1) →
      ∃ job : Job, st1.queue = st.queue ++ [job] ∧ job.entry = e ∧ job.cb = lastArg args ∧
        (e = .composite → ∃ im2 props, argAt args 0 = .object (.Image im2) props ∧
          job.participants = [self, im2]) ∧
        (e ≠ .composite → job.participants = [self]) ∧
        st1 = job.participants.foldl State.Ref (st.uv_queue_work job) ∧
        ((∀ p ∈ job.participants, p < st.heap.length) →
          (∀ ptr, st1.pins ptr = st.pins ptr + job.participants.count ptr) ∧
          (∃ (s : State) (argv : List Value),
            runJob m st1 job = job.participants.foldl State.Unref (s.Call job.cb argv) ∧
            (∀ ptr, s.pins ptr = st1.pins ptr) ∧ s.calls = st1.calls) ∧
          (∀ ptr, (runJob m st1 job).pins ptr = st.pins ptr))) := by
  refine ⟨fun hcb => ⟨clear_enqueues m st self args hargs hcb,
    premultiply_enqueues m st self args hargs hcb,
    demultiply_enqueues m st self args hargs hcb⟩, ?_⟩
  intro st1 hcall
  obtain ⟨job, hq, hentry, hcbjob, hcomp, hsimple, hst1⟩ :=
    enqueue_exists m st self args e st1 he hargs hcall
  refine ⟨job, hq, hentry, hcbjob, hcomp, hsimple, hst1, ?_⟩
  intro hvalid
  have hparts : job.participants = [self] ∨ ∃ im2, job.participants = [self, im2] := by
    by_cases hc : e = .composite
    · obtain ⟨im2, _, _, hp⟩ := hcomp hc
      exact .inr ⟨im2, hp⟩
    · exact .inl (hsimple hc)
  have hpins : ∀ ptr, st1.pins ptr = st.pins ptr + job.participants.count ptr := by
    intro ptr
    rw [hst1]
    exact pins_foldl_Ref job.participants (st.uv_queue_work job) ptr hvalid
  have hlen : st1.heap.length = st.heap.length := by
    rw [hst1]
    rcases hparts with hp | ⟨im2, hp⟩
    · rw [hp]; simp only [List.foldl_cons, List.foldl_nil, length_Ref]; rfl
    · rw [hp]; simp only [List.foldl_cons, List.foldl_nil, length_Ref]; rfl
  have hrun : ∃ (s : State) (argv : List Value),
      runJob m st1 job = job.participants.foldl State.Unref (s.Call job.cb argv) ∧
      (∀ ptr, s.pins ptr = st1.pins ptr) ∧ s.heap.length = st1.heap.length ∧
      s.calls = st1.calls := by
    cases job with
    | Clear c => exact runJob_Clear m st1 c
    | Premultiply c => exact runJob_Premultiply m st1 c
    | Demultiply c => exact runJob_Demultiply m st1 c
    | Encode c => exact runJob_Encode m st1 c
    | Composite c => exact runJob_Composite m st1 c
    | Open c => rcases hparts with hp | ⟨im2, hp⟩ <;> cases hp
    | FromBytes c => rcases hparts with hp | ⟨im2, hp⟩ <;> cases hp
  obtain ⟨s, argv, hjob, hs, hslen, hcalls⟩ := hrun
  refine ⟨hpins, ⟨s, argv, hjob, hs, hcalls⟩, ?_⟩
  intro ptr
  have hv : ∀ p ∈ job.participants, p < (s.Call job.cb argv).heap.length := by
    intro p hp
    have := hvalid p hp
    show p < s.heap.length
    omega
  rw [hjob, pins_foldl_Unref job.participants _ ptr hv]
  have h1 : (s.Call job.cb argv).pins ptr = s.pins ptr := rfl
  rw [h1, hs, hpins]
  omega

theorem pins_after_job (m : Mapnik) (st st1 : State) (job : Job) (n : Nat)
    (hq : st1.queue = st.queue ++ [job])
    (hpins : ∀ ptr, st1.pins ptr = st.pins ptr + job.participants.count ptr)
    (hafter : ∀ ptr, (runJob m st1 job).pins ptr = st.pins ptr)
    (hst : st.queue = []) (hn : st.pins 0 + job.participants.count 0 = n) :
    st1.queue = [job] ∧ st1.pins 0 = n ∧ (runJob m st1 job).pins 0 = st.pins 0 := by
  refine ⟨?_, ?_, hafter 0⟩
  · rw [hq, hst]; rfl
  · rw [hpins 0, hn]

/-- C12 witness: on the sample image, `premultiply(cb)`, `demultiply(cb)`,
`clear(cb)` and `encode("png", cb)` each enqueue one job of their kind and pin
the wrapper once, `composite(image, cb)` of the image onto itself pins it
twice, and after each job the pin count is 0 again. -/
theorem async_job_pins_balance_witness :
    (∃ job : Job, (Image.premultiply sampleMapnik sampleState 0 [sampleCallback]).2.queue =
        [job] ∧ job.entry = .premultiply ∧
      (Image.premultiply sampleMapnik sampleState 0 [sampleCallback]).2.pins 0 = 1 ∧
      (runJob sampleMapnik (Image.premultiply sampleMapnik sampleState 0 [sampleCallback]).2
        job).pins 0 = 0) ∧
    (∃ job : Job, (Image.demultiply sampleMapnik sampleState 0 [sampleCallback]).2.queue =
        [job] ∧ job.entry = .demultiply ∧
      (Image.demultiply sampleMapnik sampleState 0 [sampleCallback]).2.pins 0 = 1 ∧
      (runJob sampleMapnik (Image.demultiply sampleMapnik sampleState 0 [sampleCallback]).2
        job).pins 0 = 0) ∧
    (∃ job : Job, (Image.clear sampleMapnik sampleState 0 [sampleCallback]).2.queue =
        [job] ∧ job.entry = .clear ∧
      (Image.clear sampleMapnik sampleState 0 [sampleCallback]).2.pins 0 = 1 ∧
      (runJob sampleMapnik (Image.clear sampleMapnik sampleState 0 [sampleCallback]).2
        job).pins 0 = 0) ∧
    (∃ job : Job,
      (Image.encode sampleMapnik sampleState 0 [.string "png", sampleCallback]).2.queue =
        [job] ∧ job.entry = .encode ∧
      (Image.encode sampleMapnik sampleState 0 [.string "png", sampleCallback]).2.pins 0 = 1 ∧
      (runJob sampleMapnik
        (Image.encode sampleMapnik sampleState 0 [.string "png", sampleCallback]).2
        job).pins 0 = 0) ∧
    (∃ job : Job,
      (Image.composite sampleMapnik sampleState 0 [handle_ 0, sampleCallback]).2.queue =
        [job] ∧ job.entry = .composite ∧
      (Image.composite sampleMapnik sampleState 0 [handle_ 0, sampleCallback]).2.pins 0 = 2 ∧
      (runJob sampleMapnik
        (Image.composite sampleMapnik sampleState 0 [handle_ 0, sampleCallback]).2
        job).pins 0 = 0) := by
  refine ⟨?_, ?_, ?_, ?_, ?_⟩
  · obtain ⟨job, hq, hentry, _, _, hsimple, _, hrest⟩ :=
      (async_job_pins_balance sampleMapnik sampleState 0 [sampleCallback] .premultiply
        (by simp) (by simp)).2 _ rfl
    have hp := hsimple (by decide)
    obtain ⟨hpins, _, hafter⟩ := hrest (by rw [hp]; decide)
    have h := pins_after_job sampleMapnik sampleState _ job 1 hq hpins hafter rfl
      (by rw [hp]; rfl)
    exact ⟨job, h.1, hentry, h.2.1, h.2.2⟩
  · obtain ⟨job, hq, hentry, _, _, hsimple, _, hrest⟩ :=
      (async_job_pins_balance sampleMapnik sampleState 0 [sampleCallback] .demultiply
        (by simp) (by simp)).2 _ rfl
    have hp := hsimple (by decide)
    obtain ⟨hpins, _, hafter⟩ := hrest (by rw [hp]; decide)
    have h := pins_after_job sampleMapnik sampleState _ job 1 hq hpins hafter rfl
      (by rw [hp]; rfl)
    exact ⟨job, h.1, hentry, h.2.1, h.2.2⟩
  · obtain ⟨job, hq, hentry, _, _, hsimple, _, hrest⟩ :=
      (async_job_pins_balance sampleMapnik sampleState 0 [sampleCallback] .clear
        (by simp) (by simp)).2 _ rfl
    have hp := hsimple (by decide)
    obtain ⟨hpins, _, hafter⟩ := hrest (by rw [hp]; decide)
    have h := pins_after_job sampleMapnik sampleState _ job 1 hq hpins hafter rfl
      (by rw [hp]; rfl)
    exact ⟨job, h.1, hentry, h.2.1, h.2.2⟩
  · obtain ⟨job, hq, hentry, _, _, hsimple, _, hrest⟩ :=
      (async_job_pins_balance sampleMapnik sampleState 0 [.string "png", sampleCallback]
        .encode (by simp) (by simp)).2 _ rfl
    have hp := hsimple (by decide)
    obtain ⟨hpins, _, hafter⟩ := hrest (by rw [hp]; decide)
    have h := pins_after_job sampleMapnik sampleState _ job 1 hq hpins hafter rfl
      (by rw [hp]; rfl)
    exact ⟨job, h.1, hentry, h.2.1, h.2.2⟩
  · obtain ⟨job, hq, hentry, _, hcomp, _, _, hrest⟩ :=
      (async_job_pins_balance sampleMapnik sampleState 0 [handle_ 0, sampleCallback]
        .composite (by simp) (by simp)).2 _ rfl
    obtain ⟨im2, props, h0, hp⟩ := hcomp rfl
    have him2 : im2 = 0 := by
      have h1 : argAt [handle_ 0, sampleCallback] 0 = .object (.Image 0) [] := rfl
      rw [h1] at h0
      simp only [Value.object.injEq, ObjKind.Image.injEq] at h0
      exact h0.1.symm
    subst him2
    obtain ⟨hpins, _, hafter⟩ := hrest (by rw [hp]; decide)
    have h := pins_after_job sampleMapnik sampleState _ job 2 hq hpins hafter rfl
      (by rw [hp]; rfl)
    exact ⟨job, h.1, hentry, h.2.1, h.2.2⟩


/-! ## C13 and C20 -/

theorem composite_comp_op_ok (m : Mapnik) (o : Value) (v0 va : composite_locals)
    (h : composite_comp_op m o v0 = .ok va) :
    va = if o.Has "comp_op" then
        { v0 with mode := toInt32 (IntegerValue m (o.Get "comp_op")) }
      else v0 := by
  simp only [composite_comp_op] at h
  by_cases hhas : o.Has "comp_op" = true
  · simp only [hhas, if_true] at h ⊢
    cases hnum : (o.Get "comp_op").IsNumber
    · simp [hnum] at h
    · simp only [hnum, Bool.not_true, Bool.false_eq_true, if_false, Except.ok.injEq] at h
      exact h.symm
  · simp only [hhas, if_false, Bool.false_eq_true, Except.ok.injEq] at h ⊢
    exact h.symm

theorem composite_opacity_ok (m : Mapnik) (o : Value) (v0 va : composite_locals)
    (h : composite_opacity m o v0 = .ok va) :
    va = if o.Has "opacity" then { v0 with opacity := NumberValue_float m (o.Get "opacity") }
      else v0 := by
  simp only [composite_opacity] at h
  by_cases hhas : o.Has "opacity" = true
  · simp only [hhas, if_true] at h ⊢
    cases hnum : (o.Get "opacity").IsNumber
    · simp [hnum] at h
    · simp only [hnum, Bool.not_true, Bool.false_eq_true, if_false, Except.ok.injEq] at h
      exact h.symm
  · simp only [hhas, if_false, Bool.false_eq_true, Except.ok.injEq] at h ⊢
    exact h.symm

theorem composite_dx_ok (m : Mapnik) (o : Value) (v0 va : composite_locals)
    (h : composite_dx m o v0 = .ok va) :
    va = if o.Has "dx" then { v0 with dx := toInt32 (IntegerValue m (o.Get "dx")) }
      else v0 := by
  simp only [composite_dx] at h
  by_cases hhas : o.Has "dx" = true
  · simp only [hhas, if_true] at h ⊢
    cases hnum : (o.Get "dx").IsNumber
    · simp [hnum] at h
    · simp only [hnum, Bool.not_true, Bool.false_eq_true, if_false, Except.ok.injEq] at h
      exact h.symm
  · simp only [hhas, if_false, Bool.false_eq_true, Except.ok.injEq] at h ⊢
    exact h.symm

theorem composite_dy_ok (m : Mapnik) (o : Value) (v0 va : composite_locals)
    (h : composite_dy m o v0 = .ok va) :
    va = if o.Has "dy" then { v0 with dy := toInt32 (IntegerValue m (o.Get "dy")) }
      else v0 := by
  simp only [composite_dy] at h
  by_cases hhas : o.Has "dy" = true
  · simp only [hhas, if_true] at h ⊢
    cases hnum : (o.Get "dy").IsNumber
    · simp [hnum] at h
    · simp only [hnum, Bool.not_true, Bool.false_eq_true, if_false, Except.ok.injEq] at h
      exact h.symm
  · simp only [hhas, if_false, Bool.false_eq_true, Except.ok.injEq] at h ⊢
    exact h.symm

theorem composite_image_filters_ok (m : Mapnik) (o : Value) (v0 va : composite_locals)
    (h : composite_image_filters m o v0 = .ok va) :
    if o.Has "image_filters" then
      ∃ filters, m.parse_image_filters (TOSTR (o.Get "image_filters")) = .ok (some filters) ∧
        va = { v0 with filters := v0.filters ++ filters }
    else va = v0 := by
  simp only [composite_image_filters] at h
  by_cases hhas : o.Has "image_filters" = true
  · simp only [hhas, if_true] at h ⊢
    cases hstr : (o.Get "image_filters").IsString
    · simp [hstr] at h
    · simp only [hstr, Bool.not_true, Bool.false_eq_true, if_false] at h
      split at h
      · cases h
      · cases h
      · next filters hp =>
        simp only [Except.ok.injEq] at h
        exact ⟨filters, hp, h.symm⟩
  · simp only [hhas, if_false, Bool.false_eq_true, Except.ok.injEq] at h ⊢
    exact h.symm

/-- The locals of a composite call whose options were accepted, key by key. -/
theorem composite_options_fields (m : Mapnik) (args : List Value) (v : composite_locals)
    (h : composite_options m args = .ok v) (hlen : 2 ≤ args.length) :
    v.mode = (if (argAt args 1).Has "comp_op" then
        toInt32 (IntegerValue m ((argAt args 1).Get "comp_op")) else m.src_over) ∧
    v.opacity = (if (argAt args 1).Has "opacity" then
        NumberValue_float m ((argAt args 1).Get "opacity") else (1, 0)) ∧
    v.dx = (if (argAt args 1).Has "dx" then
        toInt32 (IntegerValue m ((argAt args 1).Get "dx")) else 0) ∧
    v.dy = (if (argAt args 1).Has "dy" then
        toInt32 (IntegerValue m ((argAt args 1).Get "dy")) else 0) ∧
    (if (argAt args 1).Has "image_filters" then
        m.parse_image_filters (TOSTR ((argAt args 1).Get "image_filters")) = .ok (some v.filters)
      else v.filters = []) := by
  have h2 : args.length ≥ 2 := hlen
  simp only [composite_options, h2, if_true] at h
  by_cases h3 : (argAt args 1).IsObject = true
  · simp only [h3, Bool.not_true, Bool.false_eq_true, if_false] at h
    cases ha : composite_comp_op m (argAt args 1)
        { mode := m.src_over, opacity := (1, 0), filters := [], dx := 0, dy := 0 } with
    | error e => rw [ha] at h; cases h
    | ok va =>
      rw [ha] at h
      simp only [Except.bind] at h
      cases hb : composite_opacity m (argAt args 1) va with
      | error e => rw [hb] at h; cases h
      | ok vb =>
        rw [hb] at h
        simp only at h
        cases hc : composite_dx m (argAt args 1) vb with
        | error e => rw [hc] at h; cases h
        | ok vc =>
          rw [hc] at h
          simp only at h
          cases hd : composite_dy m (argAt args 1) vc with
          | error e => rw [hd] at h; cases h
          | ok vd =>
            rw [hd] at h
            simp only at h
            have ea := composite_comp_op_ok m _ _ _ ha
            have eb := composite_opacity_ok m _ _ _ hb
            have ec := composite_dx_ok m _ _ _ hc
            have ed := composite_dy_ok m _ _ _ hd
            have ee := composite_image_filters_ok m _ _ _ h
            by_cases k1 : (argAt args 1).Has "comp_op" = true <;>
            by_cases k2 : (argAt args 1).Has "opacity" = true <;>
            by_cases k3 : (argAt args 1).Has "dx" = true <;>
            by_cases k4 : (argAt args 1).Has "dy" = true <;>
            by_cases k5 : (argAt args 1).Has "image_filters" = true <;>
            simp only [k1, k2, k3, k4, k5, if_true, if_false, Bool.false_eq_true]
              at ea eb ec ed ee ⊢ <;>
            first
              | (obtain ⟨filters, hp, ee⟩ := ee
                 subst ee ed ec eb ea
                 exact ⟨rfl, rfl, rfl, rfl, by simpa using hp⟩)
              | (subst ee ed ec eb ea
                 exact ⟨rfl, rfl, rfl, rfl, rfl⟩)
  · simp only [h3, Bool.not_false, if_true] at h
    cases h


theorem composite_call_has_two_arguments (args : List Value) (ptr : Nat)
    (props : List (String × Value)) (h0 : argAt args 0 = .object (.Image ptr) props)
    (hcb : (lastArg args).IsFunction = true) : 2 ≤ args.length := by
  cases args with
  | nil => simp [lastArg, argAt, Value.IsFunction] at hcb
  | cons a rest =>
    cases rest with
    | nil =>
      have h1 : lastArg [a] = a := by simp [lastArg, argAt]
      have h2 : argAt [a] 0 = a := by simp [argAt]
      rw [h1] at hcb
      rw [h2] at h0
      rw [h0] at hcb
      simp [Value.IsFunction] at hcb
    | cons b rest2 => simp

theorem roundSignificand_small (prec n : Nat) (h : n < 2 ^ prec) :
    roundSignificand prec n = (n, 0) := by
  have he : excessBits prec n n = 0 := by
    cases n with
    | zero => rfl
    | succ k => simp [excessBits, h]
  simp [roundSignificand, he, Nat.mod_one]

theorem NumberValue_float_exact (m : Mapnik) (mant exp : Int) (h : mant.natAbs < 2 ^ 24)
    (hlo : -149 ≤ exp) (hhi : mant.natAbs * 2 ^ exp.toNat < 2 ^ 128) :
    NumberValue_float m (.number mant exp) = (mant, exp) := by
  have hr : round_to_float mant exp = (mant, exp) := by
    simp only [round_to_float, roundSignificand_small 24 mant.natAbs h, Int.sign_mul_natAbs,
      Int.add_zero, Nat.cast_zero]
  have hf : float_range mant exp = true := by
    simp only [float_range, Bool.or_eq_true, Bool.and_eq_true, decide_eq_true_eq]
    exact .inr ⟨hlo, hhi⟩
  simp only [NumberValue_float, hr, hf, if_true]

theorem composite_options_congr (m : Mapnik) (a0 o o1 : Value) (rest : List Value)
    (hobj : o.IsObject = o1.IsObject)
    (h : ∀ key, key ∈ ["comp_op", "opacity", "dx", "dy", "image_filters"] →
      o.Has key = o1.Has key ∧ o.Get key = o1.Get key) :
    composite_options m (a0 :: o :: rest) = composite_options m (a0 :: o1 :: rest) := by
  have h1 := h "comp_op" (by simp)
  have h2 := h "opacity" (by simp)
  have h3 := h "dx" (by simp)
  have h4 := h "dy" (by simp)
  have h5 := h "image_filters" (by simp)
  have e0 : argAt (a0 :: o :: rest) 1 = o := by simp [argAt]
  have e1 : argAt (a0 :: o1 :: rest) 1 = o1 := by simp [argAt]
  simp only [composite_options, composite_comp_op, composite_opacity, composite_dx,
    composite_dy, composite_image_filters, e0, e1, List.length_cons, hobj, h1.1, h1.2, h2.1,
    h2.2, h3.1, h3.2, h4.1, h4.2, h5.1, h5.2]

theorem unknown_key_Has_Get (kind : ObjKind) (k : String) (x : Value)
    (props : List (String × Value)) (key : String) (hk : k ≠ key) :
    (Value.object kind ((k, x) :: props)).Has key = (Value.object kind props).Has key ∧
    (Value.object kind ((k, x) :: props)).Get key = (Value.object kind props).Get key := by
  have hbeq : (k == key) = false := by simpa using hk
  simp [Value.Has, Value.Get, List.find?_cons, hbeq]


/-- C14 (as stated, refuted): `composite(image, {opacity: 0.1, dx: 1.5,
comp_op: 4294967301}, cb)` is accepted, and the record does not hold the option
values: the opacity is the `float` nearest to the double 0.1, which is another
number, `dx` is 1, and the mode is 5. -/
theorem composite_job_record_counterexample :
    (Image.composite sampleMapnik sampleState 0
        [handle_ 0,
          .object .plain [("opacity", .number 3602879701896397 (-55)), ("dx", .number 3 (-1)),
            ("comp_op", .int 4294967301)],
          sampleCallback]).2.queue =
      [.Composite (composite_closure 0 0
        { mode := 5, opacity := (13421773, -27), filters := [], dx := 1, dy := 0 }
        sampleCallback)] ∧
    (13421773 : Int) * 2 ^ 28 ≠ 3602879701896397 ∧ (1 : Int) * 2 ≠ 3 ∧
    (5 : Int) ≠ 4294967301 :=
  ⟨rfl, by decide, by decide, by decide⟩

/-- C14 (amended): every composite call that is accepted has at least two
arguments and enqueues one job whose record holds the target, `otherImage`, the
callback and the inputs read from the second argument, converted to the types
of the record: `mode` is the integer value of `comp_op` reduced to 32 bits if
present, else `src_over`; `opacity` is the number `opacity` rounded to `float`
if present, else 1.0; `dx` and `dy` are the integer values of `dx` and `dy`
reduced to `int` if present, else 0; `filters` is the parsed `image_filters`
list if present, else empty. The integer value of a number is its truncation
toward zero when that is in the range of `int64_t`; an integer in the range of
`int` and a number with a significand of at most 24 bits are stored unchanged.
A key other than these five does not change the inputs, a second argument with
none of the five keys gives all defaults, and so does the options block when
there is no second argument. -/
theorem composite_job_record (m : Mapnik) (st : State) (self : Nat) (args : List Value)
    (st1 : State) (hcall : Image.composite m st self args = (.value .undefined, st1)) :
    (∃ im2 props v,
      argAt args 0 = .object (.Image im2) props ∧
      composite_options m args = .ok v ∧
      st1 = ((st.uv_queue_work
        (.Composite (composite_closure self im2 v (lastArg args)))).Ref self).Ref im2 ∧
      2 ≤ args.length ∧
      v.mode = (if (argAt args 1).Has "comp_op" then
          toInt32 (IntegerValue m ((argAt args 1).Get "comp_op")) else m.src_over) ∧
      v.opacity = (if (argAt args 1).Has "opacity" then
          NumberValue_float m ((argAt args 1).Get "opacity") else (1, 0)) ∧
      v.dx = (if (argAt args 1).Has "dx" then
          toInt32 (IntegerValue m ((argAt args 1).Get "dx")) else 0) ∧
      v.dy = (if (argAt args 1).Has "dy" then
          toInt32 (IntegerValue m ((argAt args 1).Get "dy")) else 0) ∧
      (if (argAt args 1).Has "image_filters" then
          m.parse_image_filters (TOSTR ((argAt args 1).Get "image_filters")) =
            .ok (some v.filters)
        else v.filters = []) ∧
      ((∀ key, key ∈ ["comp_op", "opacity", "dx", "dy", "image_filters"] →
          (argAt args 1).Has key = false) → v = composite_defaults m)) ∧
    (∀ mant exp : Int, -9223372036854775808 ≤ truncate mant exp →
      truncate mant exp < 9223372036854775808 →
      IntegerValue m (.number mant exp) = truncate mant exp) ∧
    (∀ n : Int, -2147483648 ≤ n → n < 2147483648 →
      toInt32 (IntegerValue m (.number n 0)) = n ∧ IntegerValue m (.number n 0) = n) ∧
    (∀ mant exp : Int, mant.natAbs < 2 ^ 24 → -149 ≤ exp →
      mant.natAbs * 2 ^ exp.toNat < 2 ^ 128 →
      NumberValue_float m (.number mant exp) = (mant, exp)) ∧
    (∀ mant exp : Int,
      float_range (round_to_float mant exp).1 (round_to_float mant exp).2 = true →
      NumberValue_float m (.number mant exp) = round_to_float mant exp) ∧
    (∀ (a0 : Value) (kind : ObjKind) (k : String) (x : Value) (props : List (String × Value))
        (rest : List Value),
      k ∉ ["comp_op", "opacity", "dx", "dy", "image_filters"] →
      composite_options m (a0 :: .object kind ((k, x) :: props) :: rest) =
        composite_options m (a0 :: .object kind props :: rest)) ∧
    (∀ short : List Value, short.length < 2 →
      composite_options m short = .ok (composite_defaults m)) := by
  have htrunc : ∀ mant exp : Int, -9223372036854775808 ≤ truncate mant exp →
      truncate mant exp < 9223372036854775808 →
      IntegerValue m (.number mant exp) = truncate mant exp := by
    intro mant exp hlo hhi
    simp only [IntegerValue]
    rw [if_pos ⟨by norm_num; exact hlo, by norm_num; exact hhi⟩]
  refine ⟨?_, htrunc, ?_, ?_, ?_, ?_, ?_⟩
  · simp only [Image.composite] at hcall
    split at hcall
    · split at hcall
      · simp at hcall
      · split at hcall
        · simp at hcall
        · split at hcall
          · next im2 props h0 =>
            split at hcall
            · simp at hcall
            · next hcb =>
              have hcb' : (lastArg args).IsFunction = true := by simpa using hcb
              split at hcall
              · simp at hcall
              · next v hv =>
                simp only [Prod.mk.injEq, true_and] at hcall
                have hlen := composite_call_has_two_arguments args im2 props h0 hcb'
                have hf := composite_options_fields m args v hv hlen
                refine ⟨im2, props, v, h0, hv, hcall.symm, hlen, hf.1, hf.2.1, hf.2.2.1,
                  hf.2.2.2.1, hf.2.2.2.2, ?_⟩
                intro hnone
                have k1 := hnone "comp_op" (by simp)
                have k2 := hnone "opacity" (by simp)
                have k3 := hnone "dx" (by simp)
                have k4 := hnone "dy" (by simp)
                have k5 := hnone "image_filters" (by simp)
                simp only [k1, k2, k3, k4, k5, Bool.false_eq_true, if_false] at hf
                obtain ⟨f1, f2, f3, f4, f5⟩ := hf
                cases v
                simp only [composite_defaults] at f1 f2 f3 f4 f5 ⊢
                subst f1 f2 f3 f4 f5
                rfl
          · simp at hcall
    · simp at hcall
  · intro n hlo hhi
    have ht : truncate n 0 = n := by simp [truncate]
    have hi : IntegerValue m (.number n 0) = n := by
      rw [htrunc n 0 (by rw [ht]; omega) (by rw [ht]; omega), ht]
    rw [hi]
    exact ⟨toInt32_of_int_range n hlo hhi, rfl⟩
  · exact fun mant exp h hlo hhi => NumberValue_float_exact m mant exp h hlo hhi
  · intro mant exp hr
    simp only [NumberValue_float, hr, if_true]
  · intro a0 kind k x props rest hk
    apply composite_options_congr
    · rfl
    · intro key hkey
      apply unknown_key_Has_Get
      intro hkk
      exact hk (hkk ▸ hkey)
  · intro short hshort
    have h2 : ¬ short.length ≥ 2 := by omega
    simp only [composite_options, h2, if_false, composite_defaults]

/-- C14 witness: `composite(image, {comp_op: 5, opacity: 0.5, dx: 3, note: "x",
image_filters: "blur"}, cb)` on the sample image enqueues the record with mode
5, opacity 0.5, dx 3, dy 0 and the one parsed filter. -/
theorem composite_job_record_witness :
    ∃ im2 props v,
      argAt [handle_ 0, .object .plain [("comp_op", .int 5), ("opacity", .number 1 (-1)),
        ("dx", .int 3), ("note", .string "x"), ("image_filters", .string "blur")],
        sampleCallback] 0 = .object (.Image im2) props ∧
      v.mode = 5 ∧ v.opacity = (1, -1) ∧ v.dx = 3 ∧ v.dy = 0 ∧ v.filters = [0] ∧
      (Image.composite sampleMapnik sampleState 0
        [handle_ 0, .object .plain [("comp_op", .int 5), ("opacity", .number 1 (-1)),
          ("dx", .int 3), ("note", .string "x"), ("image_filters", .string "blur")],
          sampleCallback]).2 =
        ((sampleState.uv_queue_work
          (.Composite (composite_closure 0 im2 v sampleCallback))).Ref 0).Ref im2 := by
  obtain ⟨im2, props, v, h0, _, hst, _, hmode, hop, hdx, hdy, hfil, _⟩ :=
    (composite_job_record sampleMapnik sampleState 0
      [handle_ 0, .object .plain [("comp_op", .int 5), ("opacity", .number 1 (-1)),
        ("dx", .int 3), ("note", .string "x"), ("image_filters", .string "blur")],
        sampleCallback] _ rfl).1
  refine ⟨im2, props, v, h0, ?_, ?_, ?_, ?_, ?_, hst⟩
  · rw [hmode]; decide
  · rw [hop]; decide
  · rw [hdx]; decide
  · rw [hdy]; decide
  · have h : sampleMapnik.parse_image_filters "blur" = .ok (some v.filters) := hfil
    have h2 : sampleMapnik.parse_image_filters "blur" = .ok (some [0]) := rfl
    rw [h2] at h
    simp only [Except.ok.injEq, Option.some.injEq] at h
    exact h.symm


/-! ## C15 -/

theorem encode_arguments_palette (args : List Value) (hlen : 2 ≤ args.length)
    (hfmt : (argAt args 0).IsString = true) (hobj : (argAt args 1).IsObject = true)
    (hhas : (argAt args 1).Has "palette" = true) :
    (((argAt args 1).Get "palette").IsObject = false →
      encode_arguments args = .error (Exception.TypeError "'palette' must be an object")) ∧
    (((argAt args 1).Get "palette").IsObject = true →
      (∀ p props, (argAt args 1).Get "palette" ≠ .object (.Palette p) props) →
      encode_arguments args =
        .error (Exception.TypeError "mapnik.Palette expected as second arg")) := by
  have h2 : args.length ≥ 2 := hlen
  have h1 : ¬ ((decide (args.length ≥ 1) && !(argAt args 0).IsString) = true) := by
    simp [hfmt]
  unfold encode_arguments
  simp only [h1, if_false, h2, if_true, hobj, Bool.not_true, Bool.false_eq_true, hhas]
  constructor
  · intro hno
    cases h5 : (argAt args 1).Get "palette" with
    | object kind props => rw [h5] at hno; simp [Value.IsObject] at hno
    | _ => rfl
  · intro hyes hnot
    cases h5 : (argAt args 1).Get "palette" with
    | object kind props =>
      cases kind with
      | Palette p => exact absurd h5 (hnot p props)
      | _ => rfl
    | _ => rw [h5] at hyes; simp [Value.IsObject] at hyes

theorem composite_of_error (m : Mapnik) (st : State) (self : Nat) (args : List Value)
    (im2 : Nat) (props : List (String × Value)) (e : Value)
    (hver : m.MAPNIK_VERSION ≥ 200100) (h0 : argAt args 0 = .object (.Image im2) props)
    (hcb : (lastArg args).IsFunction = true) (he : composite_options m args = .error e) :
    Image.composite m st self args = (.throw e, st) := by
  have hlen := composite_call_has_two_arguments args im2 props h0 hcb
  have h1 : ¬ args.length < 1 := by omega
  simp only [Image.composite, hver, if_true, h1, if_false, h0, Value.IsObject, Bool.not_true,
    Bool.false_eq_true, hcb, he]

theorem composite_options_chain (m : Mapnik) (args : List Value) (hlen : 2 ≤ args.length)
    (hobj : (argAt args 1).IsObject = true) :
    composite_options m args =
      (composite_comp_op m (argAt args 1) (composite_defaults m)).bind fun v =>
      (composite_opacity m (argAt args 1) v).bind fun v =>
      (composite_dx m (argAt args 1) v).bind fun v =>
      (composite_dy m (argAt args 1) v).bind fun v =>
      composite_image_filters m (argAt args 1) v := by
  have h2 : args.length ≥ 2 := hlen
  simp only [composite_options, h2, if_true, hobj, Bool.not_true, Bool.false_eq_true, if_false,
    composite_defaults]

theorem composite_comp_op_pass (m : Mapnik) (o : Value) (v : composite_locals)
    (h : o.Has "comp_op" = false ∨ (o.Get "comp_op").IsNumber = true) :
    ∃ v1, composite_comp_op m o v = .ok v1 := by
  unfold composite_comp_op
  by_cases hh : o.Has "comp_op" = true
  · rcases h with h | h
    · rw [h] at hh; cases hh
    · simp only [hh, if_true, h, Bool.not_true, Bool.false_eq_true, if_false]
      exact ⟨_, rfl⟩
  · simp only [hh, if_false, Bool.false_eq_true]
    exact ⟨_, rfl⟩

theorem composite_opacity_pass (m : Mapnik) (o : Value) (v : composite_locals)
    (h : o.Has "opacity" = false ∨ (o.Get "opacity").IsNumber = true) :
    ∃ v1, composite_opacity m o v = .ok v1 := by
  unfold composite_opacity
  by_cases hh : o.Has "opacity" = true
  · rcases h with h | h
    · rw [h] at hh; cases hh
    · simp only [hh, if_true, h, Bool.not_true, Bool.false_eq_true, if_false]
      exact ⟨_, rfl⟩
  · simp only [hh, if_false, Bool.false_eq_true]
    exact ⟨_, rfl⟩

theorem composite_dx_pass (m : Mapnik) (o : Value) (v : composite_locals)
    (h : o.Has "dx" = false ∨ (o.Get "dx").IsNumber = true) :
    ∃ v1, composite_dx m o v = .ok v1 := by
  unfold composite_dx
  by_cases hh : o.Has "dx" = true
  · rcases h with h | h
    · rw [h] at hh; cases hh
    · simp only [hh, if_true, h, Bool.not_true, Bool.false_eq_true, if_false]
      exact ⟨_, rfl⟩
  · simp only [hh, if_false, Bool.false_eq_true]
    exact ⟨_, rfl⟩

theorem composite_dy_pass (m : Mapnik) (o : Value) (v : composite_locals)
    (h : o.Has "dy" = false ∨ (o.Get "dy").IsNumber = true) :
    ∃ v1, composite_dy m o v = .ok v1 := by
  unfold composite_dy
  by_cases hh : o.Has "dy" = true
  · rcases h with h | h
    · rw [h] at hh; cases hh
    · simp only [hh, if_true, h, Bool.not_true, Bool.false_eq_true, if_false]
      exact ⟨_, rfl⟩
  · simp only [hh, if_false, Bool.false_eq_true]
    exact ⟨_, rfl⟩

/-- C15 as stated fails: `encodeSync("png", {palette: {}})` fails with a message
that names the type `Palette` and not the key `palette`, and
`composite(image, {comp_op: "x", dx: "y"}, cb)` fails with the message for
`comp_op`, which does not contain `dx`. -/
theorem wrong_type_option_counterexample :
    Image.encodeSync sampleMapnik sampleState 0
        [.string "png", .object .plain [("palette", .object .plain [])]] =
      (.throw (Exception.TypeError "mapnik.Palette expected as second arg"), sampleState) ∧
    mentions "mapnik.Palette expected as second arg" "palette" = false ∧
    Image.composite sampleMapnik sampleState 0
        [handle_ 0, .object .plain [("comp_op", .string "x"), ("dx", .string "y")],
          sampleCallback] =
      (.throw (Exception.TypeError "comp_op must be a mapnik.compositeOp value"), sampleState) ∧
    mentions "comp_op must be a mapnik.compositeOp value" "dx" = false :=
  ⟨rfl, by decide, rfl, by decide⟩


/-- C15 (amended): in `encodeSync` and `encode` with a string format and an
object as second argument, a `palette` that is not an object fails with the
type error "'palette' must be an object", and a `palette` object that is not a
Palette fails with the type error "mapnik.Palette expected as second arg". In
`composite` with an image first, a callback last and an object as second
argument, the first of `comp_op`, `opacity`, `dx`, `dy` (to be numbers) and
`image_filters` (to be a string), in this order, that is present with a value
of another type makes the call fail with a type error whose message contains
the name of that key. In all these cases the state is unchanged. -/
theorem wrong_type_option_is_reported (m : Mapnik) (st : State) (self : Nat)
    (args : List Value) :
    (2 ≤ args.length → (argAt args 0).IsString = true → (argAt args 1).IsObject = true →
      (argAt args 1).Has "palette" = true →
      (((argAt args 1).Get "palette").IsObject = false →
        Image.encodeSync m st self args =
          (.throw (Exception.TypeError "'palette' must be an object"), st) ∧
        Image.encode m st self args =
          (.throw (Exception.TypeError "'palette' must be an object"), st)) ∧
      (((argAt args 1).Get "palette").IsObject = true →
        (∀ p props, (argAt args 1).Get "palette" ≠ .object (.Palette p) props) →
        Image.encodeSync m st self args =
          (.throw (Exception.TypeError "mapnik.Palette expected as second arg"), st) ∧
        Image.encode m st self args =
          (.throw (Exception.TypeError "mapnik.Palette expected as second arg"), st))) ∧
    (m.MAPNIK_VERSION ≥ 200100 → (∃ im2 props, argAt args 0 = .object (.Image im2) props) →
      (lastArg args).IsFunction = true → (argAt args 1).IsObject = true →
      (((argAt args 1).Has "comp_op" = true ∧
          ((argAt args 1).Get "comp_op").IsNumber = false) →
        Image.composite m st self args =
          (.throw (Exception.TypeError "comp_op must be a mapnik.compositeOp value"), st)) ∧
      (((argAt args 1).Has "comp_op" = false ∨
          ((argAt args 1).Get "comp_op").IsNumber = true) →
        ((argAt args 1).Has "opacity" = true ∧
          ((argAt args 1).Get "opacity").IsNumber = false) →
        Image.composite m st self args =
          (.throw (Exception.TypeError "opacity must be a floating point number"), st)) ∧
      (((argAt args 1).Has "comp_op" = false ∨
          ((argAt args 1).Get "comp_op").IsNumber = true) →
        ((argAt args 1).Has "opacity" = false ∨
          ((argAt args 1).Get "opacity").IsNumber = true) →
        ((argAt args 1).Has "dx" = true ∧ ((argAt args 1).Get "dx").IsNumber = false) →
        Image.composite m st self args =
          (.throw (Exception.TypeError "dx must be an integer"), st)) ∧
      (((argAt args 1).Has "comp_op" = false ∨
          ((argAt args 1).Get "comp_op").IsNumber = true) →
        ((argAt args 1).Has "opacity" = false ∨
          ((argAt args 1).Get "opacity").IsNumber = true) →
        ((argAt args 1).Has "dx" = false ∨ ((argAt args 1).Get "dx").IsNumber = true) →
        ((argAt args 1).Has "dy" = true ∧ ((argAt args 1).Get "dy").IsNumber = false) →
        Image.composite m st self args =
          (.throw (Exception.TypeError "dy must be an integer"), st)) ∧
      (((argAt args 1).Has "comp_op" = false ∨
          ((argAt args 1).Get "comp_op").IsNumber = true) →
        ((argAt args 1).Has "opacity" = false ∨
          ((argAt args 1).Get "opacity").IsNumber = true) →
        ((argAt args 1).Has "dx" = false ∨ ((argAt args 1).Get "dx").IsNumber = true) →
        ((argAt args 1).Has "dy" = false ∨ ((argAt args 1).Get "dy").IsNumber = true) →
        ((argAt args 1).Has "image_filters" = true ∧
          ((argAt args 1).Get "image_filters").IsString = false) →
        Image.composite m st self args =
          (.throw (Exception.TypeError "image_filters argument must string of filter names"),
            st))) ∧
    mentions "'palette' must be an object" "palette" = true ∧
    mentions "comp_op must be a mapnik.compositeOp value" "comp_op" = true ∧
    mentions "opacity must be a floating point number" "opacity" = true ∧
    mentions "dx must be an integer" "dx" = true ∧
    mentions "dy must be an integer" "dy" = true ∧
    mentions "image_filters argument must string of filter names" "image_filters" = true := by
  refine ⟨?_, ?_, by decide, by decide, by decide, by decide, by decide, by decide⟩
  · intro hlen hfmt hobj hhas
    have hp := encode_arguments_palette args hlen hfmt hobj hhas
    constructor
    · intro hno
      rw [encodeSync_eq, encode_eq, hp.1 hno]
      exact ⟨rfl, rfl⟩
    · intro hyes hnot
      rw [encodeSync_eq, encode_eq, hp.2 hyes hnot]
      exact ⟨rfl, rfl⟩
  · intro hver himg hcb hobj
    obtain ⟨im2, props, h0⟩ := himg
    have hlen := composite_call_has_two_arguments args im2 props h0 hcb
    have hchain := composite_options_chain m args hlen hobj
    refine ⟨?_, ?_, ?_, ?_, ?_⟩
    · intro hbad
      apply composite_of_error m st self args im2 props _ hver h0 hcb
      rw [hchain]
      simp only [composite_comp_op, hbad.1, hbad.2, if_true, Bool.not_false]
      rfl
    · intro f1 hbad
      apply composite_of_error m st self args im2 props _ hver h0 hcb
      obtain ⟨v1, e1⟩ := composite_comp_op_pass m (argAt args 1) (composite_defaults m) f1
      rw [hchain, e1]
      simp only [Except.bind, composite_opacity, hbad.1, hbad.2, if_true, Bool.not_false]
    · intro f1 f2 hbad
      apply composite_of_error m st self args im2 props _ hver h0 hcb
      obtain ⟨v1, e1⟩ := composite_comp_op_pass m (argAt args 1) (composite_defaults m) f1
      obtain ⟨v2, e2⟩ := composite_opacity_pass m (argAt args 1) v1 f2
      rw [hchain, e1]
      simp only [Except.bind, e2, composite_dx, hbad.1, hbad.2, if_true, Bool.not_false]
    · intro f1 f2 f3 hbad
      apply composite_of_error m st self args im2 props _ hver h0 hcb
      obtain ⟨v1, e1⟩ := composite_comp_op_pass m (argAt args 1) (composite_defaults m) f1
      obtain ⟨v2, e2⟩ := composite_opacity_pass m (argAt args 1) v1 f2
      obtain ⟨v3, e3⟩ := composite_dx_pass m (argAt args 1) v2 f3
      rw [hchain, e1]
      simp only [Except.bind, e2, e3, composite_dy, hbad.1, hbad.2, if_true, Bool.not_false]
    · intro f1 f2 f3 f4 hbad
      apply composite_of_error m st self args im2 props _ hver h0 hcb
      obtain ⟨v1, e1⟩ := composite_comp_op_pass m (argAt args 1) (composite_defaults m) f1
      obtain ⟨v2, e2⟩ := composite_opacity_pass m (argAt args 1) v1 f2
      obtain ⟨v3, e3⟩ := composite_dx_pass m (argAt args 1) v2 f3
      obtain ⟨v4, e4⟩ := composite_dy_pass m (argAt args 1) v3 f4
      rw [hchain, e1]
      simp only [Except.bind, e2, e3, e4, composite_image_filters, hbad.1, hbad.2, if_true,
        Bool.not_false]

/-- C15 witness: `encodeSync("png", {palette: 5})` and the same call of `encode`
report the palette, and `composite(image, {comp_op: 1, dx: "y"}, cb)` reports
`dx`. -/
theorem wrong_type_option_is_reported_witness :
    (Image.encodeSync sampleMapnik sampleState 0
        [.string "png", .object .plain [("palette", .int 5)]] =
      (.throw (Exception.TypeError "'palette' must be an object"), sampleState) ∧
    Image.encode sampleMapnik sampleState 0
        [.string "png", .object .plain [("palette", .int 5)]] =
      (.throw (Exception.TypeError "'palette' must be an object"), sampleState)) ∧
    Image.composite sampleMapnik sampleState 0
        [handle_ 0, .object .plain [("comp_op", .int 1), ("dx", .string "y")],
          sampleCallback] =
      (.throw (Exception.TypeError "dx must be an integer"), sampleState) ∧
    mentions "dx must be an integer" "dx" = true :=
  ⟨((wrong_type_option_is_reported sampleMapnik sampleState 0
      [.string "png", .object .plain [("palette", .int 5)]]).1
      (by decide) rfl rfl rfl).1 rfl,
   ((wrong_type_option_is_reported sampleMapnik sampleState 0
      [handle_ 0, .object .plain [("comp_op", .int 1), ("dx", .string "y")],
        sampleCallback]).2.1
      (by decide) ⟨0, [], rfl⟩ rfl rfl).2.2.1 (.inr rfl) (.inl rfl) ⟨rfl, rfl⟩,
   (wrong_type_option_is_reported sampleMapnik sampleState 0 []).2.2.2.2.2.1⟩


/-! ## C16 -/

theorem mentions_append (a name b : String) : mentions (a ++ name ++ b) name = true := by
  simp only [mentions, String.data_append, List.any_eq_true, List.mem_tails]
  refine ⟨name.data ++ b.data, ⟨a.data, by simp⟩, ?_⟩
  rw [List.isPrefixOf_iff_prefix]
  exact List.prefix_append _ _

theorem c_str_of_no_nul (s : String) (h : ∀ ch ∈ s.data, ch ≠ Char.ofNat 0) : c_str s = s := by
  have ht : (s.data.takeWhile fun ch => ch != Char.ofNat 0) = s.data := by
    rw [List.takeWhile_eq_self_iff]
    intro ch hch
    simpa using h ch hch
  simp only [c_str, ht]

/-- C16 (as stated, refuted): the filename is cut at its first NUL before it is
used. For the filename `out.png`, NUL, `.xyz` the guess on the whole name is
"<unknown>", yet `save` writes the file `out.png` as `png`; for `image.xyz`,
NUL, `abc` the call fails and the message does not contain the filename. -/
theorem save_format_choice_counterexample :
    sampleMapnik.guess_type "out.png\x00.xyz" = "<unknown>" ∧
    Image.save sampleMapnik sampleState 0 [.string "out.png\x00.xyz"] =
      (.value .undefined,
        { sampleState with
          files := [("out.png", "png", (sampleState.image 0).this_.data)] }) ∧
    Image.save sampleMapnik sampleState 0 [.string "image.xyz\x00abc"] =
      (.throw (Exception.Error "unknown output extension for: image.xyz\n"), sampleState) ∧
    mentions "unknown output extension for: image.xyz\n" "image.xyz\x00abc" = false :=
  ⟨by decide, rfl, rfl, by decide⟩

/-- C16 (amended): `save` uses of each string argument the characters before
its first NUL (`TOSTR`), which are the whole string when it has no NUL. With
the format omitted, `save(filename)` fails when the format guessed from that
filename is "<unknown>", with an error whose message is "unknown output
extension for: ", the filename and a line feed, so contains the filename, and
the state with its list of written files is unchanged; otherwise it calls the
writer with the image data, the filename and the guess. `save(filename,
format)` calls the writer with the image data, the filename and that format,
whatever the guessing function is. In both cases the file is recorded when the
writer returns and its message is thrown when it fails. -/
theorem save_format_choice (m : Mapnik) (st : State) (self : Nat) (name : String) :
    (m.guess_type (TOSTR (.string name)) = "<unknown>" →
      Image.save m st self [.string name] =
        (.throw (Exception.Error
          ("unknown output extension for: " ++ TOSTR (.string name) ++ "\n")), st) ∧
      mentions ("unknown output extension for: " ++ TOSTR (.string name) ++ "\n")
        (TOSTR (.string name)) = true ∧
      (Image.save m st self [.string name]).2.files = st.files) ∧
    (m.guess_type (TOSTR (.string name)) ≠ "<unknown>" →
      Image.save m st self [.string name] =
        match m.save_to_file (st.image self).this_.data (TOSTR (.string name))
            (m.guess_type (TOSTR (.string name))) with
        | .ok _ =>
          (.value .undefined,
            { st with
              files := st.files ++ [(TOSTR (.string name), m.guess_type (TOSTR (.string name)),
                (st.image self).this_.data)] })
        | .error what => (.throw (Exception.Error what), st)) ∧
    (∀ format : String,
      Image.save m st self [.string name, .string format] =
        match m.save_to_file (st.image self).this_.data (TOSTR (.string name))
            (TOSTR (.string format)) with
        | .ok _ =>
          (.value .undefined,
            { st with
              files := st.files ++ [(TOSTR (.string name), TOSTR (.string format),
                (st.image self).this_.data)] })
        | .error what => (.throw (Exception.Error what), st)) ∧
    (∀ (format : String) (g : String → String),
      Image.save { m with guess_type := g } st self [.string name, .string format] =
        Image.save m st self [.string name, .string format]) ∧
    ((∀ ch ∈ name.data, ch ≠ Char.ofNat 0) → TOSTR (.string name) = name) := by
  refine ⟨?_, ?_, ?_, ?_, ?_⟩
  · intro hg
    have h : Image.save m st self [.string name] =
        (.throw (Exception.Error
          ("unknown output extension for: " ++ TOSTR (.string name) ++ "\n")), st) := by
      simp [Image.save, argAt, Value.IsString, hg]
    refine ⟨h, mentions_append _ _ _, ?_⟩
    rw [h]
  · intro hg
    simp [Image.save, argAt, Value.IsString, hg]
  · intro format
    simp [Image.save, argAt, Value.IsString]
  · intro format g
    simp [Image.save, argAt, Value.IsString]
  · intro h
    exact c_str_of_no_nul name h

/-- C16 witness: `save("image.xyz")` with a library that cannot guess the format
of `image.xyz`, and `save("out.png")`, which writes `out.png` as `png`. -/
theorem save_format_choice_witness :
    sampleMapnik.guess_type "image.xyz" = "<unknown>" ∧
    Image.save sampleMapnik sampleState 0 [.string "image.xyz"] =
      (.throw (Exception.Error "unknown output extension for: image.xyz\n"), sampleState) ∧
    Image.save sampleMapnik sampleState 0 [.string "out.png"] =
      (.value .undefined,
        { sampleState with
          files := [("out.png", "png", (sampleState.image 0).this_.data)] }) :=
  ⟨by decide,
   ((save_format_choice sampleMapnik sampleState 0 "image.xyz").1 (by decide)).1,
   (save_format_choice sampleMapnik sampleState 0 "out.png").2.1 (by decide)⟩

/-! ## C17 -/

theorem unsupported_messages_differ (filename : String) :
    "Unsupported image format:" ++ filename ≠ "Unsupported image format: " ++ filename := by
  intro h
  have hl := congrArg String.length h
  simp only [String.length_append] at hl
  have h1 : "Unsupported image format:".length = 25 := by decide
  have h2 : "Unsupported image format: ".length = 26 := by decide
  omega

/-- C17 (code defect): for a filename (its characters before the first NUL)
whose type cannot be determined, `openSync(filename)` throws a type error with
the message "Unsupported image format:" directly followed by the filename,
without the space, which is not the text "Unsupported image format: " followed
by the filename. The worker of `open` records that text, with the space,
followed by the filename it reads. When the type is known and no reader can be
constructed, `openSync` throws and the worker records "Failed to load: "
followed by the filename. The record that `open(filename, cb)` enqueues points
to the characters of a string that is destroyed when `open` returns. -/
theorem openSync_unsupported_message_differs (m : Mapnik) (st : State) (name : String)
    (cb : Value) (hcb : cb.IsFunction = true) :
    (m.type_from_filename (TOSTR (.string name)) = none →
      Image.openSync m st [.string name] =
        (.throw (Exception.TypeError ("Unsupported image format:" ++ TOSTR (.string name))),
          st) ∧
      "Unsupported image format:" ++ TOSTR (.string name) ≠
        "Unsupported image format: " ++ TOSTR (.string name)) ∧
    (∀ c : image_ptr_baton_t, m.type_from_filename c.data.toFilename = none →
      (Image.EIO_Open m c).error = true ∧
      (Image.EIO_Open m c).error_name = "Unsupported image format: " ++ c.data.toFilename) ∧
    (∀ type, m.type_from_filename (TOSTR (.string name)) = some type →
      m.get_image_reader (TOSTR (.string name)) type = .ok none →
      Image.openSync m st [.string name] =
        (.throw (Exception.TypeError ("Failed to load: " ++ TOSTR (.string name))), st)) ∧
    (∀ (c : image_ptr_baton_t) type, m.type_from_filename c.data.toFilename = some type →
      m.get_image_reader c.data.toFilename type = .ok none →
      (Image.EIO_Open m c).error = true ∧
      (Image.EIO_Open m c).error_name = "Failed to load: " ++ c.data.toFilename) ∧
    Image.open m st [.string name, cb] =
      (.value .undefined,
        st.uv_queue_work
          (.Open (open_closure (.chars (m.dead_chars (TOSTR (.string name)))) cb))) := by
  refine ⟨?_, ?_, ?_, ?_, ?_⟩
  · intro hnone
    refine ⟨?_, unsupported_messages_differ _⟩
    simp [Image.openSync, argAt, Value.IsString, hnone]
  · intro c hnone
    simp [Image.EIO_Open, hnone]
  · intro type htype hreader
    simp [Image.openSync, argAt, Value.IsString, htype, hreader]
  · intro c type htype hreader
    simp [Image.EIO_Open, htype, hreader, read_into_closure]
  · simp [Image.open, argAt, lastArg, Value.IsString, hcb, open_closure]

/-- C17 witness: `openSync("image.xyz")` with a library that knows no type for
`image.xyz`, the worker on a record that holds these characters, and
`openSync("in.png")`, for which the library has no reader. -/
theorem openSync_unsupported_message_differs_witness :
    Image.openSync sampleMapnik sampleState [.string "image.xyz"] =
      (.throw (Exception.TypeError "Unsupported image format:image.xyz"), sampleState) ∧
    (Image.EIO_Open sampleMapnik (open_closure (.chars "image.xyz") sampleCallback)).error_name =
      "Unsupported image format: image.xyz" ∧
    Image.openSync sampleMapnik sampleState [.string "in.png"] =
      (.throw (Exception.TypeError "Failed to load: in.png"), sampleState) :=
  ⟨((openSync_unsupported_message_differs sampleMapnik sampleState "image.xyz" sampleCallback
      rfl).1 (by decide)).1,
   ((openSync_unsupported_message_differs sampleMapnik sampleState "image.xyz" sampleCallback
      rfl).2.1 (open_closure (.chars "image.xyz") sampleCallback) (by decide)).2,
   (openSync_unsupported_message_differs sampleMapnik sampleState "in.png" sampleCallback
      rfl).2.2.1 "png" (by decide) rfl⟩

/-! ## C18 -/

theorem Unwrap_Color_foreign (foreign : Value → Option color) (value : Value)
    (hnot : ∀ c props, value ≠ .object (.Color c) props) :
    Unwrap_Color foreign value = foreign value := by
  cases value with
  | object kind props =>
    cases kind with
    | Color c => exact absurd rfl (hnot c props)
    | _ => rfl
  | _ => rfl

/-- C18: writing `background` with a value that is not a Color object schedules
the type error "mapnik.Color expected" and, there being no `return`, goes on to
`Unwrap` and `set_background`: when the unwrapping yields a color, that color
becomes the background of the image and the type error is thrown; when it stops
the process, no type error is thrown. -/
theorem set_background_reached_after_type_error (foreign : Value → Option color) (st : State)
    (self : Nat) (value : Value) (hnot : ∀ c props, value ≠ .object (.Color c) props) :
    (∀ c, foreign value = some c →
      Image.set_prop foreign st self "background" value =
        (.throw (Exception.TypeError "mapnik.Color expected"),
          st.setBuffer self { (st.image self).this_ with background := some c })) ∧
    (foreign value = none →
      Image.set_prop foreign st self "background" value = (.uncaught "", st)) := by
  have hu := Unwrap_Color_foreign foreign value hnot
  constructor
  · intro c hc
    rw [hc] at hu
    simp only [Image.set_prop, if_true, hu]
  · intro hc
    rw [hc] at hu
    simp only [Image.set_prop, if_true, hu]

/-- C18 witness: `image.background = {}` on the sample image, whose background
is unset, when the unwrapping reads the color (1, 2, 3, 4): the type error is
thrown and the background reads back as that color. -/
theorem set_background_reached_after_type_error_witness :
    Image.get_prop sampleState 0 "background" = .undefined ∧
    (Image.set_prop (fun _ => some ⟨1, 2, 3, 4⟩) sampleState 0 "background"
        (.object .plain [])).1 = .throw (Exception.TypeError "mapnik.Color expected") ∧
    Image.get_prop (Image.set_prop (fun _ => some ⟨1, 2, 3, 4⟩) sampleState 0 "background"
        (.object .plain [])).2 0 "background" = Color.New ⟨1, 2, 3, 4⟩ := by
  have h := (set_background_reached_after_type_error (fun _ => some ⟨1, 2, 3, 4⟩) sampleState 0
    (.object .plain []) (fun c props hc => by cases hc)).1 ⟨1, 2, 3, 4⟩ rfl
  rw [h]
  exact ⟨rfl, rfl, rfl⟩


/-! ## C19 -/

theorem excessBits_lower (prec : Nat) : ∀ (fuel n : Nat), 0 < excessBits prec fuel n →
    2 ^ (prec + excessBits prec fuel n - 1) ≤ n := by
  intro fuel
  induction fuel with
  | zero => intro n h; simp [excessBits] at h
  | succ fuel ih =>
    intro n h
    by_cases hn : n < 2 ^ prec
    · simp [excessBits, hn] at h
    · have he : excessBits prec (fuel + 1) n = excessBits prec fuel (n / 2) + 1 := by
        simp [excessBits, hn]
      rw [he]
      have hs : prec + (excessBits prec fuel (n / 2) + 1) - 1 =
          prec + excessBits prec fuel (n / 2) := by omega
      rw [hs]
      by_cases h0 : excessBits prec fuel (n / 2) = 0
      · rw [h0, Nat.add_zero]
        exact Nat.le_of_not_lt hn
      · have hpos : 0 < excessBits prec fuel (n / 2) := Nat.pos_of_ne_zero h0
        have hi := ih (n / 2) hpos
        have hp : prec + excessBits prec fuel (n / 2) =
            (prec + excessBits prec fuel (n / 2) - 1) + 1 := by omega
        rw [hp, Nat.pow_succ]
        have h2 : n / 2 * 2 ≤ n := Nat.div_mul_le_self n 2
        calc 2 ^ (prec + excessBits prec fuel (n / 2) - 1) * 2 ≤ n / 2 * 2 :=
              Nat.mul_le_mul_right 2 hi
          _ ≤ n := h2

theorem roundToDouble_le (n d j : Nat) (hd : d < 2 ^ 53) (h : n ≤ d * 2 ^ j) :
    roundToDouble n ≤ d * 2 ^ j := by
  have hdown : n / 2 ^ excessBits 53 n n * 2 ^ excessBits 53 n n ≤ d * 2 ^ j :=
    Nat.le_trans (Nat.div_mul_le_self _ _) h
  have hup : 2 ^ excessBits 53 n n ≤ 2 * (n % 2 ^ excessBits 53 n n) →
      (n / 2 ^ excessBits 53 n n + 1) * 2 ^ excessBits 53 n n ≤ d * 2 ^ j := by
    intro hrem
    have hpow : 0 < 2 ^ excessBits 53 n n := Nat.two_pow_pos _
    have hrem0 : 0 < n % 2 ^ excessBits 53 n n := by omega
    have he : 0 < excessBits 53 n n := by
      apply Nat.pos_of_ne_zero
      intro h0
      rw [h0, Nat.pow_zero, Nat.mod_one] at hrem0
      exact Nat.lt_irrefl 0 hrem0
    have hlow := excessBits_lower 53 n n he
    by_cases hj : excessBits 53 n n ≤ j
    · obtain ⟨k, hk⟩ := Nat.exists_eq_add_of_le hj
      have hD : d * 2 ^ j = d * 2 ^ k * 2 ^ excessBits 53 n n := by
        rw [hk, Nat.pow_add]; ring
      rw [hD]
      apply Nat.mul_le_mul_right
      rw [hD] at h
      have hq : n / 2 ^ excessBits 53 n n ≤ d * 2 ^ k := by
        have := Nat.div_le_div_right (c := 2 ^ excessBits 53 n n) h
        rwa [Nat.mul_div_cancel _ hpow] at this
      rcases Nat.lt_or_ge (n / 2 ^ excessBits 53 n n) (d * 2 ^ k) with hlt | hge
      · exact hlt
      · have heq : n / 2 ^ excessBits 53 n n = d * 2 ^ k := Nat.le_antisymm hq hge
        have hdm := Nat.div_add_mod n (2 ^ excessBits 53 n n)
        rw [heq] at hdm
        have : 2 ^ excessBits 53 n n * (d * 2 ^ k) = d * 2 ^ k * 2 ^ excessBits 53 n n :=
          Nat.mul_comm _ _
        omega
    · exfalso
      have hj2 : j + 1 ≤ excessBits 53 n n := by omega
      have h1 : d * 2 ^ j < 2 ^ 53 * 2 ^ j :=
        Nat.mul_lt_mul_of_pos_right hd (Nat.two_pow_pos _)
      have h2 : 2 ^ 53 * 2 ^ j = 2 ^ (53 + j) := (Nat.pow_add 2 53 j).symm
      have h3 : 2 ^ (53 + j) ≤ 2 ^ (53 + excessBits 53 n n - 1) :=
        Nat.pow_le_pow_right (by decide) (by omega)
      omega
  simp only [roundToDouble, roundSignificand]
  split
  · exact hdown
  · split
    · exact hdown
    · next h1 h2 =>
      apply hup
      omega

theorem luminance_le (r g b : Nat) (hr : r ≤ 255) (hg : g ≤ 255) (hb : b ≤ 255) :
    luminance r g b ≤ 255 := by
  have p1 : roundToDouble (r * lit_3) ≤ 153 * 2 ^ 55 := by
    apply roundToDouble_le _ _ _ (by decide)
    have : r * lit_3 ≤ 255 * lit_3 := Nat.mul_le_mul_right _ hr
    have h2 : 255 * lit_3 ≤ 153 * 2 ^ 55 := by decide
    exact Nat.le_trans this h2
  have p2 : roundToDouble (g * lit_59) ≤ 301 * 2 ^ 55 := by
    apply roundToDouble_le _ _ _ (by decide)
    have : g * lit_59 ≤ 255 * lit_59 := Nat.mul_le_mul_right _ hg
    have h2 : 255 * lit_59 ≤ 301 * 2 ^ 55 := by decide
    exact Nat.le_trans this h2
  have p3 : roundToDouble (b * lit_11) ≤ 57 * 2 ^ 55 := by
    apply roundToDouble_le _ _ _ (by decide)
    have : b * lit_11 ≤ 255 * lit_11 := Nat.mul_le_mul_right _ hb
    have h2 : 255 * lit_11 ≤ 57 * 2 ^ 55 := by decide
    exact Nat.le_trans this h2
  have s1 : roundToDouble (roundToDouble (r * lit_3) + roundToDouble (g * lit_59)) ≤
      227 * 2 ^ 56 := by
    apply roundToDouble_le _ _ _ (by decide)
    have e : (153 * 2 ^ 55 + 301 * 2 ^ 55 : Nat) = 227 * 2 ^ 56 := by decide
    omega
  have s2 : roundToDouble
      (roundToDouble (roundToDouble (r * lit_3) + roundToDouble (g * lit_59))
        + roundToDouble (b * lit_11)) ≤ 511 * 2 ^ 55 := by
    apply roundToDouble_le _ _ _ (by decide)
    have e : (227 * 2 ^ 56 + 57 * 2 ^ 55 : Nat) = 511 * 2 ^ 55 := by decide
    omega
  unfold luminance
  have hdiv := Nat.div_le_div_right (c := 2 ^ 56) s2
  have e : 511 * 2 ^ 55 / 2 ^ 56 = 255 := by decide
  omega


theorem or_bytes (a B G R : Nat) (hB : B < 256) (hG : G < 256) (hR : R < 256) :
    (a <<< 24) ||| (B <<< 16) ||| (G <<< 8) ||| R = 2 ^ 24 * a + (2 ^ 16 * B + (2 ^ 8 * G + R)) ∧
    (B <<< 16) ||| (G <<< 8) ||| R = 2 ^ 16 * B + (2 ^ 8 * G + R) := by
  have h1 : 2 ^ 8 * G + R = 2 ^ 8 * G ||| R := Nat.mul_add_lt_is_or (by omega) G
  have h2 : 2 ^ 16 * B + (2 ^ 8 * G + R) = 2 ^ 16 * B ||| (2 ^ 8 * G + R) :=
    Nat.mul_add_lt_is_or (by omega) B
  have h3 : 2 ^ 24 * a + (2 ^ 16 * B + (2 ^ 8 * G + R)) =
      2 ^ 24 * a ||| (2 ^ 16 * B + (2 ^ 8 * G + R)) :=
    Nat.mul_add_lt_is_or (by omega) a
  constructor
  · rw [h3, h2, h1, Nat.or_assoc, Nat.or_assoc, Nat.shiftLeft_eq, Nat.shiftLeft_eq,
      Nat.shiftLeft_eq, Nat.mul_comm a, Nat.mul_comm B, Nat.mul_comm G]
  · rw [h2, h1, Nat.or_assoc, Nat.shiftLeft_eq, Nat.shiftLeft_eq, Nat.mul_comm B,
      Nat.mul_comm G]

theorem and_0xff_le (x : Nat) : x &&& 0xff ≤ 255 := Nat.and_le_right

/-- C19: for channel values `R`, `G`, `B` up to 255 the luminance computed in
double precision is at most 255, so `a << 24` is below `2 ^ 32`, is not changed
by the reduction to 32 bits and has its low 24 bits clear. For every pixel word
read and every color, the word written is below `2 ^ 32`, its top byte is the
luminance of the three channels read, and its low 24 bits are
`(blue << 16) | (green << 8) | red` of the color, that is the three color bytes
side by side. -/
theorem luminance_fits_alpha_byte (c : color) (rgba : Nat) :
    (∀ r g b : Nat, r ≤ 255 → g ≤ 255 → b ≤ 255 →
      luminance r g b ≤ 255 ∧ luminance r g b <<< 24 < 2 ^ 32 ∧
      (luminance r g b <<< 24) % 2 ^ 32 = luminance r g b <<< 24 ∧
      (luminance r g b <<< 24) % 2 ^ 24 = 0) ∧
    grayWord c rgba < 2 ^ 32 ∧
    grayWord c rgba / 2 ^ 24 =
      luminance (rgba &&& 0xff) ((rgba >>> 8) &&& 0xff) ((rgba >>> 16) &&& 0xff) ∧
    grayWord c rgba % 2 ^ 24 = ((c.blue <<< 16) ||| (c.green <<< 8) ||| c.red) ∧
    grayWord c rgba % 2 ^ 24 = c.blue * 2 ^ 16 + c.green * 2 ^ 8 + c.red ∧
    c.blue < 256 ∧ c.green < 256 ∧ c.red < 256 := by
  have hfit : ∀ r g b : Nat, r ≤ 255 → g ≤ 255 → b ≤ 255 →
      luminance r g b ≤ 255 ∧ luminance r g b <<< 24 < 2 ^ 32 ∧
      (luminance r g b <<< 24) % 2 ^ 32 = luminance r g b <<< 24 ∧
      (luminance r g b <<< 24) % 2 ^ 24 = 0 := by
    intro r g b hr hg hb
    have hl := luminance_le r g b hr hg hb
    generalize luminance r g b = a at hl ⊢
    rw [Nat.shiftLeft_eq]
    refine ⟨hl, ?_, ?_, ?_⟩ <;> omega
  have hB : c.blue < 256 := Nat.mod_lt _ (by decide)
  have hG : c.green < 256 := Nat.mod_lt _ (by decide)
  have hR : c.red < 256 := Nat.mod_lt _ (by decide)
  have hl := hfit (rgba &&& 0xff) ((rgba >>> 8) &&& 0xff) ((rgba >>> 16) &&& 0xff)
    (and_0xff_le _) (and_0xff_le _) (and_0xff_le _)
  have hw : grayWord c rgba =
      2 ^ 24 * luminance (rgba &&& 0xff) ((rgba >>> 8) &&& 0xff) ((rgba >>> 16) &&& 0xff) +
        (2 ^ 16 * c.blue + (2 ^ 8 * c.green + c.red)) := by
    simp only [grayWord]
    rw [hl.2.2.1]
    exact (or_bytes _ _ _ _ hB hG hR).1
  have hlow := (or_bytes 0 _ _ _ hB hG hR).2
  generalize luminance (rgba &&& 0xff) ((rgba >>> 8) &&& 0xff) ((rgba >>> 16) &&& 0xff) = a
    at hl hw ⊢
  generalize grayWord c rgba = w at hw ⊢
  generalize c.blue = B at hB hw hlow ⊢
  generalize c.green = G at hG hw hlow ⊢
  generalize c.red = R at hR hw hlow ⊢
  have ha := hl.1
  refine ⟨hfit, ?_, ?_, ?_, ?_, hB, hG, hR⟩
  · omega
  · omega
  · rw [hlow]; omega
  · omega

/-- C19 witness: white has luminance 255, and `255 << 24` is `0xFF000000`. -/
theorem luminance_fits_alpha_byte_witness :
    luminance 255 255 255 ≤ 255 ∧ luminance 255 255 255 <<< 24 < 2 ^ 32 ∧
    (luminance 255 255 255 <<< 24) % 2 ^ 32 = luminance 255 255 255 <<< 24 ∧
    (luminance 255 255 255 <<< 24) % 2 ^ 24 = 0 :=
  (luminance_fits_alpha_byte ⟨255, 0, 0, 255⟩ 0xFFFFFFFF).1 255 255 255
    (by decide) (by decide) (by decide)

end MapnikImage
